import Mathlib

/-!
# go-statemachine: the execution loop of `machine.go`

A shallow embedding of `StateMachine.run`, `mutateUser`, `send` and `stop`.

* One iteration of the `for`/`select` loop of `run` is the function `runIter`;
  lines 73-139 are `guardAndPlan`, the critical section (lines 80-138) is
  `critical`, the body of the spawned goroutine (lines 121-137) is `goFunc`.
* The concurrent parts (callers of `send` and `stop`, the goroutines spawned
  for the Actions, the loop) are interleaved by a scheduler: `step` executes
  one scheduler choice (`Label`) and `exec` a list of them.  Every step emits
  the observable effects it performed (`Obs`), so that a run has a trace.
* An iteration of the loop is one step.  The only variable the loop shares
  with the goroutines is `busy`, which a goroutine only ever stores 0 to and
  which the loop reads once per iteration (the compare-and-swap), so a store
  that falls inside an iteration has the effect of one just before or just
  after it.
* What the file does not contain is a parameter: the planner, the Actions, the
  `%v` formatting of the user payload (`Env`), the capacity of the mailbox
  channel `eventsIn` (`eventsInCap`, 0 for an unbuffered channel) and the
  faults of the external Store (`StoreFault`).  A post on `stageDone` is a
  hand-over to the loop.
-/

namespace Statemachine

/-! ## Errors -/

/-- Go `error` values: the sentinel `ErrTerminated`, any other error, and an
error wrapping another one (as `xerrors.Errorf("...: %w", err)` builds). -/
inductive Error where
  | ErrTerminated
  | other (msg : String)
  | wrap (msg : String) (inner : Error)
  deriving DecidableEq, Repr

/-- The chain test `xerrors.Is(err, ErrTerminated)` on a non-nil error. -/
def Error.isTerminated : Error → Bool
  | .ErrTerminated => true
  | .other _ => false
  | .wrap _ inner => inner.isTerminated

/-- The test `xerrors.Is(err, ErrTerminated)`; `none` is the nil error. -/
def xerrorsIs (err : Option Error) : Bool :=
  match err with
  | none => false
  | some e => e.isTerminated

/-! ## Events and their formatting -/

/-- The Go `type Event struct { User interface{} }`; `none` is the nil
interface value. -/
structure Event (U : Type) where
  User : Option U
  deriving DecidableEq, Repr

/-- The text `fmt.Sprintf("%v", aaa)` for an `Event`: a struct prints as its
fields between braces, a nil interface as `<nil>`; `fmtV` is the `%v` text of a
non-nil payload. -/
def sprintfV {U : Type} (fmtV : U → String) (aaa : Event U) : String :=
  "\x7b" ++ (match aaa.User with
             | none => "<nil>"
             | some u => fmtV u) ++ "\x7d"

/-! ## Planner, Actions, Store -/

/-- What one call of an Action does: the events it passes to `ctx.send`, in
order, and the error it returns. -/
structure ActionRun (U : Type) where
  sends : List (Option U)
  res : Option Error

/-- The three results of the planner, and the state value it leaves behind
the pointer it was given. -/
structure PlanResult (S A : Type) where
  nextStep : Option A
  processed : Nat
  err : Option Error
  user : S

/-- The parts supplied by the user of the engine: the planner
(`fsm.planner`), the behaviour of an Action when called on a state value, and
the `%v` formatting of payloads. -/
structure Env (U S A : Type) where
  planner : List (Event U) → S → PlanResult S A
  call : A → S → ActionRun U
  fmtV : U → String

/-- The variables of `run` that the mutation callback assigns. -/
structure Captured (S A : Type) where
  nextStep : Option A
  ustate : Option S
  processed : Nat
  terminated : Bool

/-- The zero values the captured variables are declared with (lines 82-85). -/
def Captured.zero {S A : Type} : Captured S A :=
  { nextStep := none, ustate := none, processed := 0, terminated := false }

/-- The callback of lines 87-97: call the planner on the pending events and
the live state, keep its results, and return nil for the sentinel. -/
def callback {U S A : Type} (planner : List (Event U) → S → PlanResult S A)
    (pendingEvents : List (Event U)) (user : S) : S × Captured S A × Option Error :=
  let r := planner pendingEvents user
  if xerrorsIs r.err then
    (r.user, { nextStep := r.nextStep, ustate := some r.user, processed := r.processed,
               terminated := true }, none)
  else
    (r.user, { nextStep := r.nextStep, ustate := some r.user, processed := r.processed,
               terminated := false }, r.err)

/-- A failure of the Store itself during one `Mutate`: none, one before the
callback is reached (reading the state), or one after it (writing it). -/
inductive StoreFault where
  | ok
  | before (e : Error)
  | after (e : Error)
  deriving DecidableEq, Repr

/-- The stored state of one entity. -/
structure StoredState (S : Type) where
  value : S
  deriving DecidableEq, Repr

/-- Modelled from the spec: the Store is an external collaborator
(`statestore.StoredState.Mutate`), section 6: `mutate(callback) -> error`,
atomic; the callback gets the live state value, an error of the callback
aborts the mutation.  The second component is what the callback assigned, if
it ran. -/
def StoredState.Mutate {S β : Type} (st : StoredState S) (fault : StoreFault)
    (cb : S → S × β × Option Error) : StoredState S × Option β × Option Error :=
  match fault with
  | .before e => (st, none, some e)
  | .after e =>
    match cb st.value with
    | (_, b, some e') => (st, some b, some e')
    | (_, b, none) => (st, some b, some e)
  | .ok =>
    match cb st.value with
    | (_, b, some e') => (st, some b, some e')
    | (s', b, none) => ({ value := s' }, some b, none)

/-! ## Goroutines and the machine -/

/-- The operations of the goroutine of lines 121-137, in program order. -/
inductive GoOp (U S A : Type) where
  | call (a : A) (arg : S)
  | send (evt : Event U)
  | logError (err : Error)
  | storeBusy
  | stageDone
  | nilDeref
  deriving DecidableEq, Repr

/-- The body of `go func() { ... }` (lines 121-137) as the list of operations
it performs: when `nextStep` is not nil the Action is called on the captured
state (during the call it sends its events), an error is logged and the
goroutine returns; otherwise `busy` is stored to 0 and `stageDone` is posted. -/
def goFunc {U S A : Type} (env : Env U S A) (nextStep : Option A) (ustate : Option S) :
    List (GoOp U S A) :=
  match nextStep with
  | some a =>
    match ustate with
    | none => [.nilDeref]
    | some s =>
      let r := env.call a s
      .call a s :: (r.sends.map (fun u => GoOp.send { User := u }) ++
        (match r.res with
         | some err => [.logError err]
         | none => [.storeBusy, .stageDone]))
  | none => [.storeBusy, .stageDone]

/-- The engine instance: the fields of `StateMachine` that `run`, `send` and
`stop` use, the local `pendingEvents` of `run`, and the goroutines in flight
(each one the operations it still has to perform). -/
structure StateMachine (U S A : Type) where
  pendingEvents : List (Event U)
  st : StoredState S
  busy : Int
  eventsIn : List (Event U)
  eventsInCap : Nat
  closing : Bool
  closed : Bool
  goroutines : List (List (GoOp U S A))
  panicked : Bool
  deriving DecidableEq

/-- A freshly started engine instance. -/
def StateMachine.init {U S A : Type} (s0 : S) (cap : Nat) : StateMachine U S A :=
  { pendingEvents := [], st := { value := s0 }, busy := 0, eventsIn := [], eventsInCap := cap,
    closing := false, closed := false, goroutines := [], panicked := false }

/-- Observable effects, in the order they happen. -/
inductive Obs (U S A : Type) where
  | received (evt : Event U)
  | forced
  | planned (batch : List (Event U)) (user : S)
  | trimmed (processed : Nat)
  | dispatched (nextStep : Option A) (ustate : Option S)
  | exited
  | called (a : A) (arg : S)
  | actionFailed (err : Error)
  | released
  | posted
  | sendReturned (err : Option Error)
  | stopReturned (err : Option Error)
  | panic
  deriving DecidableEq, Repr

/-! ## `run` -/

/-- The wrapper `mutateUser` (lines 143-152): hand the callback to the
Store. -/
def mutateUser {S β : Type} (st : StoredState S) (fault : StoreFault)
    (cb : S → S × β × Option Error) : StoredState S × Option β × Option Error :=
  st.Mutate fault cb

/-- Lines 80-138 of `run`, entered after the compare-and-swap set `busy`:
mutate through the planner; return on the sentinel or an error; otherwise
trim the pending events and spawn the goroutine. -/
def critical {U S A : Type} (env : Env U S A) (fsm : StateMachine U S A) (fault : StoreFault) :
    StateMachine U S A × List (Obs U S A) :=
  match mutateUser fsm.st fault (callback env.planner fsm.pendingEvents) with
  | (st', ran, err) =>
    let cap := ran.getD Captured.zero
    let obs : List (Obs U S A) :=
      match ran with
      | some _ => [.planned fsm.pendingEvents fsm.st.value]
      | none => []
    if cap.terminated then
      ({ fsm with st := st', closed := true }, obs ++ [.exited])
    else if err.isSome then
      ({ fsm with st := st', closed := true }, obs ++ [.exited])
    else
      let pendingEvents :=
        if cap.processed < fsm.pendingEvents.length then fsm.pendingEvents.drop cap.processed
        else []
      ({ fsm with st := st', pendingEvents := pendingEvents,
                  goroutines := fsm.goroutines ++ [goFunc env cap.nextStep cap.ustate] },
       obs ++ [.trimmed cap.processed, .dispatched cap.nextStep cap.ustate])

/-- The two literal texts of line 75. -/
def isForce (bbb : String) : Bool :=
  bbb == "{{Removed}}" || bbb == "{{BeeRemoving}}"

/-- Lines 73-139 of `run`: format the event of this iteration, store 0 to
`busy` for the two literal texts, then compare-and-swap `busy` from 0 to 1 and
enter the critical section when that succeeds. -/
def guardAndPlan {U S A : Type} (env : Env U S A) (fsm : StateMachine U S A) (aaa : Event U)
    (fault : StoreFault) : StateMachine U S A × List (Obs U S A) :=
  let bbb := sprintfV env.fmtV aaa
  let forced := isForce bbb
  let fsm1 := if forced then { fsm with busy := 0 } else fsm
  let obs : List (Obs U S A) := if forced then [.forced] else []
  if fsm1.busy = 0 then
    let r := critical env { fsm1 with busy := 1 } fault
    (r.1, obs ++ r.2)
  else
    (fsm1, obs)

/-- The case the `select` of `run` takes. -/
inductive Select (U : Type) where
  | eventsIn (evt : Event U)
  | stageDone
  | closing
  deriving DecidableEq, Repr

/-- One iteration of the loop of `run` (lines 50-140) for the `select` case
taken.  A `return` (with the deferred `close(fsm.closed)`) sets `closed`. -/
def runIter {U S A : Type} (env : Env U S A) (fsm : StateMachine U S A) (sel : Select U)
    (fault : StoreFault) : StateMachine U S A × List (Obs U S A) :=
  match sel with
  | .eventsIn evt =>
    let r := guardAndPlan env { fsm with pendingEvents := fsm.pendingEvents ++ [evt] } evt fault
    (r.1, .received evt :: r.2)
  | .stageDone =>
    if fsm.pendingEvents.length = 0 then (fsm, [])
    else guardAndPlan env fsm { User := none } fault
  | .closing => ({ fsm with closed := true }, [.exited])

/-! ## `send` and `stop` -/

/-- The case a `select` of `send` takes. -/
inductive SendCase where
  | closed
  | eventsIn
  deriving DecidableEq, Repr

/-- Whether `fsm.eventsIn <- evt` can proceed: the loop is parked at its
`select` with nothing buffered (direct hand-over), or the buffer has room. -/
def canSend {U S A : Type} (fsm : StateMachine U S A) : Bool :=
  (!fsm.closed && fsm.eventsIn.isEmpty) || decide (fsm.eventsIn.length < fsm.eventsInCap)

/-- The function `send` (lines 154-162) for the case `pick` of its `select`:
`none` when that case is not ready, otherwise the error returned. -/
def send {U S A : Type} (fsm : StateMachine U S A) (pick : SendCase) : Option (Option Error) :=
  match pick with
  | .closed => if fsm.closed then some (some Error.ErrTerminated) else none
  | .eventsIn => if canSend fsm then some none else none

/-- The results `send` can return in a state: one per ready case of its
`select`; the empty list means the call blocks. -/
def sendResults {U S A : Type} (fsm : StateMachine U S A) : List (Option Error) :=
  [send fsm .closed, send fsm .eventsIn].filterMap id

/-- Line 165 of `stop`: `close(fsm.closing)`; closing a closed channel
panics. -/
def stopClose {U S A : Type} (fsm : StateMachine U S A) : Except String (StateMachine U S A) :=
  if fsm.closing then .error "close of closed channel"
  else .ok { fsm with closing := true }

/-- The case a `select` of `stop` takes. -/
inductive StopCase where
  | closed
  | ctxDone (err : Error)
  deriving DecidableEq, Repr

/-- Lines 167-172 of `stop` for the case `pick` of its `select`: `none` when
the case is not ready, otherwise the error returned (the context is done when
the scheduler says so). -/
def stopSelect {U S A : Type} (fsm : StateMachine U S A) (pick : StopCase) :
    Option (Option Error) :=
  match pick with
  | .closed => if fsm.closed then some none else none
  | .ctxDone err => some (some err)

/-- The function `stop` (lines 164-173) run without interruption. -/
def stop {U S A : Type} (fsm : StateMachine U S A) (pick : StopCase) :
    Except String (StateMachine U S A × Option (Option Error)) :=
  match stopClose fsm with
  | .error p => .error p
  | .ok fsm1 => .ok (fsm1, stopSelect fsm1 pick)

/-! ## The scheduler -/

/-- The choices of the scheduler. -/
inductive Label (U : Type) where
  | send (evt : Event U) (pick : SendCase) (fault : StoreFault)
  | recv (fault : StoreFault)
  | go (i : Nat) (pick : SendCase) (fault : StoreFault)
  | closing
  | stopClose
  | stopSelect (pick : StopCase)
  deriving DecidableEq, Repr

/-- A call of `send` by any caller, for the case `pick`: the state after it,
what it shows, and the `select` case the loop takes when the event is handed
over to the parked loop (with room in the buffer the event is buffered
instead). -/
def doSend {U S A : Type} (fsm : StateMachine U S A) (evt : Event U) (pick : SendCase)
    (fault : StoreFault) :
    Option (StateMachine U S A × List (Obs U S A) × Option (Select U × StoreFault)) :=
  match send fsm pick with
  | none => none
  | some (some err) => some (fsm, [.sendReturned (some err)], none)
  | some none =>
    if fsm.eventsIn.length < fsm.eventsInCap then
      some ({ fsm with eventsIn := fsm.eventsIn ++ [evt] }, [.sendReturned none], none)
    else
      some (fsm, [.sendReturned none], some (.eventsIn evt, fault))

/-- Goroutine `i` performs its next operation `op`; `rest` is what it has left
to do afterwards. -/
def doGo {U S A : Type} (fsm : StateMachine U S A) (i : Nat) (op : GoOp U S A)
    (rest : List (GoOp U S A)) (pick : SendCase) (fault : StoreFault) :
    Option (StateMachine U S A × List (Obs U S A) × Option (Select U × StoreFault)) :=
  match op with
  | .call a arg =>
    some ({ fsm with goroutines := fsm.goroutines.set i rest }, [.called a arg], none)
  | .send evt => doSend { fsm with goroutines := fsm.goroutines.set i rest } evt pick fault
  | .logError err =>
    some ({ fsm with goroutines := fsm.goroutines.eraseIdx i }, [.actionFailed err], none)
  | .storeBusy =>
    some ({ fsm with busy := 0, goroutines := fsm.goroutines.set i rest }, [.released], none)
  | .stageDone =>
    if fsm.closed then none
    else some ({ fsm with goroutines := fsm.goroutines.eraseIdx i }, [.posted],
               some (.stageDone, fault))
  | .nilDeref => some ({ fsm with panicked := true }, [.panic], none)

/-- What the parties other than the loop do in one step of the scheduler, and
the `select` case of `run` the step wakes the loop with, if any; `none` when
the choice is not enabled. -/
def others {U S A : Type} (fsm : StateMachine U S A) (l : Label U) :
    Option (StateMachine U S A × List (Obs U S A) × Option (Select U × StoreFault)) :=
  if fsm.panicked then none
  else
    match l with
    | .send evt pick fault => doSend fsm evt pick fault
    | .recv fault =>
      if fsm.closed then none
      else
        match fsm.eventsIn with
        | [] => none
        | evt :: rest => some ({ fsm with eventsIn := rest }, [], some (.eventsIn evt, fault))
    | .go i pick fault =>
      match fsm.goroutines[i]? with
      | none => none
      | some [] => none
      | some (op :: rest) => doGo fsm i op rest pick fault
    | .closing =>
      if fsm.closed then none
      else if fsm.closing then some (fsm, [], some (.closing, .ok))
      else none
    | .stopClose =>
      match stopClose fsm with
      | .error _ => some ({ fsm with panicked := true }, [.panic], none)
      | .ok fsm1 => some (fsm1, [], none)
    | .stopSelect pick =>
      match stopSelect fsm pick with
      | none => none
      | some err => some (fsm, [.stopReturned err], none)

/-- One step of the system: what the other parties do, then the iteration of
the loop if it was woken; `none` when the choice is not enabled. -/
def step {U S A : Type} (env : Env U S A) (fsm : StateMachine U S A) (l : Label U) :
    Option (StateMachine U S A × List (Obs U S A)) :=
  match others fsm l with
  | none => none
  | some (fsm0, o, none) => some (fsm0, o)
  | some (fsm0, o, some (sel, fault)) =>
    some ((runIter env fsm0 sel fault).1, o ++ (runIter env fsm0 sel fault).2)

/-- A run: the steps of a schedule one after the other, with the trace. -/
def exec {U S A : Type} (env : Env U S A) (fsm : StateMachine U S A) :
    List (Label U) → Option (StateMachine U S A × List (Obs U S A))
  | [] => some (fsm, [])
  | l :: ls =>
    match step env fsm l with
    | none => none
    | some (fsm1, o1) =>
      match exec env fsm1 ls with
      | none => none
      | some (fsm2, o2) => some (fsm2, o1 ++ o2)

/-! ## Reading a trace -/

/-- The events the loop received, in order. -/
def receivedOf {U S A : Type} : List (Obs U S A) → List (Event U)
  | [] => []
  | .received evt :: tr => evt :: receivedOf tr
  | _ :: tr => receivedOf tr

/-- The batches handed to the planner, in order. -/
def plannedOf {U S A : Type} : List (Obs U S A) → List (List (Event U))
  | [] => []
  | .planned b _ :: tr => b :: plannedOf tr
  | _ :: tr => plannedOf tr

/-- The consumed counts of the cycles that trimmed the pending events. -/
def trimmedOf {U S A : Type} : List (Obs U S A) → List Nat
  | [] => []
  | .trimmed n :: tr => n :: trimmedOf tr
  | _ :: tr => trimmedOf tr

/-! ## Notions used in the statements -/

/-- The pending events after the `select` of an iteration: the batch the
planner gets if the iteration plans. -/
def batchOf {U S A : Type} (fsm : StateMachine U S A) (sel : Select U) : List (Event U) :=
  match sel with
  | .eventsIn evt => fsm.pendingEvents ++ [evt]
  | _ => fsm.pendingEvents

/-- Whether the iteration stores 0 to `busy` at line 77: the `select` took an
event whose text is one of the two literals. -/
def selForce {U S A : Type} (env : Env U S A) (sel : Select U) : Bool :=
  match sel with
  | .eventsIn evt => isForce (sprintfV env.fmtV evt)
  | _ => false

/-- The trace of the `select` of an iteration. -/
def recvObs {U S A : Type} (sel : Select U) : List (Obs U S A) :=
  match sel with
  | .eventsIn evt => [.received evt]
  | _ => []

/-- The trace of line 77. -/
def forceObs {U S A : Type} (env : Env U S A) (sel : Select U) : List (Obs U S A) :=
  if selForce env sel then [.forced] else []

/-- A goroutine that still holds the guard and has a well-formed rest: calls
and sends, then either the logged error, or the release and the post. -/
def wfHeld {U S A : Type} : List (GoOp U S A) → Bool
  | [.storeBusy, .stageDone] => true
  | [.logError _] => true
  | [.nilDeref] => true
  | .call _ _ :: rest => wfHeld rest
  | .send _ :: rest => wfHeld rest
  | _ => false

/-- A cycle is in flight while its goroutine has not released the guard: all
it may have left to do after the release is the post on `stageDone`. -/
def holdsGuard {U S A : Type} : List (GoOp U S A) → Bool
  | [] => false
  | [.stageDone] => false
  | _ => true

/-- The goroutines of the cycles in flight. -/
def inFlight {U S A : Type} (fsm : StateMachine U S A) : List (List (GoOp U S A)) :=
  fsm.goroutines.filter holdsGuard

/-- Whether an event is one of those that reset the guard at line 77. -/
def forcing {U S A : Type} (env : Env U S A) (evt : Event U) : Bool :=
  isForce (sprintfV env.fmtV evt)

/-- The guard discipline of a run without forcing events: every goroutine
is well formed, a free guard means that no cycle is in flight, and at most one
goroutine holds the guard. -/
def Guarded {U S A : Type} (busy : Int) (gs : List (List (GoOp U S A))) : Prop :=
  (∀ g ∈ gs, g = [GoOp.stageDone] ∨ wfHeld g = true) ∧
  (busy = 0 → ∀ g ∈ gs, g = [GoOp.stageDone]) ∧
  gs.countP holdsGuard ≤ 1

/-- A stalled instance: the guard is held and no goroutine is left that
would release it. -/
def Stalled {U S A : Type} (busy : Int) (gs : List (List (GoOp U S A))) : Prop :=
  busy ≠ 0 ∧ ∀ g ∈ gs, g = [GoOp.stageDone]

/-- Every batch handed to the planner in the trace is a suffix of the events
received up to its call, `sofar` being those received before the trace. -/
def batchesOrdered {U S A : Type} : List (Event U) → List (Obs U S A) → Prop
  | _, [] => True
  | sofar, .received evt :: tr => batchesOrdered (sofar ++ [evt]) tr
  | sofar, .planned b _ :: tr => b <:+ sofar ∧ batchesOrdered sofar tr
  | sofar, _ :: tr => batchesOrdered sofar tr

/-- The Go slice expression `s[lo:]`: a bound above the length panics
(`none`). -/
def sliceFrom {α : Type} (s : List α) (lo : Nat) : Option (List α) :=
  if lo ≤ s.length then some (s.drop lo) else none

/-- The trim of lines 107-112 with the slice expression as Go evaluates it;
`none` is a panic. -/
def trimPending {U : Type} (processed : Nat) (pendingEvents : List (Event U)) :
    Option (List (Event U)) :=
  if processed < pendingEvents.length then sliceFrom pendingEvents processed else some []

/-- An instance in which no cycle has started yet: nothing is pending, the
guard is free, no goroutine exists. -/
def Fresh {U S A : Type} (fsm : StateMachine U S A) : Prop :=
  fsm.pendingEvents = [] ∧ fsm.busy = 0 ∧ fsm.goroutines = []

/-- The schedule in which the goroutine at index `i` releases the guard and
posts, `n` times over; the Store does not fail. -/
def idleRounds {U : Type} (i : Nat) : Nat → List (Label U)
  | 0 => []
  | n + 1 => .go i .eventsIn .ok :: .go i .eventsIn .ok :: idleRounds i n

/-! ## A concrete instance -/

/-- Sample actions. -/
inductive DemoAction where
  | sendE2
  | failing
  | quiet
  deriving DecidableEq, Repr

/-- Sample environment: payloads are Go strings (printed as they are), the
state counts the planner calls; the planner consumes one event per call, picks
the action by the first payload and returns the sentinel for `"E2"`. -/
def demoEnv : Env String Nat DemoAction :=
  { planner := fun events user =>
      match events with
      | { User := some "E1" } :: _ =>
        { nextStep := some .sendE2, processed := 1, err := none, user := user + 1 }
      | { User := some "E2" } :: _ =>
        { nextStep := none, processed := 1, err := some .ErrTerminated, user := user + 1 }
      | { User := some "fail" } :: _ =>
        { nextStep := some .failing, processed := 1, err := none, user := user + 1 }
      | { User := some "bad" } :: _ =>
        { nextStep := none, processed := 1, err := some (.other "bad plan"), user := user + 1 }
      | { User := some "idle" } :: _ =>
        { nextStep := none, processed := 0, err := none, user := user + 1 }
      | _ => { nextStep := some .quiet, processed := 1, err := none, user := user + 1 }
    call := fun a _ =>
      match a with
      | .sendE2 => { sends := [some "E2"], res := none }
      | .failing => { sends := [], res := some (.other "action failed") }
      | .quiet => { sends := [], res := none }
    fmtV := fun s => s }

/-- A fresh instance with an unbuffered mailbox. -/
def demoInit : StateMachine String Nat DemoAction := StateMachine.init 0 0

/-- An event carrying a Go string. -/
def ev (s : String) : Event String := { User := some s }

/-- The instance after the run `demoPendingRun`: the event `a` is pending, the
guard is free, the goroutine of the first cycle is about to post. -/
def demoPending : StateMachine String Nat DemoAction :=
  { demoInit with
    pendingEvents := [ev "a"], st := { value := 1 }, goroutines := [[.stageDone]] }

/-- A run to `demoPending`: `q` is sent and planned, `a` arrives while the
Action runs, the Action returns nil and the guard is released. -/
def demoPendingRun : List (Label String) :=
  [.send (ev "q") .eventsIn .ok, .send (ev "a") .eventsIn .ok, .go 0 .eventsIn .ok,
   .go 0 .eventsIn .ok]

/-- The instance after `stop` was called on a fresh instance and the loop took
the closing signal (the run `[.stopClose, .closing]`). -/
def demoStopped : StateMachine String Nat DemoAction :=
  { demoInit with closing := true, closed := true }

/-- The scenario of the termination sentinel: `E1` is sent and planned with the
Action that sends `E2`; the Action is called, sends `E2`, returns nil; the
guard is released and the completion signal makes the loop plan `[E2]`, for
which the planner returns the sentinel. -/
def sentinelRun : List (Label String) :=
  [.send (ev "E1") .eventsIn .ok, .go 0 .eventsIn .ok, .go 0 .eventsIn .ok,
   .go 0 .eventsIn .ok, .go 0 .eventsIn .ok]

/-- The instance of the sentinel scenario when the loop takes the completion
signal of the first cycle: `E2` is pending and the guard is free. -/
def demoSecond : StateMachine String Nat DemoAction :=
  { demoInit with pendingEvents := [ev "E2"], st := { value := 1 } }

/-- The instance after `E1` was sent to a fresh instance: the first cycle is in
flight, its Action not yet called. -/
def demoBusy : StateMachine String Nat DemoAction :=
  { demoInit with
    st := { value := 1 }, busy := 1,
    goroutines := [[.call .sendE2 1, .send (ev "E2"), .storeBusy, .stageDone]] }

/-- The trace of the run to `demoBusy`. -/
def demoBusyTrace : List (Obs String Nat DemoAction) :=
  [.sendReturned none, .received (ev "E1"), .planned [ev "E1"] 0, .trimmed 1,
   .dispatched (some .sendE2) (some 1)]

/-- The instance after `fail` was sent to a fresh instance and its Action was
called: the Action has returned its error, which the goroutine is about to
log. -/
def demoFailing : StateMachine String Nat DemoAction :=
  { demoInit with
    st := { value := 1 }, busy := 1, goroutines := [[.logError (.other "action failed")]] }

/-- The trace of the run to `demoFailing`. -/
def demoFailingTrace : List (Obs String Nat DemoAction) :=
  [.sendReturned none, .received (ev "fail"), .planned [ev "fail"] 0, .trimmed 1,
   .dispatched (some .failing) (some 1), .called .failing 1]

/-- A fresh instance whose mailbox buffers two events. -/
def demoBuffered : StateMachine String Nat DemoAction := StateMachine.init 0 2

/-- Two events are sent back-to-back and buffered before the loop has run;
the loop receives `a` and plans, receives `b` while the Action of that cycle
is in flight; the Action is called and returns nil, the guard is released and
the completion signal makes the loop plan again. -/
def backToBackRun : List (Label String) :=
  [.send (ev "a") .eventsIn .ok, .send (ev "b") .eventsIn .ok, .recv .ok, .recv .ok,
   .go 0 .eventsIn .ok, .go 0 .eventsIn .ok, .go 0 .eventsIn .ok]

/-- The instance after `idle` was sent to a fresh instance: the planner
consumed nothing and returned no Action, the goroutine is about to release the
guard. -/
def demoIdle : StateMachine String Nat DemoAction :=
  { demoInit with
    pendingEvents := [ev "idle"], st := { value := 1 }, busy := 1,
    goroutines := [[.storeBusy, .stageDone]] }

/-! ## The iteration of `run`, case by case -/

section Iteration

variable {U S A : Type}

theorem critical_cases (env : Env U S A) (fsm : StateMachine U S A) (fault : StoreFault) :
    (∃ st', (critical env fsm fault).1 = { fsm with st := st', closed := true } ∧
      ((critical env fsm fault).2 = [.exited] ∨
       (critical env fsm fault).2 = [.planned fsm.pendingEvents fsm.st.value, .exited])) ∨
    (fault = .ok ∧ (env.planner fsm.pendingEvents fsm.st.value).err = none ∧
      (critical env fsm fault).1 =
        { fsm with
          st := { value := (env.planner fsm.pendingEvents fsm.st.value).user },
          pendingEvents :=
            if (env.planner fsm.pendingEvents fsm.st.value).processed < fsm.pendingEvents.length
            then fsm.pendingEvents.drop (env.planner fsm.pendingEvents fsm.st.value).processed
            else [],
          goroutines := fsm.goroutines ++
            [goFunc env (env.planner fsm.pendingEvents fsm.st.value).nextStep
              (some (env.planner fsm.pendingEvents fsm.st.value).user)] } ∧
      (critical env fsm fault).2 =
        [.planned fsm.pendingEvents fsm.st.value,
         .trimmed (env.planner fsm.pendingEvents fsm.st.value).processed,
         .dispatched (env.planner fsm.pendingEvents fsm.st.value).nextStep
           (some (env.planner fsm.pendingEvents fsm.st.value).user)]) := by
  unfold critical mutateUser StoredState.Mutate callback
  cases he : (env.planner fsm.pendingEvents fsm.st.value).err with
  | none =>
    cases fault with
    | before e => left; exact ⟨fsm.st, by simp [Captured.zero], by simp [Captured.zero]⟩
    | after e => left; exact ⟨fsm.st, by simp [xerrorsIs, he], by simp [xerrorsIs, he]⟩
    | ok => right; simp [xerrorsIs, he]
  | some e' =>
    left
    by_cases ht : e'.isTerminated = true
    · cases fault with
      | before e => exact ⟨fsm.st, by simp [Captured.zero], by simp [Captured.zero]⟩
      | after e => exact ⟨fsm.st, by simp [xerrorsIs, he, ht], by simp [xerrorsIs, he, ht]⟩
      | ok =>
        exact ⟨{ value := (env.planner fsm.pendingEvents fsm.st.value).user },
          by simp [xerrorsIs, he, ht], by simp [xerrorsIs, he, ht]⟩
    · cases fault with
      | before e => exact ⟨fsm.st, by simp [Captured.zero], by simp [Captured.zero]⟩
      | after e => exact ⟨fsm.st, by simp [xerrorsIs, he, ht], by simp [xerrorsIs, he, ht]⟩
      | ok => exact ⟨fsm.st, by simp [xerrorsIs, he, ht], by simp [xerrorsIs, he, ht]⟩

/-- The placeholder event of a completion signal prints as `{<nil>}`, which is
neither literal of line 75. -/
theorem isForce_nil (fmtV : U → String) :
    isForce (sprintfV fmtV ({ User := none } : Event U)) = false := by
  simp only [sprintfV]
  decide

theorem guardAndPlan_cases (env : Env U S A) (fsm : StateMachine U S A) (aaa : Event U)
    (fault : StoreFault) :
    (isForce (sprintfV env.fmtV aaa) = false ∧ fsm.busy ≠ 0 ∧
      guardAndPlan env fsm aaa fault = (fsm, [])) ∨
    ((isForce (sprintfV env.fmtV aaa) = true ∨ fsm.busy = 0) ∧
      (guardAndPlan env fsm aaa fault).1 = (critical env { fsm with busy := 1 } fault).1 ∧
      (guardAndPlan env fsm aaa fault).2 =
        (if isForce (sprintfV env.fmtV aaa) then [Obs.forced] else []) ++
          (critical env { fsm with busy := 1 } fault).2) := by
  unfold guardAndPlan
  by_cases hf : isForce (sprintfV env.fmtV aaa) = true
  · right; simp [hf]
  · by_cases hb : fsm.busy = 0
    · right; simp [hf, hb]
    · left; simp [hf, hb]

theorem runIter_cases (env : Env U S A) (fsm : StateMachine U S A) (sel : Select U)
    (fault : StoreFault) :
    (sel = .closing ∧ runIter env fsm sel fault = ({ fsm with closed := true }, [.exited])) ∨
    (sel ≠ .closing ∧ selForce env sel = false ∧
      (fsm.busy ≠ 0 ∨ (sel = .stageDone ∧ fsm.pendingEvents = [])) ∧
      runIter env fsm sel fault = ({ fsm with pendingEvents := batchOf fsm sel }, recvObs sel)) ∨
    (sel ≠ .closing ∧ (selForce env sel = true ∨ fsm.busy = 0) ∧ batchOf fsm sel ≠ [] ∧
      (runIter env fsm sel fault).1 =
        (critical env { fsm with pendingEvents := batchOf fsm sel, busy := 1 } fault).1 ∧
      (runIter env fsm sel fault).2 =
        recvObs sel ++ forceObs env sel ++
          (critical env { fsm with pendingEvents := batchOf fsm sel, busy := 1 } fault).2) := by
  cases sel with
  | closing => left; exact ⟨rfl, rfl⟩
  | eventsIn evt =>
    right
    rcases guardAndPlan_cases env { fsm with pendingEvents := fsm.pendingEvents ++ [evt] } evt
      fault with ⟨hf, hb, h⟩ | ⟨hc, h1, h2⟩
    · left
      refine ⟨by simp, by simpa [selForce] using hf, Or.inl (by simpa using hb), ?_⟩
      simp [runIter, h, batchOf, recvObs]
    · right
      refine ⟨by simp, by simpa [selForce] using hc, by simp [batchOf], ?_, ?_⟩
      · simpa [runIter, batchOf] using h1
      · simp [runIter, h2, batchOf, recvObs, forceObs, selForce]
  | stageDone =>
    right
    by_cases hp : fsm.pendingEvents = []
    · left
      refine ⟨by simp, rfl, Or.inr ⟨rfl, hp⟩, ?_⟩
      have hfsm : ({ fsm with pendingEvents := batchOf fsm .stageDone } : StateMachine U S A)
          = fsm := rfl
      rw [hfsm]
      simp [runIter, hp, recvObs]
    · have hlen : ¬ fsm.pendingEvents.length = 0 := by simpa using hp
      rcases guardAndPlan_cases env fsm { User := none } fault with ⟨_, hb, h⟩ | ⟨hc, h1, h2⟩
      · left
        refine ⟨by simp, rfl, Or.inl hb, ?_⟩
        simp [runIter, hlen, h, batchOf, recvObs]
      · right
        have hb : fsm.busy = 0 := by
          rcases hc with hc | hc
          · rw [isForce_nil] at hc; exact absurd hc (by simp)
          · exact hc
        refine ⟨by simp, Or.inr hb, by simpa [batchOf] using hp, ?_, ?_⟩
        · simpa [runIter, hlen, batchOf] using h1
        · simp [runIter, hlen, h2, batchOf, recvObs, forceObs, selForce, isForce_nil]

end Iteration

section Outcome

variable {U S A : Type}

theorem receivedOf_append (t1 t2 : List (Obs U S A)) :
    receivedOf (t1 ++ t2) = receivedOf t1 ++ receivedOf t2 := by
  induction t1 with
  | nil => rfl
  | cons o t ih => cases o <;> simp [receivedOf, ih]

theorem plannedOf_append (t1 t2 : List (Obs U S A)) :
    plannedOf (t1 ++ t2) = plannedOf t1 ++ plannedOf t2 := by
  induction t1 with
  | nil => rfl
  | cons o t ih => cases o <;> simp [plannedOf, ih]

theorem trimmedOf_append (t1 t2 : List (Obs U S A)) :
    trimmedOf (t1 ++ t2) = trimmedOf t1 ++ trimmedOf t2 := by
  induction t1 with
  | nil => rfl
  | cons o t ih => cases o <;> simp [trimmedOf, ih]

theorem receivedOf_recvObs (fsm : StateMachine U S A) (sel : Select U) :
    fsm.pendingEvents ++ receivedOf (recvObs sel : List (Obs U S A)) = batchOf fsm sel := by
  cases sel <;> simp [recvObs, receivedOf, batchOf]

theorem receivedOf_forceObs (env : Env U S A) (sel : Select U) :
    receivedOf (forceObs env sel) = [] ∧ plannedOf (forceObs env sel) = [] ∧
      trimmedOf (forceObs env sel) = [] := by
  unfold forceObs
  split <;> simp [receivedOf, plannedOf, trimmedOf]

theorem plannedOf_recvObs (sel : Select U) :
    plannedOf (recvObs sel : List (Obs U S A)) = [] ∧
      trimmedOf (recvObs sel : List (Obs U S A)) = [] := by
  cases sel <;> simp [recvObs, plannedOf, trimmedOf]

/-- The four ways an iteration of `run` ends: the closing signal, no cycle
started, a return from inside the critical section, a completed cycle. -/
theorem runIter_outcome (env : Env U S A) (fsm : StateMachine U S A) (sel : Select U)
    (fault : StoreFault) :
    (sel = .closing ∧ runIter env fsm sel fault = ({ fsm with closed := true }, [.exited])) ∨
    (sel ≠ .closing ∧ selForce env sel = false ∧
      (fsm.busy ≠ 0 ∨ (sel = .stageDone ∧ fsm.pendingEvents = [])) ∧
      runIter env fsm sel fault = ({ fsm with pendingEvents := batchOf fsm sel }, recvObs sel)) ∨
    (sel ≠ .closing ∧ (selForce env sel = true ∨ fsm.busy = 0) ∧ batchOf fsm sel ≠ [] ∧
      ∃ st' pl, (pl = [] ∨ pl = [Obs.planned (batchOf fsm sel) fsm.st.value]) ∧
        (runIter env fsm sel fault).1 =
          { fsm with pendingEvents := batchOf fsm sel, busy := 1, st := st', closed := true } ∧
        (runIter env fsm sel fault).2 = recvObs sel ++ forceObs env sel ++ (pl ++ [.exited])) ∨
    (sel ≠ .closing ∧ (selForce env sel = true ∨ fsm.busy = 0) ∧ batchOf fsm sel ≠ [] ∧
      fault = .ok ∧ (env.planner (batchOf fsm sel) fsm.st.value).err = none ∧
      (runIter env fsm sel fault).1 =
        { fsm with
          pendingEvents :=
            if (env.planner (batchOf fsm sel) fsm.st.value).processed < (batchOf fsm sel).length
            then (batchOf fsm sel).drop (env.planner (batchOf fsm sel) fsm.st.value).processed
            else [],
          busy := 1,
          st := { value := (env.planner (batchOf fsm sel) fsm.st.value).user },
          goroutines := fsm.goroutines ++
            [goFunc env (env.planner (batchOf fsm sel) fsm.st.value).nextStep
              (some (env.planner (batchOf fsm sel) fsm.st.value).user)] } ∧
      (runIter env fsm sel fault).2 =
        recvObs sel ++ forceObs env sel ++
          [.planned (batchOf fsm sel) fsm.st.value,
           .trimmed (env.planner (batchOf fsm sel) fsm.st.value).processed,
           .dispatched (env.planner (batchOf fsm sel) fsm.st.value).nextStep
             (some (env.planner (batchOf fsm sel) fsm.st.value).user)]) := by
  rcases runIter_cases env fsm sel fault with h | h | ⟨hs, hc, hB, h1, h2⟩
  · exact Or.inl h
  · exact Or.inr (Or.inl h)
  · right; right
    rcases critical_cases env { fsm with pendingEvents := batchOf fsm sel, busy := 1 } fault with
      ⟨st', e1, e2⟩ | ⟨hf, he, e1, e2⟩
    · left
      refine ⟨hs, hc, hB, st', ?_⟩
      rcases e2 with e2 | e2
      · exact ⟨[], Or.inl rfl, by rw [h1, e1], by rw [h2, e2]; simp⟩
      · exact ⟨_, Or.inr rfl, by rw [h1, e1], by rw [h2, e2]; simp⟩
    · right
      exact ⟨hs, hc, hB, hf, he, by rw [h1, e1], by rw [h2, e2]⟩

end Outcome

section Others

variable {U S A : Type}

theorem getElem?_split {α : Type} (l : List α) (i : Nat) (a : α) (h : l[i]? = some a) :
    ∃ l1 l2, l = l1 ++ a :: l2 ∧ (∀ b, l.set i b = l1 ++ b :: l2) ∧ l.eraseIdx i = l1 ++ l2 := by
  induction l generalizing i with
  | nil => simp at h
  | cons x xs ih =>
    cases i with
    | zero =>
      simp at h
      exact ⟨[], xs, by simp [h], by simp, by simp⟩
    | succ n =>
      simp at h
      obtain ⟨l1, l2, h1, h2, h3⟩ := ih n h
      refine ⟨x :: l1, l2, by simp [h1], ?_, ?_⟩
      · intro b; simp [h2 b]
      · simp [h3]

/-- The three ways a call of `send` proceeds. -/
theorem doSend_cases (fsm fsm0 : StateMachine U S A) (evt : Event U) (pick : SendCase)
    (fault : StoreFault) (o : List (Obs U S A)) (w : Option (Select U × StoreFault))
    (h : doSend fsm evt pick fault = some (fsm0, o, w)) :
    (fsm.closed = true ∧ fsm0 = fsm ∧ o = [.sendReturned (some .ErrTerminated)] ∧ w = none) ∨
    (fsm.eventsIn.length < fsm.eventsInCap ∧
      fsm0 = { fsm with eventsIn := fsm.eventsIn ++ [evt] } ∧ o = [.sendReturned none] ∧
      w = none) ∨
    (¬ fsm.eventsIn.length < fsm.eventsInCap ∧ fsm.closed = false ∧ fsm.eventsIn = [] ∧
      fsm0 = fsm ∧ o = [.sendReturned none] ∧ w = some (.eventsIn evt, fault)) := by
  unfold doSend send at h
  cases pick with
  | closed =>
    by_cases hc : fsm.closed = true
    · simp [hc] at h
      left; exact ⟨hc, h.1.symm, h.2.1.symm, h.2.2.symm⟩
    · simp [hc] at h
  | eventsIn =>
    by_cases hs : canSend fsm = true
    · by_cases hr : fsm.eventsIn.length < fsm.eventsInCap
      · simp [hs, hr] at h
        right; left; exact ⟨hr, h.1.symm, h.2.1.symm, h.2.2.symm⟩
      · simp [hs, hr] at h
        right; right
        have hs2 : fsm.closed = false ∧ fsm.eventsIn = [] := by
          simpa [canSend, hr] using hs
        exact ⟨hr, hs2.1, hs2.2, h.1.symm, h.2.1.symm, h.2.2.symm⟩
    · simp [hs] at h

/-- What the parties other than the loop can do in one step. -/
theorem others_cases (fsm fsm0 : StateMachine U S A) (l : Label U) (o : List (Obs U S A))
    (w : Option (Select U × StoreFault)) (h : others fsm l = some (fsm0, o, w)) :
    fsm.panicked = false ∧
    ((∃ evt pick fault, doSend fsm evt pick fault = some (fsm0, o, w)) ∨
     (fsm.closed = false ∧ ∃ evt rest fault, fsm.eventsIn = evt :: rest ∧
        fsm0 = { fsm with eventsIn := rest } ∧ o = [] ∧ w = some (.eventsIn evt, fault)) ∨
     (∃ l1 op rest l2, fsm.goroutines = l1 ++ (op :: rest) :: l2 ∧
        ((∃ a arg, op = .call a arg ∧ fsm0 = { fsm with goroutines := l1 ++ rest :: l2 } ∧
            o = [.called a arg] ∧ w = none) ∨
         (∃ evt pick fault, op = .send evt ∧
            doSend { fsm with goroutines := l1 ++ rest :: l2 } evt pick fault
              = some (fsm0, o, w)) ∨
         (∃ e, op = .logError e ∧ fsm0 = { fsm with goroutines := l1 ++ l2 } ∧
            o = [.actionFailed e] ∧ w = none) ∨
         (op = .storeBusy ∧ fsm0 = { fsm with busy := 0, goroutines := l1 ++ rest :: l2 } ∧
            o = [.released] ∧ w = none) ∨
         (op = .stageDone ∧ fsm.closed = false ∧ fsm0 = { fsm with goroutines := l1 ++ l2 } ∧
            o = [.posted] ∧ ∃ fault, w = some (.stageDone, fault)) ∨
         (op = .nilDeref ∧ fsm0 = { fsm with panicked := true } ∧ o = [.panic] ∧ w = none))) ∨
     (fsm.closed = false ∧ fsm.closing = true ∧ fsm0 = fsm ∧ o = [] ∧
        w = some (.closing, .ok)) ∨
     (fsm.closing = true ∧ fsm0 = { fsm with panicked := true } ∧ o = [.panic] ∧ w = none) ∨
     (fsm.closing = false ∧ fsm0 = { fsm with closing := true } ∧ o = [] ∧ w = none) ∨
     (fsm0 = fsm ∧ (∃ err, o = [.stopReturned err]) ∧ w = none)) := by
  unfold others at h
  by_cases hp : fsm.panicked = true
  · rw [if_pos hp] at h; exact absurd h (by simp)
  · have hp' : fsm.panicked = false := by simpa using hp
    refine ⟨hp', ?_⟩
    rw [if_neg hp] at h
    cases l with
    | send evt pick fault => left; exact ⟨evt, pick, fault, h⟩
    | recv fault =>
      right; left
      by_cases hc : fsm.closed = true
      · simp only [if_pos hc] at h; exact absurd h (by simp)
      · have hc' : fsm.closed = false := by simpa using hc
        simp only [if_neg hc] at h
        cases he : fsm.eventsIn with
        | nil => rw [he] at h; exact absurd h (by simp)
        | cons evt rest =>
          rw [he] at h
          cases h
          exact ⟨hc', evt, rest, fault, rfl, rfl, rfl, rfl⟩
    | go i pick fault =>
      right; right; left
      cases hg : fsm.goroutines[i]? with
      | none => simp only [hg] at h; exact absurd h (by simp)
      | some g =>
        cases g with
        | nil => simp only [hg] at h; exact absurd h (by simp)
        | cons op rest =>
          simp only [hg] at h
          obtain ⟨l1, l2, e1, e2, e3⟩ := getElem?_split _ _ _ hg
          refine ⟨l1, op, rest, l2, e1, ?_⟩
          unfold doGo at h
          cases op with
          | call a arg =>
            simp only [e2] at h
            cases h
            left; exact ⟨a, arg, rfl, rfl, rfl, rfl⟩
          | send evt =>
            simp only [e2] at h
            right; left; exact ⟨evt, pick, fault, rfl, h⟩
          | logError e =>
            simp only [e3] at h
            cases h
            right; right; left; exact ⟨e, rfl, rfl, rfl, rfl⟩
          | storeBusy =>
            simp only [e2] at h
            cases h
            right; right; right; left; exact ⟨rfl, rfl, rfl, rfl⟩
          | stageDone =>
            by_cases hc : fsm.closed = true
            · simp only [if_pos hc] at h; exact absurd h (by simp)
            · have hc' : fsm.closed = false := by simpa using hc
              simp only [if_neg hc, e3] at h
              cases h
              right; right; right; right; left
              exact ⟨rfl, hc', rfl, rfl, fault, rfl⟩
          | nilDeref =>
            simp only at h
            cases h
            right; right; right; right; right
            exact ⟨rfl, rfl, rfl, rfl⟩
    | closing =>
      right; right; right; left
      by_cases hc : fsm.closed = true
      · simp only [if_pos hc] at h; exact absurd h (by simp)
      · have hc' : fsm.closed = false := by simpa using hc
        by_cases hg : fsm.closing = true
        · simp only [if_neg hc, if_pos hg] at h
          cases h
          exact ⟨hc', hg, rfl, rfl, rfl⟩
        · simp only [if_neg hc, if_neg hg] at h; exact absurd h (by simp)
    | stopClose =>
      unfold stopClose at h
      by_cases hg : fsm.closing = true
      · simp only [if_pos hg] at h
        cases h
        right; right; right; right; left
        exact ⟨hg, rfl, rfl, rfl⟩
      · have hg' : fsm.closing = false := by simpa using hg
        simp only [if_neg hg] at h
        cases h
        right; right; right; right; right; left
        exact ⟨hg', rfl, rfl, rfl⟩
    | stopSelect pick =>
      right; right; right; right; right; right
      cases hs : stopSelect fsm pick with
      | none => simp only [hs] at h; exact absurd h (by simp)
      | some err =>
        simp only [hs] at h
        cases h
        exact ⟨rfl, ⟨err, rfl⟩, rfl⟩

end Others

section Steps

variable {U S A : Type}

/-- A step is what the other parties do, followed by the iteration of the loop
when it was woken. -/
theorem step_split (env : Env U S A) (fsm fsm1 : StateMachine U S A) (l : Label U)
    (o : List (Obs U S A)) (h : step env fsm l = some (fsm1, o)) :
    ∃ fsm0 o0 w, others fsm l = some (fsm0, o0, w) ∧
      ((w = none ∧ fsm1 = fsm0 ∧ o = o0) ∨
       (∃ sel fault, w = some (sel, fault) ∧ fsm1 = (runIter env fsm0 sel fault).1 ∧
          o = o0 ++ (runIter env fsm0 sel fault).2)) := by
  unfold step at h
  cases ho : others fsm l with
  | none => rw [ho] at h; exact absurd h (by simp)
  | some r =>
    obtain ⟨fsm0, o0, w⟩ := r
    refine ⟨fsm0, o0, w, rfl, ?_⟩
    rw [ho] at h
    cases w with
    | none =>
      simp only at h
      cases h
      exact Or.inl ⟨rfl, rfl, rfl⟩
    | some sf =>
      obtain ⟨sel, fault⟩ := sf
      simp only at h
      cases h
      exact Or.inr ⟨sel, fault, rfl, rfl, rfl⟩

theorem exec_nil (env : Env U S A) (fsm : StateMachine U S A) :
    exec env fsm [] = some (fsm, []) := rfl

theorem exec_cons (env : Env U S A) (fsm fsm2 : StateMachine U S A) (l : Label U)
    (ls : List (Label U)) (tr : List (Obs U S A))
    (h : exec env fsm (l :: ls) = some (fsm2, tr)) :
    ∃ fsm1 o1 o2, step env fsm l = some (fsm1, o1) ∧ exec env fsm1 ls = some (fsm2, o2) ∧
      tr = o1 ++ o2 := by
  simp only [exec] at h
  cases hs : step env fsm l with
  | none => rw [hs] at h; exact absurd h (by simp)
  | some r =>
    obtain ⟨fsm1, o1⟩ := r
    rw [hs] at h
    simp only at h
    cases he : exec env fsm1 ls with
    | none => rw [he] at h; exact absurd h (by simp)
    | some r2 =>
      obtain ⟨fsm2', o2⟩ := r2
      rw [he] at h
      simp only at h
      cases h
      exact ⟨fsm1, o1, o2, rfl, he, rfl⟩

/-- What a call of `send` leaves alone. -/
theorem doSend_frame (fsm fsm0 : StateMachine U S A) (evt : Event U) (pick : SendCase)
    (fault : StoreFault) (o : List (Obs U S A)) (w : Option (Select U × StoreFault))
    (h : doSend fsm evt pick fault = some (fsm0, o, w)) :
    fsm0.pendingEvents = fsm.pendingEvents ∧ fsm0.st = fsm.st ∧ fsm0.busy = fsm.busy ∧
    fsm0.closed = fsm.closed ∧ fsm0.goroutines = fsm.goroutines ∧
    fsm0.eventsInCap = fsm.eventsInCap ∧
    receivedOf o = [] ∧ plannedOf o = [] ∧ trimmedOf o = [] ∧ Obs.released ∉ o ∧
    (∀ sel f, w = some (sel, f) → fsm.closed = false ∧ sel = .eventsIn evt) ∧
    (fsm.closed = true → fsm.eventsInCap ≤ fsm.eventsIn.length →
      fsm0 = fsm ∧ o = [.sendReturned (some .ErrTerminated)]) := by
  rcases doSend_cases fsm fsm0 evt pick fault o w h with
    ⟨hc, rfl, rfl, rfl⟩ | ⟨hr, rfl, rfl, rfl⟩ | ⟨hr, hc, he, rfl, rfl, rfl⟩
  · simp [receivedOf, plannedOf, trimmedOf]
  · simp [receivedOf, plannedOf, trimmedOf]
    intro _
    exact hr
  · simp [receivedOf, plannedOf, trimmedOf, hc]

/-- What the parties other than the loop leave alone. -/
theorem others_frame (fsm fsm0 : StateMachine U S A) (l : Label U) (o : List (Obs U S A))
    (w : Option (Select U × StoreFault)) (h : others fsm l = some (fsm0, o, w)) :
    fsm0.pendingEvents = fsm.pendingEvents ∧ fsm0.st = fsm.st ∧ fsm0.closed = fsm.closed ∧
    fsm0.eventsInCap = fsm.eventsInCap ∧
    receivedOf o = [] ∧ plannedOf o = [] ∧ trimmedOf o = [] ∧
    (w ≠ none → fsm.closed = false) := by
  obtain ⟨_, hc⟩ := others_cases fsm fsm0 l o w h
  rcases hc with ⟨evt, pick, fault, hs⟩ | ⟨hcl, evt, rest, fault, _, rfl, rfl, rfl⟩ |
    ⟨l1, op, rest, l2, hg, hgo⟩ | ⟨hcl, _, rfl, rfl, rfl⟩ | ⟨_, rfl, rfl, rfl⟩ |
    ⟨_, rfl, rfl, rfl⟩ | ⟨rfl, ⟨err, rfl⟩, rfl⟩
  · have hf := doSend_frame _ _ _ _ _ _ _ hs
    refine ⟨hf.1, hf.2.1, hf.2.2.2.1, hf.2.2.2.2.2.1, hf.2.2.2.2.2.2.1, hf.2.2.2.2.2.2.2.1,
      hf.2.2.2.2.2.2.2.2.1, ?_⟩
    intro hw
    cases w with
    | none => exact absurd rfl hw
    | some sf => exact (hf.2.2.2.2.2.2.2.2.2.2.1 sf.1 sf.2 rfl).1
  · simp [receivedOf, plannedOf, trimmedOf, hcl]
  · rcases hgo with ⟨a, arg, _, rfl, rfl, rfl⟩ | ⟨evt, pick, fault, _, hs⟩ |
      ⟨e, _, rfl, rfl, rfl⟩ | ⟨_, rfl, rfl, rfl⟩ | ⟨_, hcl, rfl, rfl, f, rfl⟩ |
      ⟨_, rfl, rfl, rfl⟩
    · simp [receivedOf, plannedOf, trimmedOf]
    · have hf := doSend_frame _ _ _ _ _ _ _ hs
      refine ⟨hf.1, hf.2.1, hf.2.2.2.1, hf.2.2.2.2.2.1, hf.2.2.2.2.2.2.1, hf.2.2.2.2.2.2.2.1,
        hf.2.2.2.2.2.2.2.2.1, ?_⟩
      intro hw
      cases w with
      | none => exact absurd rfl hw
      | some sf => exact (hf.2.2.2.2.2.2.2.2.2.2.1 sf.1 sf.2 rfl).1
    · simp [receivedOf, plannedOf, trimmedOf]
    · simp [receivedOf, plannedOf, trimmedOf]
    · simp [receivedOf, plannedOf, trimmedOf, hcl]
    · simp [receivedOf, plannedOf, trimmedOf]
  · simp [receivedOf, plannedOf, trimmedOf, hcl]
  · simp [receivedOf, plannedOf, trimmedOf]
  · simp [receivedOf, plannedOf, trimmedOf]
  · simp [receivedOf, plannedOf, trimmedOf]

end Steps

/-! ## After the loop has returned -/

section Closed

variable {U S A : Type}

theorem doSend_closed (fsm fsm0 : StateMachine U S A) (evt : Event U) (pick : SendCase)
    (fault : StoreFault) (o : List (Obs U S A)) (w : Option (Select U × StoreFault))
    (h : doSend fsm evt pick fault = some (fsm0, o, w)) (hcl : fsm.closed = true) :
    w = none ∧ Obs.posted ∉ o ∧
    (fsm.eventsInCap ≤ fsm.eventsIn.length →
      fsm0.eventsIn = fsm.eventsIn ∧ ∀ r, Obs.sendReturned r ∈ o → r = some .ErrTerminated) := by
  rcases doSend_cases fsm fsm0 evt pick fault o w h with
    ⟨hc, rfl, rfl, rfl⟩ | ⟨hr, rfl, rfl, rfl⟩ | ⟨hr, hc, he, rfl, rfl, rfl⟩
  · simp
  · refine ⟨rfl, by simp, ?_⟩
    intro hfull
    omega
  · rw [hcl] at hc; exact absurd hc (by simp)

theorem others_closed (fsm fsm0 : StateMachine U S A) (l : Label U) (o : List (Obs U S A))
    (w : Option (Select U × StoreFault)) (h : others fsm l = some (fsm0, o, w))
    (hcl : fsm.closed = true) :
    w = none ∧ Obs.posted ∉ o ∧
    (fsm.eventsInCap ≤ fsm.eventsIn.length →
      fsm0.eventsIn = fsm.eventsIn ∧ ∀ r, Obs.sendReturned r ∈ o → r = some .ErrTerminated) := by
  obtain ⟨_, hc⟩ := others_cases fsm fsm0 l o w h
  rcases hc with ⟨evt, pick, fault, hs⟩ | ⟨hcl', _⟩ |
    ⟨l1, op, rest, l2, hg, hgo⟩ | ⟨hcl', _⟩ | ⟨_, rfl, rfl, rfl⟩ |
    ⟨_, rfl, rfl, rfl⟩ | ⟨rfl, ⟨err, rfl⟩, rfl⟩
  · exact doSend_closed _ _ _ _ _ _ _ hs hcl
  · rw [hcl] at hcl'; exact absurd hcl' (by simp)
  · rcases hgo with ⟨a, arg, _, rfl, rfl, rfl⟩ | ⟨evt, pick, fault, _, hs⟩ |
      ⟨e, _, rfl, rfl, rfl⟩ | ⟨_, rfl, rfl, rfl⟩ | ⟨_, hcl', _⟩ |
      ⟨_, rfl, rfl, rfl⟩
    · simp
    · exact doSend_closed { fsm with goroutines := l1 ++ rest :: l2 } _ _ _ _ _ _ hs hcl
    · simp
    · simp
    · rw [hcl] at hcl'; exact absurd hcl' (by simp)
    · simp
  · rw [hcl] at hcl'; exact absurd hcl' (by simp)
  · simp
  · simp
  · simp

/-- Once `closed` is raised, a step leaves the loop's variables alone: no event
is received, no planner call is made, nothing is trimmed, no completion signal
is taken; with no free slot in the mailbox every `send` returns
`ErrTerminated`. -/
theorem step_closed (env : Env U S A) (fsm fsm1 : StateMachine U S A) (l : Label U)
    (o : List (Obs U S A)) (h : step env fsm l = some (fsm1, o)) (hcl : fsm.closed = true) :
    fsm1.closed = true ∧ fsm1.pendingEvents = fsm.pendingEvents ∧ fsm1.st = fsm.st ∧
    fsm1.eventsInCap = fsm.eventsInCap ∧
    receivedOf o = [] ∧ plannedOf o = [] ∧ trimmedOf o = [] ∧ Obs.posted ∉ o ∧
    (fsm.eventsInCap ≤ fsm.eventsIn.length →
      fsm1.eventsIn = fsm.eventsIn ∧ ∀ r, Obs.sendReturned r ∈ o → r = some .ErrTerminated) := by
  obtain ⟨fsm0, o0, w, ho, hw⟩ := step_split env fsm fsm1 l o h
  obtain ⟨hw0, hpost, hsend⟩ := others_closed fsm fsm0 l o0 w ho hcl
  obtain ⟨f1, f2, f3, f4, f5, f6, f7, _⟩ := others_frame fsm fsm0 l o0 w ho
  rcases hw with ⟨_, rfl, rfl⟩ | ⟨sel, fault, hw1, _⟩
  · exact ⟨by rw [f3, hcl], f1, f2, f4, f5, f6, f7, hpost, hsend⟩
  · rw [hw0] at hw1; exact absurd hw1 (by simp)

theorem exec_closed (env : Env U S A) (ls : List (Label U)) :
    ∀ (fsm fsm1 : StateMachine U S A) (tr : List (Obs U S A)),
      exec env fsm ls = some (fsm1, tr) → fsm.closed = true →
      fsm1.closed = true ∧ fsm1.pendingEvents = fsm.pendingEvents ∧ fsm1.st = fsm.st ∧
      fsm1.eventsInCap = fsm.eventsInCap ∧
      receivedOf tr = [] ∧ plannedOf tr = [] ∧ trimmedOf tr = [] ∧ Obs.posted ∉ tr ∧
      (fsm.eventsInCap ≤ fsm.eventsIn.length →
        fsm1.eventsIn = fsm.eventsIn ∧
          ∀ r, Obs.sendReturned r ∈ tr → r = some .ErrTerminated) := by
  induction ls with
  | nil =>
    intro fsm fsm1 tr h hcl
    rw [exec_nil] at h
    cases h
    simp [hcl, receivedOf, plannedOf, trimmedOf]
  | cons l ls ih =>
    intro fsm fsm2 tr h hcl
    obtain ⟨fsm1, o1, o2, hs, he, rfl⟩ := exec_cons env fsm fsm2 l ls tr h
    obtain ⟨a1, a2, a3, a4, a5, a6, a7, a8, a9⟩ := step_closed env fsm fsm1 l o1 hs hcl
    obtain ⟨b1, b2, b3, b4, b5, b6, b7, b8, b9⟩ := ih fsm1 fsm2 o2 he a1
    refine ⟨b1, by rw [b2, a2], by rw [b3, a3], by rw [b4, a4], ?_, ?_, ?_, ?_, ?_⟩
    · rw [receivedOf_append, a5, b5]; rfl
    · rw [plannedOf_append, a6, b6]; rfl
    · rw [trimmedOf_append, a7, b7]; rfl
    · simp only [List.mem_append, not_or]; exact ⟨a8, b8⟩
    · intro hfull
      obtain ⟨c1, c2⟩ := a9 hfull
      have hfull1 : fsm1.eventsInCap ≤ fsm1.eventsIn.length := by rw [a4, c1]; exact hfull
      obtain ⟨d1, d2⟩ := b9 hfull1
      refine ⟨by rw [d1, c1], ?_⟩
      intro r hr
      simp only [List.mem_append] at hr
      rcases hr with hr | hr
      · exact c2 r hr
      · exact d2 r hr

end Closed

/-! ## C3: trimming after a successful mutation -/

section Trim

variable {U S A : Type}

theorem mem_recvObs (sel : Select U) (x : Obs U S A) (h : x ∈ (recvObs sel : List (Obs U S A))) :
    ∃ evt, x = .received evt := by
  cases sel with
  | eventsIn evt => exact ⟨evt, by simpa [recvObs] using h⟩
  | stageDone => simp [recvObs] at h
  | closing => simp [recvObs] at h

theorem mem_forceObs (env : Env U S A) (sel : Select U) (x : Obs U S A)
    (h : x ∈ forceObs env sel) : x = .forced := by
  unfold forceObs at h
  split at h
  · simpa using h
  · simp at h

/-- An iteration that trims has planned on the batch after the `select`, in a
completed cycle. -/
theorem runIter_trimmed (env : Env U S A) (fsm : StateMachine U S A) (sel : Select U)
    (fault : StoreFault) (c : Nat) (h : Obs.trimmed c ∈ (runIter env fsm sel fault).2) :
    c = (env.planner (batchOf fsm sel) fsm.st.value).processed ∧
    (runIter env fsm sel fault).1.pendingEvents =
      (if c < (batchOf fsm sel).length then (batchOf fsm sel).drop c else []) ∧
    (runIter env fsm sel fault).1.goroutines = fsm.goroutines ++
      [goFunc env (env.planner (batchOf fsm sel) fsm.st.value).nextStep
        (some (env.planner (batchOf fsm sel) fsm.st.value).user)] ∧
    (env.planner (batchOf fsm sel) fsm.st.value).err = none := by
  rcases runIter_outcome env fsm sel fault with ⟨_, e⟩ | ⟨_, _, _, e⟩ |
    ⟨_, _, _, st', pl, hpl, _, e2⟩ | ⟨_, _, _, _, he, e1, e2⟩
  · rw [e] at h; simp at h
  · rw [e] at h
    obtain ⟨evt, hx⟩ := mem_recvObs sel _ h
    cases hx
  · rw [e2] at h
    simp only [List.mem_append] at h
    rcases h with (h | h) | h | h
    · obtain ⟨evt, hx⟩ := mem_recvObs sel _ h; cases hx
    · have hx := mem_forceObs env sel _ h; cases hx
    · rcases hpl with rfl | rfl <;> simp at h
    · simp at h
  · rw [e2] at h
    simp only [List.mem_append] at h
    rcases h with (h | h) | h
    · obtain ⟨evt, hx⟩ := mem_recvObs sel _ h; cases hx
    · have hx := mem_forceObs env sel _ h; cases hx
    · simp at h
      subst h
      refine ⟨rfl, ?_, ?_, he⟩
      · rw [e1]
      · rw [e1]

/-- The batch an iteration plans on is the pending batch after its `select`,
and the state is the stored one. -/
theorem runIter_planned (env : Env U S A) (fsm : StateMachine U S A) (sel : Select U)
    (fault : StoreFault) (b : List (Event U)) (s : S)
    (h : Obs.planned b s ∈ (runIter env fsm sel fault).2) :
    b = batchOf fsm sel ∧ s = fsm.st.value ∧ b ≠ [] ∧
      (selForce env sel = true ∨ fsm.busy = 0) := by
  rcases runIter_outcome env fsm sel fault with ⟨_, e⟩ | ⟨_, _, _, e⟩ |
    ⟨_, hc, hB, st', pl, hpl, _, e2⟩ | ⟨_, hc, hB, _, he, e1, e2⟩
  · rw [e] at h; simp at h
  · rw [e] at h
    obtain ⟨evt, hx⟩ := mem_recvObs sel _ h
    cases hx
  · rw [e2] at h
    simp only [List.mem_append] at h
    rcases h with (h | h) | h | h
    · obtain ⟨evt, hx⟩ := mem_recvObs sel _ h; cases hx
    · have hx := mem_forceObs env sel _ h; cases hx
    · rcases hpl with rfl | rfl
      · simp at h
      · simp at h
        obtain ⟨rfl, rfl⟩ := h
        exact ⟨rfl, rfl, hB, hc⟩
    · simp at h
  · rw [e2] at h
    simp only [List.mem_append] at h
    rcases h with (h | h) | h
    · obtain ⟨evt, hx⟩ := mem_recvObs sel _ h; cases hx
    · have hx := mem_forceObs env sel _ h; cases hx
    · simp at h
      obtain ⟨rfl, rfl⟩ := h
      exact ⟨rfl, rfl, hB, hc⟩

/-- C3: after a successful mutation (the iteration reached the trim) in which
the planner reported the count `c` for the pending batch `b`, the new pending
batch is `b` without its first `c` events if `c < len(b)`, and empty
otherwise. -/
theorem C3_trim_after_mutation (env : Env U S A) (fsm : StateMachine U S A) (sel : Select U)
    (fault : StoreFault) (b : List (Event U)) (s : S) (c : Nat)
    (hplan : Obs.planned b s ∈ (runIter env fsm sel fault).2)
    (htrim : Obs.trimmed c ∈ (runIter env fsm sel fault).2) :
    c = (env.planner b s).processed ∧
    (runIter env fsm sel fault).1.pendingEvents = (if c < b.length then b.drop c else []) := by
  obtain ⟨hb, hs, _, _⟩ := runIter_planned env fsm sel fault b s hplan
  obtain ⟨hc, hp, _, _⟩ := runIter_trimmed env fsm sel fault c htrim
  subst hb hs
  exact ⟨hc, hp⟩

/-- C3 at a concrete input: with `[a]` pending, the event `b` arrives, the
planner consumes 1 of `[a, b]`, and `[b]` stays pending. -/
theorem C3_trim_after_mutation_witness :
    (runIter demoEnv demoPending (.eventsIn (ev "b")) .ok).1.pendingEvents = [ev "b"] := by
  have h := C3_trim_after_mutation demoEnv demoPending (.eventsIn (ev "b")) .ok
    [ev "a", ev "b"] 1 1 (by decide) (by decide)
  rw [h.2]
  decide

/-- The state of the C3 witness is reached by a run from a fresh instance. -/
theorem demoPending_reachable :
    (exec demoEnv demoInit demoPendingRun).map (fun r => r.1) = some demoPending := by
  decide

end Trim

/-! ## C5, C6, C9, C10: leaving the loop, `send` and `stop` afterwards -/

section Shutdown

variable {U S A : Type}

theorem sendResults_closed (fsm : StateMachine U S A) (hclosed : fsm.closed = true)
    (hfull : fsm.eventsInCap ≤ fsm.eventsIn.length) :
    send fsm .closed = some (some .ErrTerminated) ∧ send fsm .eventsIn = none ∧
      sendResults fsm = [some .ErrTerminated] := by
  have h1 : send fsm .closed = some (some .ErrTerminated) := by simp [send, hclosed]
  have h2 : send fsm .eventsIn = none := by
    have : ¬ fsm.eventsIn.length < fsm.eventsInCap := by omega
    simp [send, canSend, hclosed, this]
  exact ⟨h1, h2, by simp [sendResults, h1, h2]⟩

theorem runIter_exited (env : Env U S A) (fsm : StateMachine U S A) (sel : Select U)
    (fault : StoreFault) (h : Obs.exited ∈ (runIter env fsm sel fault).2) :
    (runIter env fsm sel fault).1.closed = true := by
  rcases runIter_outcome env fsm sel fault with ⟨_, e⟩ | ⟨_, _, _, e⟩ |
    ⟨_, _, _, st', pl, hpl, e1, _⟩ | ⟨_, _, _, _, he, e1, e2⟩
  · rw [e]
  · rw [e] at h
    obtain ⟨evt, hx⟩ := mem_recvObs sel _ h
    cases hx
  · rw [e1]
  · rw [e2] at h
    simp only [List.mem_append] at h
    rcases h with (h | h) | h
    · obtain ⟨evt, hx⟩ := mem_recvObs sel _ h; cases hx
    · have hx := mem_forceObs env sel _ h; cases hx
    · simp at h

/-- C9 as stated fails: on a mailbox that buffers two events, after `stop` and
the return of the loop both cases of the `select` of `send` are ready: `send`
may return `ErrTerminated`, and it may enqueue the event and return nil. -/
theorem C9_send_enqueues_after_shutdown :
    (exec demoEnv demoBuffered [.stopClose, .closing]).map
        (fun r => (r.1.closed, sendResults r.1))
      = some (true, [some .ErrTerminated, none]) ∧
    (exec demoEnv demoBuffered
        [.stopClose, .closing, .send (ev "E3") .eventsIn .ok]).map
        (fun r => (r.1.eventsIn, r.2.getLast?))
      = some ([ev "E3"], some (.sendReturned none)) := by
  decide

/-- C9, amended: once the loop has returned (every `return` of `run`, by the
closing signal, the sentinel or a failure, raises `closed`), `send` on a
mailbox with no free buffer slot (an unbuffered one in particular) has exactly
one ready case and returns `ErrTerminated`: it does not block and does not
enqueue; this stays so in every later state, and no event is received any
more. -/
theorem C9_send_after_shutdown (env : Env U S A) (fsm : StateMachine U S A)
    (hclosed : fsm.closed = true) (hfull : fsm.eventsInCap ≤ fsm.eventsIn.length) :
    sendResults fsm = [some .ErrTerminated] ∧
    send fsm .closed = some (some .ErrTerminated) ∧ send fsm .eventsIn = none ∧
    (∀ ls fsm1 tr, exec env fsm ls = some (fsm1, tr) →
      fsm1.closed = true ∧ sendResults fsm1 = [some .ErrTerminated] ∧
      fsm1.eventsIn = fsm.eventsIn ∧ receivedOf tr = [] ∧
      ∀ r, Obs.sendReturned r ∈ tr → r = some .ErrTerminated) ∧
    (∀ (fsm0 : StateMachine U S A) sel fault, Obs.exited ∈ (runIter env fsm0 sel fault).2 →
      (runIter env fsm0 sel fault).1.closed = true) := by
  obtain ⟨h1, h2, h3⟩ := sendResults_closed fsm hclosed hfull
  refine ⟨h3, h1, h2, ?_, fun fsm0 sel fault h => runIter_exited env fsm0 sel fault h⟩
  intro ls fsm1 tr he
  obtain ⟨a1, _, _, a4, a5, _, _, _, a9⟩ := exec_closed env ls fsm fsm1 tr he hclosed
  obtain ⟨c1, c2⟩ := a9 hfull
  have hfull1 : fsm1.eventsInCap ≤ fsm1.eventsIn.length := by rw [a4, c1]; exact hfull
  exact ⟨a1, (sendResults_closed fsm1 a1 hfull1).2.2, c1, a5, c2⟩

/-- C9 at a concrete input: after `stop` and the exit of the loop, `send`
returns `ErrTerminated`. -/
theorem C9_send_after_shutdown_witness :
    demoStopped.closed = true ∧ sendResults demoStopped = [some .ErrTerminated] :=
  ⟨by decide, (C9_send_after_shutdown demoEnv demoStopped (by decide) (by decide)).1⟩

/-- The state of the C9 witness is reached by a run from a fresh instance. -/
theorem demoStopped_reachable :
    (exec demoEnv demoInit [.stopClose, .closing]).map (fun r => r.1) = some demoStopped := by
  decide

/-- C10 as stated fails: on a fresh instance the first `stop` closes the
closing signal, the second one panics (close of a closed channel), also as a
run of the system. -/
theorem C10_second_stop_panics :
    (stopClose demoInit).isOk = true ∧
    ((stopClose demoInit).toOption.map (fun f => (stopClose f).isOk)) = some false ∧
    ((stopClose demoInit).toOption.map (fun f => (stop f .closed).isOk)) = some false ∧
    (exec demoEnv demoInit [.stopClose, .closing, .stopSelect .closed, .stopClose]).map
      (fun r => (r.1.panicked, r.2)) = some (true, [.exited, .stopReturned none, .panic]) := by
  decide

/-- C10, amended: `stop` is not idempotent.  A call of `stop` that does not
panic is the first one: it closes the closing signal and returns nil once the
loop has exited; every call after it panics at `close(fsm.closing)`, whether
the loop has exited or not. -/
theorem C10_stop_only_once (fsm fsm1 : StateMachine U S A) (h : stopClose fsm = .ok fsm1) :
    fsm.closing = false ∧ fsm1 = { fsm with closing := true } ∧
    stopClose fsm1 = .error "close of closed channel" ∧
    (∀ pick, stop fsm1 pick = .error "close of closed channel") ∧
    (∀ pick, stop fsm pick = .ok (fsm1, stopSelect fsm1 pick)) ∧
    (fsm1.closed = true → stopSelect fsm1 .closed = some none) := by
  unfold stopClose at h
  by_cases hc : fsm.closing = true
  · rw [if_pos hc] at h; cases h
  · rw [if_neg hc] at h
    cases h
    have hc' : fsm.closing = false := by simpa using hc
    refine ⟨hc', rfl, by simp [stopClose], ?_, ?_, ?_⟩
    · intro pick; simp [stop, stopClose]
    · intro pick; simp [stop, stopClose, hc']
    · intro hcl; simp only [stopSelect] at hcl ⊢; simp [hcl]

/-- C10 amended, at a concrete input: the first `stop` on a fresh instance
succeeds, the second one panics. -/
theorem C10_stop_only_once_witness :
    demoInit.closing = false ∧
    stopClose ({ demoInit with closing := true } : StateMachine String Nat DemoAction)
      = .error "close of closed channel" :=
  ⟨(C10_stop_only_once demoInit { demoInit with closing := true } (by rfl)).1,
   (C10_stop_only_once demoInit { demoInit with closing := true } (by rfl)).2.2.1⟩

end Shutdown

section Sentinel

variable {U S A : Type}

theorem mutateUser_ok (env : Env U S A) (st : StoredState S) (b : List (Event U))
    (he : (env.planner b st.value).err = none) :
    (mutateUser st .ok (callback env.planner b)).2.2 = none := by
  simp [mutateUser, StoredState.Mutate, callback, xerrorsIs, he]

/-- C5 as stated fails in its last part: the scenario on a mailbox that
buffers two events (`E1` is sent and planned with the Action that sends `E2`;
for `[E2]` the planner returns the sentinel and the loop returns) ends with two
planner calls and `closed` raised, and then `send(E3)` can enqueue the event
and return nil. -/
theorem C5_send_enqueues_after_sentinel :
    (exec demoEnv demoBuffered
        [.send (ev "E1") .eventsIn .ok, .recv .ok, .go 0 .eventsIn .ok, .go 0 .eventsIn .ok,
         .recv .ok, .go 0 .eventsIn .ok, .go 0 .eventsIn .ok]).map
        (fun r => (plannedOf r.2, r.1.closed, sendResults r.1))
      = some ([[ev "E1"], [ev "E2"]], true, [some .ErrTerminated, none]) ∧
    (exec demoEnv demoBuffered
        [.send (ev "E1") .eventsIn .ok, .recv .ok, .go 0 .eventsIn .ok, .go 0 .eventsIn .ok,
         .recv .ok, .go 0 .eventsIn .ok, .go 0 .eventsIn .ok,
         .send (ev "E3") .eventsIn .ok]).map
        (fun r => (r.1.eventsIn, r.2.getLast?))
      = some ([ev "E3"], some (.sendReturned none)) := by
  decide

/-- C5, amended: if the planner returns the termination sentinel in a cycle,
the loop returns in that iteration: `closed` is raised, the batch is not
trimmed, no goroutine is spawned for an Action; in every later run no planner
call is made and no event is received, and on a mailbox without a free buffer
slot (an unbuffered one in particular) every `send` returns `ErrTerminated`.
In the scenario on an unbuffered mailbox (`E1`; the planner returns the Action
that sends `E2`; the planner returns the sentinel for `[E2]`) there are
exactly two planner calls, `send(E3)` returns `ErrTerminated` and cannot
enqueue. -/
theorem C5_termination_sentinel (env : Env U S A) (fsm : StateMachine U S A) (sel : Select U)
    (fault : StoreFault) (b : List (Event U)) (s : S)
    (hplan : Obs.planned b s ∈ (runIter env fsm sel fault).2)
    (hterm : xerrorsIs (env.planner b s).err = true) :
    (runIter env fsm sel fault).1.closed = true ∧
    Obs.exited ∈ (runIter env fsm sel fault).2 ∧
    (runIter env fsm sel fault).1.pendingEvents = b ∧
    (runIter env fsm sel fault).1.goroutines = fsm.goroutines ∧
    (∀ n u, Obs.dispatched n u ∉ (runIter env fsm sel fault).2) ∧
    trimmedOf (runIter env fsm sel fault).2 = [] ∧
    plannedOf (runIter env fsm sel fault).2 = [b] ∧
    (∀ ls fsm1 tr, exec env (runIter env fsm sel fault).1 ls = some (fsm1, tr) →
      plannedOf tr = [] ∧ receivedOf tr = [] ∧ fsm1.closed = true ∧ fsm1.pendingEvents = b ∧
      ((runIter env fsm sel fault).1.eventsInCap ≤ (runIter env fsm sel fault).1.eventsIn.length →
        sendResults fsm1 = [some .ErrTerminated] ∧
        ∀ r, Obs.sendReturned r ∈ tr → r = some .ErrTerminated)) ∧
    ((exec demoEnv demoInit (sentinelRun ++ [.send (ev "E3") .closed .ok])).map
        (fun r => (plannedOf r.2, r.1.closed, r.2.getLast?))
      = some ([[ev "E1"], [ev "E2"]], true, some (.sendReturned (some .ErrTerminated))) ∧
     exec demoEnv demoInit (sentinelRun ++ [.send (ev "E3") .eventsIn .ok]) = none) := by
  obtain ⟨hb, hs, _, _⟩ := runIter_planned env fsm sel fault b s hplan
  subst hb hs
  have key : (runIter env fsm sel fault).1.closed = true ∧
      Obs.exited ∈ (runIter env fsm sel fault).2 ∧
      (runIter env fsm sel fault).1.pendingEvents = batchOf fsm sel ∧
      (runIter env fsm sel fault).1.goroutines = fsm.goroutines ∧
      (∀ n u, Obs.dispatched n u ∉ (runIter env fsm sel fault).2) ∧
      trimmedOf (runIter env fsm sel fault).2 = [] ∧
      plannedOf (runIter env fsm sel fault).2 = [batchOf fsm sel] := by
    rcases runIter_outcome env fsm sel fault with ⟨_, e⟩ | ⟨_, _, _, e⟩ |
      ⟨_, _, _, st', pl, hpl, e1, e2⟩ | ⟨_, _, _, _, he, _, _⟩
    · rw [e] at hplan; simp at hplan
    · rw [e] at hplan
      obtain ⟨evt, hx⟩ := mem_recvObs sel _ hplan
      cases hx
    · have hpl' : pl = [Obs.planned (batchOf fsm sel) fsm.st.value] := by
        rcases hpl with rfl | rfl
        · rw [e2] at hplan
          simp only [List.mem_append] at hplan
          rcases hplan with (h | h) | h | h
          · obtain ⟨evt, hx⟩ := mem_recvObs sel _ h; cases hx
          · have hx := mem_forceObs env sel _ h; cases hx
          · simp at h
          · simp at h
        · rfl
      subst hpl'
      rw [e1, e2]
      refine ⟨rfl, by simp, rfl, rfl, ?_, ?_, ?_⟩
      · intro n u hd
        simp only [List.mem_append] at hd
        rcases hd with (h | h) | h
        · obtain ⟨evt, hx⟩ := mem_recvObs sel _ h; cases hx
        · have hx := mem_forceObs env sel _ h; cases hx
        · simp at h
      · simp [trimmedOf_append, (plannedOf_recvObs sel).2, (receivedOf_forceObs env sel).2.2,
          trimmedOf]
      · simp [plannedOf_append, (plannedOf_recvObs sel).1, (receivedOf_forceObs env sel).2.1,
          plannedOf]
    · rw [he] at hterm
      simp [xerrorsIs] at hterm
  obtain ⟨k1, k2, k3, k4, k5, k6, k7⟩ := key
  refine ⟨k1, k2, k3, k4, k5, k6, k7, ?_, by decide, by decide⟩
  intro ls fsm1 tr he
  obtain ⟨a1, a2, _, a4, a5, a6, _, _, a9⟩ :=
    exec_closed env ls (runIter env fsm sel fault).1 fsm1 tr he k1
  refine ⟨a6, a5, a1, by rw [a2, k3], ?_⟩
  intro hfull
  obtain ⟨c1, c2⟩ := a9 hfull
  have hfull1 : fsm1.eventsInCap ≤ fsm1.eventsIn.length := by rw [a4, c1]; exact hfull
  exact ⟨(sendResults_closed fsm1 a1 hfull1).2.2, c2⟩

/-- C5 at the second cycle of the scenario: the loop takes the completion
signal with `[E2]` pending, the planner returns the sentinel, the loop
returns. -/
theorem C5_termination_sentinel_witness :
    (runIter demoEnv demoSecond .stageDone .ok).1.closed = true ∧
    (runIter demoEnv demoSecond .stageDone .ok).1.pendingEvents = [ev "E2"] :=
  ⟨(C5_termination_sentinel demoEnv demoSecond .stageDone .ok [ev "E2"] 1
      (by decide) (by decide)).1,
   (C5_termination_sentinel demoEnv demoSecond .stageDone .ok [ev "E2"] 1
      (by decide) (by decide)).2.2.1⟩

/-- C6: when the compare-and-swap succeeds and `mutateUser` returns an error
(of the planner or of the Store), the loop returns in that iteration: `busy`
stays 1, the pending batch is as it was, no goroutine is spawned (so no
completion signal of this cycle), at most one planner call was made, and in
every later run there is no planner call and no completion signal is taken. -/
theorem C6_mutate_error_exits (env : Env U S A) (fsm : StateMachine U S A) (aaa : Event U)
    (fault : StoreFault) (e : Error)
    (hcas : isForce (sprintfV env.fmtV aaa) = true ∨ fsm.busy = 0)
    (hmut : (mutateUser fsm.st fault (callback env.planner fsm.pendingEvents)).2.2 = some e) :
    (guardAndPlan env fsm aaa fault).1.closed = true ∧
    (guardAndPlan env fsm aaa fault).1.busy = 1 ∧
    (guardAndPlan env fsm aaa fault).1.pendingEvents = fsm.pendingEvents ∧
    (guardAndPlan env fsm aaa fault).1.goroutines = fsm.goroutines ∧
    Obs.exited ∈ (guardAndPlan env fsm aaa fault).2 ∧
    trimmedOf (guardAndPlan env fsm aaa fault).2 = [] ∧
    (∀ n u, Obs.dispatched n u ∉ (guardAndPlan env fsm aaa fault).2) ∧
    (plannedOf (guardAndPlan env fsm aaa fault).2).length ≤ 1 ∧
    (∀ ls fsm1 tr, exec env (guardAndPlan env fsm aaa fault).1 ls = some (fsm1, tr) →
      plannedOf tr = [] ∧ Obs.posted ∉ tr ∧ fsm1.closed = true ∧
      fsm1.pendingEvents = fsm.pendingEvents) := by
  have key : (guardAndPlan env fsm aaa fault).1.closed = true ∧
      (guardAndPlan env fsm aaa fault).1.busy = 1 ∧
      (guardAndPlan env fsm aaa fault).1.pendingEvents = fsm.pendingEvents ∧
      (guardAndPlan env fsm aaa fault).1.goroutines = fsm.goroutines ∧
      Obs.exited ∈ (guardAndPlan env fsm aaa fault).2 ∧
      trimmedOf (guardAndPlan env fsm aaa fault).2 = [] ∧
      (∀ n u, Obs.dispatched n u ∉ (guardAndPlan env fsm aaa fault).2) ∧
      (plannedOf (guardAndPlan env fsm aaa fault).2).length ≤ 1 := by
    rcases guardAndPlan_cases env fsm aaa fault with ⟨hf, hb, _⟩ | ⟨_, h1, h2⟩
    · rcases hcas with h | h
      · rw [hf] at h; exact absurd h (by simp)
      · exact absurd h hb
    · rcases critical_cases env { fsm with busy := 1 } fault with
        ⟨st', e1, e2⟩ | ⟨hf, he, _, _⟩
      · rw [h1, h2, e1]
        refine ⟨rfl, rfl, rfl, rfl, ?_, ?_, ?_, ?_⟩
        · rcases e2 with e2 | e2 <;> simp [e2]
        · rcases e2 with e2 | e2 <;> rw [e2] <;> split <;> simp [trimmedOf]
        · intro n u
          rcases e2 with e2 | e2 <;> rw [e2] <;> split <;> simp
        · rcases e2 with e2 | e2 <;> rw [e2] <;> split <;> simp [plannedOf]
      · subst hf
        have := mutateUser_ok env fsm.st fsm.pendingEvents he
        rw [this] at hmut
        exact absurd hmut (by simp)
  obtain ⟨k1, k2, k3, k4, k5, k6, k7, k8⟩ := key
  refine ⟨k1, k2, k3, k4, k5, k6, k7, k8, ?_⟩
  intro ls fsm1 tr he
  obtain ⟨a1, a2, _, _, _, a6, _, a8, _⟩ :=
    exec_closed env ls (guardAndPlan env fsm aaa fault).1 fsm1 tr he k1
  exact ⟨a6, a8, a1, by rw [a2, k3]⟩

/-- C6 at a concrete input: on a fresh instance whose pending batch is the
just received `bad`, the planner fails; the loop returns and `busy` stays 1. -/
theorem C6_mutate_error_exits_witness :
    (guardAndPlan demoEnv { demoInit with pendingEvents := [ev "bad"] } (ev "bad") .ok).1.closed
      = true ∧
    (guardAndPlan demoEnv { demoInit with pendingEvents := [ev "bad"] } (ev "bad") .ok).1.busy
      = 1 :=
  ⟨(C6_mutate_error_exits demoEnv { demoInit with pendingEvents := [ev "bad"] } (ev "bad") .ok
      (.other "bad plan") (Or.inr (by decide)) (by decide)).1,
   (C6_mutate_error_exits demoEnv { demoInit with pendingEvents := [ev "bad"] } (ev "bad") .ok
      (.other "bad plan") (Or.inr (by decide)) (by decide)).2.1⟩

end Sentinel

/-! ## C8: the goroutine of a cycle -/

section Dispatch

variable {U S A : Type}

end Dispatch

/-! ## The guard discipline -/

section Guard

variable {U S A : Type}

theorem wfHeld_call (a : A) (s : S) (rest : List (GoOp U S A)) :
    wfHeld (GoOp.call a s :: rest) = wfHeld rest := by
  cases rest <;> simp [wfHeld]

theorem wfHeld_send (evt : Event U) (rest : List (GoOp U S A)) :
    wfHeld (GoOp.send evt :: rest) = wfHeld rest := by
  cases rest <;> simp [wfHeld]

theorem wfHeld_storeBusy (rest : List (GoOp U S A))
    (h : wfHeld (GoOp.storeBusy :: rest) = true) : rest = [GoOp.stageDone] := by
  match rest, h with
  | [.stageDone], _ => rfl

theorem wfHeld_stageDone (rest : List (GoOp U S A)) :
    wfHeld (GoOp.stageDone :: rest) = false := by
  cases rest <;> simp [wfHeld]

theorem wfHeld_holds (g : List (GoOp U S A)) (h : wfHeld g = true) : holdsGuard g = true := by
  match g, h with
  | [.storeBusy, .stageDone], _ => rfl
  | [.logError _], _ => rfl
  | [.nilDeref], _ => rfl
  | .call _ _ :: rest, _ => cases rest <;> rfl
  | .send _ :: rest, _ => cases rest <;> rfl

theorem wfHeld_goFunc (env : Env U S A) (nextStep : Option A) (ustate : Option S) :
    wfHeld (goFunc env nextStep ustate) = true := by
  cases nextStep with
  | none => rfl
  | some a =>
    cases ustate with
    | none => rfl
    | some s =>
      simp only [goFunc, wfHeld_call]
      induction (env.call a s).sends with
      | nil => cases (env.call a s).res <;> rfl
      | cons u us ih => simpa [wfHeld_send] using ih

end Guard

section GuardSteps

variable {U S A : Type}

theorem holdsGuard_stageDone : holdsGuard ([GoOp.stageDone] : List (GoOp U S A)) = false := rfl

theorem countP_all_released (gs : List (List (GoOp U S A)))
    (h : ∀ x ∈ gs, x = [GoOp.stageDone]) : gs.countP holdsGuard = 0 := by
  rw [List.countP_eq_zero]
  intro x hx
  rw [h x hx]
  simp [holdsGuard]

theorem guarded_of_all (busy : Int) (gs : List (List (GoOp U S A)))
    (h : ∀ x ∈ gs, x = [GoOp.stageDone]) : Guarded busy gs :=
  ⟨fun g hg => Or.inl (h g hg), fun _ => h, by rw [countP_all_released gs h]; omega⟩

theorem guarded_of_single (busy : Int) (l1 l2 : List (List (GoOp U S A)))
    (g : List (GoOp U S A)) (hb : busy ≠ 0) (h : ∀ x ∈ l1 ++ l2, x = [GoOp.stageDone])
    (hg : g = [GoOp.stageDone] ∨ wfHeld g = true) : Guarded busy (l1 ++ g :: l2) := by
  have h1 : ∀ x ∈ l1, x = [GoOp.stageDone] := fun x hx => h x (List.mem_append_left _ hx)
  have h2 : ∀ x ∈ l2, x = [GoOp.stageDone] := fun x hx => h x (List.mem_append_right _ hx)
  refine ⟨?_, fun hb0 => absurd hb0 hb, ?_⟩
  · intro x hx
    simp only [List.mem_append, List.mem_cons] at hx
    rcases hx with hx | rfl | hx
    · exact Or.inl (h1 x hx)
    · exact hg
    · exact Or.inl (h2 x hx)
  · rw [List.countP_append, List.countP_cons, countP_all_released l1 h1,
      countP_all_released l2 h2]
    split <;> omega

theorem guarded_split (busy : Int) (l1 l2 : List (List (GoOp U S A))) (g : List (GoOp U S A))
    (h : Guarded busy (l1 ++ g :: l2)) (hg : holdsGuard g = true) :
    busy ≠ 0 ∧ ∀ x ∈ l1 ++ l2, x = [GoOp.stageDone] := by
  obtain ⟨g1, g2, g3⟩ := h
  constructor
  · intro hb
    have := g2 hb g (by simp)
    rw [this] at hg
    simp [holdsGuard] at hg
  · rw [List.countP_append, List.countP_cons] at g3
    simp only [hg, if_true] at g3
    have c1 : l1.countP holdsGuard = 0 := by omega
    have c2 : l2.countP holdsGuard = 0 := by omega
    rw [List.countP_eq_zero] at c1 c2
    intro x hx
    have hx' : x ∈ l1 ++ g :: l2 := by
      simp only [List.mem_append, List.mem_cons] at hx ⊢
      rcases hx with hx | hx
      · exact Or.inl hx
      · exact Or.inr (Or.inr hx)
    have hnot : ¬ holdsGuard x = true := by
      simp only [List.mem_append] at hx
      rcases hx with hx | hx
      · exact c1 x hx
      · exact c2 x hx
    rcases g1 x hx' with hx1 | hx1
    · exact hx1
    · exact absurd (wfHeld_holds x hx1) hnot

theorem guarded_erase (busy : Int) (l1 l2 : List (List (GoOp U S A))) (g : List (GoOp U S A))
    (h : Guarded busy (l1 ++ g :: l2)) : Guarded busy (l1 ++ l2) := by
  obtain ⟨g1, g2, g3⟩ := h
  have hsub : ∀ x ∈ l1 ++ l2, x ∈ l1 ++ g :: l2 := by
    intro x hx
    simp only [List.mem_append, List.mem_cons] at hx ⊢
    rcases hx with hx | hx
    · exact Or.inl hx
    · exact Or.inr (Or.inr hx)
  refine ⟨fun x hx => g1 x (hsub x hx), fun hb x hx => g2 hb x (hsub x hx), ?_⟩
  rw [List.countP_append, List.countP_cons] at g3
  rw [List.countP_append]
  omega

theorem guarded_busy (busy busy1 : Int) (gs : List (List (GoOp U S A))) (h : Guarded busy gs)
    (hb : busy1 ≠ 0) : Guarded busy1 gs :=
  ⟨h.1, fun hb0 => absurd hb0 hb, h.2.2⟩

/-- The other parties keep the guard discipline. -/
theorem others_guarded (fsm fsm0 : StateMachine U S A) (l : Label U) (o : List (Obs U S A))
    (w : Option (Select U × StoreFault)) (h : others fsm l = some (fsm0, o, w))
    (hG : Guarded fsm.busy fsm.goroutines) : Guarded fsm0.busy fsm0.goroutines := by
  obtain ⟨_, hc⟩ := others_cases fsm fsm0 l o w h
  rcases hc with ⟨evt, pick, fault, hs⟩ | ⟨_, evt, rest, fault, _, rfl, rfl, rfl⟩ |
    ⟨l1, op, rest, l2, hg, hgo⟩ | ⟨_, _, rfl, rfl, rfl⟩ | ⟨_, rfl, rfl, rfl⟩ |
    ⟨_, rfl, rfl, rfl⟩ | ⟨rfl, ⟨err, rfl⟩, rfl⟩
  · have hf := doSend_frame _ _ _ _ _ _ _ hs
    rw [hf.2.2.1, hf.2.2.2.2.1]; exact hG
  · exact hG
  · rw [hg] at hG
    have adv : ∀ (hop : wfHeld (op :: rest) = wfHeld rest) (hne : op :: rest ≠ [GoOp.stageDone]),
        Guarded fsm.busy (l1 ++ rest :: l2) := by
      intro hop hne
      have hw : wfHeld (op :: rest) = true := by
        rcases hG.1 (op :: rest) (by simp) with h1 | h1
        · exact absurd h1 hne
        · exact h1
      obtain ⟨hb, hall⟩ := guarded_split _ _ _ _ hG (wfHeld_holds _ hw)
      exact guarded_of_single _ _ _ _ hb hall (Or.inr (by rw [← hop]; exact hw))
    rcases hgo with ⟨a, arg, rfl, rfl, rfl, rfl⟩ | ⟨evt, pick, fault, rfl, hs⟩ |
      ⟨e, rfl, rfl, rfl, rfl⟩ | ⟨rfl, rfl, rfl, rfl⟩ | ⟨rfl, _, rfl, rfl, f, rfl⟩ |
      ⟨rfl, rfl, rfl, rfl⟩
    · exact adv (wfHeld_call a arg rest) (by simp)
    · have hf := doSend_frame _ _ _ _ _ _ _ hs
      rw [hf.2.2.1, hf.2.2.2.2.1]
      exact adv (wfHeld_send evt rest) (by simp)
    · exact guarded_erase _ _ _ _ hG
    · have hw : wfHeld (GoOp.storeBusy :: rest) = true := by
        rcases hG.1 (GoOp.storeBusy :: rest) (by simp) with h1 | h1
        · exact absurd h1 (by simp)
        · exact h1
      have hrest := wfHeld_storeBusy rest hw
      obtain ⟨_, hall⟩ := guarded_split _ _ _ _ hG (wfHeld_holds _ hw)
      apply guarded_of_all
      intro x hx
      simp only [List.mem_append, List.mem_cons] at hx
      rcases hx with hx | rfl | hx
      · exact hall x (List.mem_append_left _ hx)
      · exact hrest
      · exact hall x (List.mem_append_right _ hx)
    · exact guarded_erase _ _ _ _ hG
    · rw [← hg] at hG; exact hG
  · exact hG
  · exact hG
  · exact hG
  · exact hG

/-- The events an iteration receives are those of its `select`. -/
theorem runIter_received (env : Env U S A) (fsm : StateMachine U S A) (sel : Select U)
    (fault : StoreFault) :
    receivedOf (runIter env fsm sel fault).2 = receivedOf (recvObs sel : List (Obs U S A)) := by
  rcases runIter_outcome env fsm sel fault with ⟨hs, e⟩ | ⟨_, _, _, e⟩ |
    ⟨_, _, _, st', pl, hpl, _, e2⟩ | ⟨_, _, _, _, _, _, e2⟩
  · rw [e, hs]; rfl
  · rw [e]
  · rw [e2]
    rcases hpl with rfl | rfl <;>
      simp [receivedOf_append, (receivedOf_forceObs env sel).1, receivedOf]
  · rw [e2]
    simp [receivedOf_append, (receivedOf_forceObs env sel).1, receivedOf]

/-- An iteration for anything but a forcing event keeps the guard
discipline. -/
theorem runIter_guarded (env : Env U S A) (fsm : StateMachine U S A) (sel : Select U)
    (fault : StoreFault) (hG : Guarded fsm.busy fsm.goroutines)
    (hsel : selForce env sel = false) :
    Guarded (runIter env fsm sel fault).1.busy (runIter env fsm sel fault).1.goroutines := by
  rcases runIter_outcome env fsm sel fault with ⟨_, e⟩ | ⟨_, _, _, e⟩ |
    ⟨_, _, _, st', pl, hpl, e1, _⟩ | ⟨_, hc, _, _, _, e1, _⟩
  · rw [e]; exact hG
  · rw [e]; exact hG
  · rw [e1]; exact guarded_busy fsm.busy 1 _ hG (by simp)
  · rw [e1]
    have hb : fsm.busy = 0 := by
      rcases hc with hc | hc
      · rw [hsel] at hc; exact absurd hc (by simp)
      · exact hc
    have hall := hG.2.1 hb
    exact guarded_of_single 1 fsm.goroutines [] _ (by simp) (by simpa using hall)
      (Or.inr (wfHeld_goFunc _ _ _))

theorem step_guarded (env : Env U S A) (fsm fsm1 : StateMachine U S A) (l : Label U)
    (o : List (Obs U S A)) (h : step env fsm l = some (fsm1, o))
    (hq : ∀ evt ∈ receivedOf o, forcing env evt = false)
    (hG : Guarded fsm.busy fsm.goroutines) : Guarded fsm1.busy fsm1.goroutines := by
  obtain ⟨fsm0, o0, w, ho, hw⟩ := step_split env fsm fsm1 l o h
  have hG0 := others_guarded fsm fsm0 l o0 w ho hG
  rcases hw with ⟨_, rfl, rfl⟩ | ⟨sel, fault, _, rfl, rfl⟩
  · exact hG0
  · apply runIter_guarded env fsm0 sel fault hG0
    cases sel with
    | eventsIn evt =>
      apply hq
      rw [receivedOf_append, runIter_received]
      simp [recvObs, receivedOf]
    | stageDone => rfl
    | closing => rfl

theorem exec_guarded (env : Env U S A) (ls : List (Label U)) :
    ∀ (fsm fsm1 : StateMachine U S A) (tr : List (Obs U S A)),
      exec env fsm ls = some (fsm1, tr) → (∀ evt ∈ receivedOf tr, forcing env evt = false) →
      Guarded fsm.busy fsm.goroutines → Guarded fsm1.busy fsm1.goroutines := by
  induction ls with
  | nil =>
    intro fsm fsm1 tr h _ hG
    rw [exec_nil] at h
    cases h
    exact hG
  | cons l ls ih =>
    intro fsm fsm2 tr h hq hG
    obtain ⟨fsm1, o1, o2, hs, he, rfl⟩ := exec_cons env fsm fsm2 l ls tr h
    rw [receivedOf_append] at hq
    have hG1 := step_guarded env fsm fsm1 l o1 hs
      (fun evt hevt => hq evt (List.mem_append_left _ hevt)) hG
    exact ih fsm1 fsm2 o2 he (fun evt hevt => hq evt (List.mem_append_right _ hevt)) hG1

theorem guarded_init (s0 : S) (cap : Nat) :
    Guarded (StateMachine.init s0 cap : StateMachine U S A).busy
      (StateMachine.init s0 cap : StateMachine U S A).goroutines :=
  guarded_of_all _ _ (by simp [StateMachine.init])

end GuardSteps

/-! ## C1 and C7: the guard, and the two literal events that reset it -/

section GuardClaims

variable {U S A : Type}

theorem runIter_plans (env : Env U S A) (fsm : StateMachine U S A) (sel : Select U)
    (fault : StoreFault) (h : plannedOf (runIter env fsm sel fault).2 ≠ []) :
    selForce env sel = true ∨ fsm.busy = 0 := by
  rcases runIter_outcome env fsm sel fault with ⟨_, e⟩ | ⟨_, _, _, e⟩ |
    ⟨_, hc, _⟩ | ⟨_, hc, _⟩
  · rw [e] at h; exact absurd rfl h
  · rw [e, (plannedOf_recvObs sel).1] at h; exact absurd rfl h
  · exact hc
  · exact hc

theorem inFlight_guarded (fsm : StateMachine U S A) (hG : Guarded fsm.busy fsm.goroutines) :
    (inFlight fsm).length ≤ 1 ∧ (fsm.busy = 0 → inFlight fsm = []) := by
  constructor
  · unfold inFlight
    rw [← List.countP_eq_length_filter]
    exact hG.2.2
  · intro hb
    unfold inFlight
    rw [List.filter_eq_nil_iff]
    intro x hx
    rw [hG.2.1 hb x hx]
    simp [holdsGuard]

/-- C1 as stated fails: `E1` starts a cycle whose Action is in flight with
`busy` = 1; the event `{Removed}` received then starts a second cycle, so that
two cycles are in flight. -/
theorem C1_forced_second_cycle :
    (exec demoEnv demoInit [.send (ev "E1") .eventsIn .ok]).map
        (fun r => (r.1.busy, (inFlight r.1).length)) = some (1, 1) ∧
    (exec demoEnv demoInit
        [.send (ev "E1") .eventsIn .ok, .send (ev "{Removed}") .eventsIn .ok]).map
        (fun r => (plannedOf r.2, (inFlight r.1).length))
      = some ([[ev "E1"], [ev "{Removed}"]], 2) := by
  decide

/-- C1, amended: in every reachable state an iteration of `run` starts a
plan+mutate cycle only if `busy` was 0 when the iteration began or the event
received formats as one of the two literals of line 75 (`busy` is then stored
to 0 first).  In a run in which no received event formats so, at most one
cycle is in flight, none when `busy` is 0, and a cycle starts only when none
is in flight. -/
theorem C1_cycle_needs_free_guard (env : Env U S A) (s0 : S) (cap : Nat) (ls : List (Label U))
    (fsm : StateMachine U S A) (tr : List (Obs U S A))
    (hrun : exec env (StateMachine.init s0 cap) ls = some (fsm, tr)) :
    (∀ sel fault, plannedOf (runIter env fsm sel fault).2 ≠ [] →
      fsm.busy = 0 ∨ selForce env sel = true) ∧
    ((∀ evt ∈ receivedOf tr, forcing env evt = false) →
      (inFlight fsm).length ≤ 1 ∧ (fsm.busy = 0 → inFlight fsm = []) ∧
      ∀ sel fault, selForce env sel = false →
        plannedOf (runIter env fsm sel fault).2 ≠ [] → fsm.busy = 0 ∧ inFlight fsm = []) := by
  constructor
  · intro sel fault h
    exact (runIter_plans env fsm sel fault h).symm
  · intro hq
    have hG := exec_guarded env ls _ fsm tr hrun hq (guarded_init s0 cap)
    obtain ⟨h1, h2⟩ := inFlight_guarded fsm hG
    refine ⟨h1, h2, ?_⟩
    intro sel fault hsel hp
    rcases runIter_plans env fsm sel fault hp with h | h
    · rw [hsel] at h; exact absurd h (by simp)
    · exact ⟨h, h2 h⟩

/-- C1 amended, at a concrete run: after `E1` was sent, one cycle is in
flight. -/
theorem C1_cycle_needs_free_guard_witness : (inFlight demoBusy).length ≤ 1 :=
  ((C1_cycle_needs_free_guard demoEnv 0 0 [.send (ev "E1") .eventsIn .ok] demoBusy
      demoBusyTrace (by decide)).2 (by decide)).1

end GuardClaims

section Stall

variable {U S A : Type}

/-- The other parties cannot end a stall: no goroutine is left to release the
guard. -/
theorem others_stalled (fsm fsm0 : StateMachine U S A) (l : Label U) (o : List (Obs U S A))
    (w : Option (Select U × StoreFault)) (h : others fsm l = some (fsm0, o, w))
    (hS : Stalled fsm.busy fsm.goroutines) :
    Stalled fsm0.busy fsm0.goroutines ∧ fsm0.busy = fsm.busy ∧ Obs.released ∉ o := by
  obtain ⟨_, hc⟩ := others_cases fsm fsm0 l o w h
  rcases hc with ⟨evt, pick, fault, hs⟩ | ⟨_, evt, rest, fault, _, rfl, rfl, rfl⟩ |
    ⟨l1, op, rest, l2, hg, hgo⟩ | ⟨_, _, rfl, rfl, rfl⟩ | ⟨_, rfl, rfl, rfl⟩ |
    ⟨_, rfl, rfl, rfl⟩ | ⟨rfl, ⟨err, rfl⟩, rfl⟩
  · have hf := doSend_frame _ _ _ _ _ _ _ hs
    rw [hf.2.2.1, hf.2.2.2.2.1]
    exact ⟨hS, rfl, hf.2.2.2.2.2.2.2.2.2.1⟩
  · exact ⟨hS, rfl, by simp⟩
  · have hop : op :: rest = [GoOp.stageDone] := hS.2 _ (by rw [hg]; simp)
    have hsub : ∀ x ∈ l1 ++ l2, x = [GoOp.stageDone] := by
      intro x hx
      apply hS.2
      rw [hg]
      simp only [List.mem_append, List.mem_cons] at hx ⊢
      rcases hx with hx | hx
      · exact Or.inl hx
      · exact Or.inr (Or.inr hx)
    rcases hgo with ⟨a, arg, rfl, _⟩ | ⟨evt, pick, fault, rfl, _⟩ |
      ⟨e, rfl, _⟩ | ⟨rfl, _⟩ | ⟨rfl, _, rfl, rfl, f, rfl⟩ |
      ⟨rfl, _⟩
    · cases hop
    · cases hop
    · cases hop
    · cases hop
    · exact ⟨⟨hS.1, hsub⟩, rfl, by simp⟩
    · cases hop
  · exact ⟨hS, rfl, by simp⟩
  · exact ⟨hS, rfl, by simp⟩
  · exact ⟨hS, rfl, by simp⟩
  · exact ⟨hS, rfl, by simp⟩

/-- With the guard held, an iteration for anything but a forcing event plans
nothing and trims nothing: the event, if any, is appended. -/
theorem runIter_held (env : Env U S A) (fsm : StateMachine U S A) (sel : Select U)
    (fault : StoreFault) (hb : fsm.busy ≠ 0) (hsel : selForce env sel = false) :
    (runIter env fsm sel fault).1.busy = fsm.busy ∧
    (runIter env fsm sel fault).1.goroutines = fsm.goroutines ∧
    plannedOf (runIter env fsm sel fault).2 = [] ∧
    trimmedOf (runIter env fsm sel fault).2 = [] ∧
    Obs.released ∉ (runIter env fsm sel fault).2 ∧
    (runIter env fsm sel fault).1.pendingEvents =
      fsm.pendingEvents ++ receivedOf (runIter env fsm sel fault).2 := by
  have hno : ¬ (selForce env sel = true ∨ fsm.busy = 0) := by
    rintro (h | h)
    · rw [hsel] at h; exact absurd h (by simp)
    · exact hb h
  rcases runIter_outcome env fsm sel fault with ⟨_, e⟩ | ⟨_, _, _, e⟩ |
    ⟨_, hc, _⟩ | ⟨_, hc, _⟩
  · rw [e]; simp [plannedOf, trimmedOf, receivedOf]
  · rw [e]
    refine ⟨rfl, rfl, (plannedOf_recvObs sel).1, (plannedOf_recvObs sel).2, ?_, ?_⟩
    · intro hx
      obtain ⟨evt, hx⟩ := mem_recvObs sel _ hx
      cases hx
    · exact (receivedOf_recvObs fsm sel).symm
  · exact absurd hc hno
  · exact absurd hc hno

theorem step_stalled (env : Env U S A) (fsm fsm1 : StateMachine U S A) (l : Label U)
    (o : List (Obs U S A)) (h : step env fsm l = some (fsm1, o))
    (hq : ∀ evt ∈ receivedOf o, forcing env evt = false)
    (hS : Stalled fsm.busy fsm.goroutines) :
    Stalled fsm1.busy fsm1.goroutines ∧ plannedOf o = [] ∧ trimmedOf o = [] ∧
    Obs.released ∉ o ∧ fsm1.pendingEvents = fsm.pendingEvents ++ receivedOf o := by
  obtain ⟨fsm0, o0, w, ho, hw⟩ := step_split env fsm fsm1 l o h
  obtain ⟨hS0, hb0, hrel⟩ := others_stalled fsm fsm0 l o0 w ho hS
  obtain ⟨f1, _, _, _, f5, f6, f7, _⟩ := others_frame fsm fsm0 l o0 w ho
  rcases hw with ⟨_, rfl, rfl⟩ | ⟨sel, fault, _, rfl, rfl⟩
  · exact ⟨hS0, f6, f7, hrel, by rw [f1, f5]; simp⟩
  · have hsel : selForce env sel = false := by
      cases sel with
      | eventsIn evt =>
        apply hq
        rw [receivedOf_append, runIter_received]
        simp [recvObs, receivedOf]
      | stageDone => rfl
      | closing => rfl
    obtain ⟨r1, r2, r3, r4, r5, r6⟩ := runIter_held env fsm0 sel fault hS0.1 hsel
    refine ⟨?_, ?_, ?_, ?_, ?_⟩
    · rw [r1, r2]; exact hS0
    · rw [plannedOf_append, f6, r3]; rfl
    · rw [trimmedOf_append, f7, r4]; rfl
    · simp only [List.mem_append, not_or]; exact ⟨hrel, r5⟩
    · rw [r6, f1, receivedOf_append, f5]; simp

theorem exec_stalled (env : Env U S A) (ls : List (Label U)) :
    ∀ (fsm fsm1 : StateMachine U S A) (tr : List (Obs U S A)),
      exec env fsm ls = some (fsm1, tr) → (∀ evt ∈ receivedOf tr, forcing env evt = false) →
      Stalled fsm.busy fsm.goroutines →
      Stalled fsm1.busy fsm1.goroutines ∧ plannedOf tr = [] ∧ trimmedOf tr = [] ∧
      Obs.released ∉ tr ∧ fsm1.pendingEvents = fsm.pendingEvents ++ receivedOf tr := by
  induction ls with
  | nil =>
    intro fsm fsm1 tr h _ hS
    rw [exec_nil] at h
    cases h
    simp [hS, plannedOf, trimmedOf, receivedOf]
  | cons l ls ih =>
    intro fsm fsm2 tr h hq hS
    obtain ⟨fsm1, o1, o2, hs, he, rfl⟩ := exec_cons env fsm fsm2 l ls tr h
    rw [receivedOf_append] at hq
    obtain ⟨a1, a2, a3, a4, a5⟩ := step_stalled env fsm fsm1 l o1 hs
      (fun evt hevt => hq evt (List.mem_append_left _ hevt)) hS
    obtain ⟨b1, b2, b3, b4, b5⟩ := ih fsm1 fsm2 o2 he
      (fun evt hevt => hq evt (List.mem_append_right _ hevt)) a1
    refine ⟨b1, ?_, ?_, ?_, ?_⟩
    · rw [plannedOf_append, a2, b2]; rfl
    · rw [trimmedOf_append, a3, b3]; rfl
    · simp only [List.mem_append, not_or]; exact ⟨a4, b4⟩
    · rw [b5, a5, receivedOf_append, List.append_assoc]

/-- C7 as stated fails: the Action of the cycle for `fail` returns an error,
the guard stays held and `x` is only queued; but the event `{Removed}`
received afterwards makes the loop call the planner again, on `[x, {Removed}]`,
and the pending batch is drained by the count it returns. -/
theorem C7_forced_out_of_stall :
    (exec demoEnv demoInit
        [.send (ev "fail") .eventsIn .ok, .go 0 .eventsIn .ok, .go 0 .eventsIn .ok,
         .send (ev "x") .eventsIn .ok]).map
        (fun r => (r.1.pendingEvents, plannedOf r.2, r.1.busy, r.1.goroutines.length))
      = some ([ev "x"], [[ev "fail"]], 1, 0) ∧
    (exec demoEnv demoInit
        [.send (ev "fail") .eventsIn .ok, .go 0 .eventsIn .ok, .go 0 .eventsIn .ok,
         .send (ev "x") .eventsIn .ok, .send (ev "{Removed}") .eventsIn .ok]).map
        (fun r => (r.1.pendingEvents, plannedOf r.2, trimmedOf r.2))
      = some ([ev "{Removed}"], [[ev "fail"], [ev "x", ev "{Removed}"]], [1, 1]) := by
  decide

/-- C7, amended: in a run in which no received event formats as one of the two
literals of line 75, when the Action of the cycle in flight has returned an
error, its goroutine only logs it: it does not store to `busy` and posts no
completion signal, and `busy` stays held.  From then on, for every sequence of
steps in which no received event formats as one of the two literals, the
planner is not called, nothing is trimmed, the guard is not released, and the
pending batch only grows by the events received. -/
theorem C7_stall_after_action_error (env : Env U S A) (s0 : S) (cap : Nat)
    (ls : List (Label U)) (fsm : StateMachine U S A) (tr : List (Obs U S A)) (i : Nat)
    (err : Error) (rest : List (GoOp U S A)) (pick : SendCase) (fault : StoreFault)
    (hrun : exec env (StateMachine.init s0 cap) ls = some (fsm, tr))
    (hq : ∀ evt ∈ receivedOf tr, forcing env evt = false)
    (hgo : fsm.goroutines[i]? = some (.logError err :: rest))
    (hp : fsm.panicked = false) :
    step env fsm (.go i pick fault) =
      some ({ fsm with goroutines := fsm.goroutines.eraseIdx i }, [.actionFailed err]) ∧
    fsm.busy ≠ 0 ∧
    (∀ ls2 fsm2 tr2,
      exec env { fsm with goroutines := fsm.goroutines.eraseIdx i } ls2 = some (fsm2, tr2) →
      (∀ evt ∈ receivedOf tr2, forcing env evt = false) →
      plannedOf tr2 = [] ∧ trimmedOf tr2 = [] ∧ Obs.released ∉ tr2 ∧ fsm2.busy ≠ 0 ∧
      fsm2.pendingEvents = fsm.pendingEvents ++ receivedOf tr2) := by
  have hG := exec_guarded env ls _ fsm tr hrun hq (guarded_init s0 cap)
  obtain ⟨l1, l2, e1, _, e3⟩ := getElem?_split _ _ _ hgo
  rw [e1] at hG
  obtain ⟨hb, hall⟩ := guarded_split _ _ _ _ hG (by cases rest <;> rfl)
  have hS : Stalled fsm.busy (fsm.goroutines.eraseIdx i) := by rw [e3]; exact ⟨hb, hall⟩
  refine ⟨?_, hb, ?_⟩
  · simp [step, others, hp, hgo, doGo]
  · intro ls2 fsm2 tr2 he hq2
    obtain ⟨b1, b2, b3, b4, b5⟩ :=
      exec_stalled env ls2 { fsm with goroutines := fsm.goroutines.eraseIdx i } fsm2 tr2 he hq2 hS
    exact ⟨b2, b3, b4, b1.1, b5⟩

/-- C7 amended, at a concrete run: the Action for `fail` has returned its
error; the goroutine logs it and ends, and the guard stays held. -/
theorem C7_stall_after_action_error_witness :
    step demoEnv demoFailing (.go 0 .eventsIn .ok) =
      some ({ demoFailing with goroutines := [] }, [.actionFailed (.other "action failed")]) ∧
    demoFailing.busy ≠ 0 :=
  ⟨(C7_stall_after_action_error demoEnv 0 0
      [.send (ev "fail") .eventsIn .ok, .go 0 .eventsIn .ok] demoFailing demoFailingTrace 0
      (.other "action failed") [] .eventsIn .ok (by decide) (by decide) (by decide)
      (by decide)).1,
   (C7_stall_after_action_error demoEnv 0 0
      [.send (ev "fail") .eventsIn .ok, .go 0 .eventsIn .ok] demoFailing demoFailingTrace 0
      (.other "action failed") [] .eventsIn .ok (by decide) (by decide) (by decide)
      (by decide)).2.1⟩

end Stall

/-! ## C2 and C4: the pending batch and the events received -/

section Pending

variable {U S A : Type}

theorem batchOf_length (fsm : StateMachine U S A) (sel : Select U) :
    (batchOf fsm sel).length =
      fsm.pendingEvents.length + (receivedOf (recvObs sel : List (Obs U S A))).length := by
  rw [← receivedOf_recvObs (S := S) (A := A) fsm sel, List.length_append]

/-- One iteration: what was trimmed and what stays pending add up to what was
pending and what was received, if the count of the planner is within the
batch. -/
theorem runIter_count (env : Env U S A) (fsm : StateMachine U S A) (sel : Select U)
    (fault : StoreFault)
    (hcount : ∀ b s, Obs.planned b s ∈ (runIter env fsm sel fault).2 →
      (env.planner b s).processed ≤ b.length) :
    (trimmedOf (runIter env fsm sel fault).2).sum + (runIter env fsm sel fault).1.pendingEvents.length
      = fsm.pendingEvents.length + (receivedOf (runIter env fsm sel fault).2).length := by
  rw [runIter_received]
  rcases runIter_outcome env fsm sel fault with ⟨hs, e⟩ | ⟨_, _, _, e⟩ |
    ⟨_, _, _, st', pl, hpl, e1, e2⟩ | ⟨_, _, _, _, _, e1, e2⟩
  · rw [e, hs]; simp [trimmedOf, recvObs, receivedOf]
  · rw [e]; simp [(plannedOf_recvObs sel).2, batchOf_length]
  · rw [e1, e2]
    rcases hpl with rfl | rfl <;>
      simp [trimmedOf_append, (plannedOf_recvObs sel).2, (receivedOf_forceObs env sel).2.2,
        trimmedOf, batchOf_length]
  · have hc := hcount (batchOf fsm sel) fsm.st.value (by rw [e2]; simp)
    rw [e1, e2]
    simp only [trimmedOf_append, (plannedOf_recvObs sel).2, (receivedOf_forceObs env sel).2.2,
      trimmedOf, List.nil_append, List.sum_cons, List.sum_nil, Nat.add_zero]
    rw [← batchOf_length]
    split
    · rw [List.length_drop]; omega
    · simp only [List.length_nil]; omega

theorem step_count (env : Env U S A) (fsm fsm1 : StateMachine U S A) (l : Label U)
    (o : List (Obs U S A)) (h : step env fsm l = some (fsm1, o))
    (hcount : ∀ b s, Obs.planned b s ∈ o → (env.planner b s).processed ≤ b.length) :
    (trimmedOf o).sum + fsm1.pendingEvents.length
      = fsm.pendingEvents.length + (receivedOf o).length := by
  obtain ⟨fsm0, o0, w, ho, hw⟩ := step_split env fsm fsm1 l o h
  obtain ⟨f1, _, _, _, f5, _, f7, _⟩ := others_frame fsm fsm0 l o0 w ho
  rcases hw with ⟨_, rfl, rfl⟩ | ⟨sel, fault, _, rfl, rfl⟩
  · rw [f7, f5, f1]; simp
  · have := runIter_count env fsm0 sel fault
      (fun b s hb => hcount b s (List.mem_append_right _ hb))
    rw [trimmedOf_append, receivedOf_append, f7, f5, ← f1]
    simpa using this

theorem exec_count (env : Env U S A) (ls : List (Label U)) :
    ∀ (fsm fsm1 : StateMachine U S A) (tr : List (Obs U S A)),
      exec env fsm ls = some (fsm1, tr) →
      (∀ b s, Obs.planned b s ∈ tr → (env.planner b s).processed ≤ b.length) →
      (trimmedOf tr).sum + fsm1.pendingEvents.length
        = fsm.pendingEvents.length + (receivedOf tr).length := by
  induction ls with
  | nil =>
    intro fsm fsm1 tr h _
    rw [exec_nil] at h
    cases h
    simp [trimmedOf, receivedOf]
  | cons l ls ih =>
    intro fsm fsm2 tr h hcount
    obtain ⟨fsm1, o1, o2, hs, he, rfl⟩ := exec_cons env fsm fsm2 l ls tr h
    have a := step_count env fsm fsm1 l o1 hs
      (fun b s hb => hcount b s (List.mem_append_left _ hb))
    have b := ih fsm1 fsm2 o2 he (fun b s hb => hcount b s (List.mem_append_right _ hb))
    rw [trimmedOf_append, receivedOf_append, List.sum_append, List.length_append]
    omega

/-- C4 as stated fails: `E1` is consumed by the first cycle, `x` arrives while
its Action is in flight and stays pending, then `stop` makes the loop return.
No planner call failed, the one count returned (1) is within its batch, and
the counts sum to 1 while 2 events were received. -/
theorem C4_pending_left_at_exit :
    (exec demoEnv demoInit
        [.send (ev "E1") .eventsIn .ok, .send (ev "x") .eventsIn .ok, .stopClose, .closing]).map
        (fun r => (plannedOf r.2, trimmedOf r.2, receivedOf r.2))
      = some ([[ev "E1"]], [1], [ev "E1", ev "x"]) ∧
    (exec demoEnv demoInit
        [.send (ev "E1") .eventsIn .ok, .send (ev "x") .eventsIn .ok, .stopClose, .closing]).map
        (fun r => (r.1.pendingEvents, r.1.closed, (trimmedOf r.2).sum, (receivedOf r.2).length))
      = some ([ev "x"], true, 1, 2) := by
  decide

/-- C4, amended: in every run in which each planner call returns a count
between 0 and the length of its batch, at every moment (also when the loop has
returned) the counts of the cycles that trimmed the batch and the length of
the pending batch add up to the number of events the loop has received. -/
theorem C4_consumed_plus_pending (env : Env U S A) (s0 : S) (cap : Nat) (ls : List (Label U))
    (fsm : StateMachine U S A) (tr : List (Obs U S A))
    (hrun : exec env (StateMachine.init s0 cap) ls = some (fsm, tr))
    (hcount : ∀ b s, Obs.planned b s ∈ tr → (env.planner b s).processed ≤ b.length) :
    (trimmedOf tr).sum + fsm.pendingEvents.length = (receivedOf tr).length := by
  have := exec_count env ls _ fsm tr hrun hcount
  simpa [StateMachine.init] using this

/-- C4 amended, at a concrete run: `E1` was received and consumed, nothing is
pending. -/
theorem C4_consumed_plus_pending_witness :
    (trimmedOf demoBusyTrace).sum + demoBusy.pendingEvents.length
      = (receivedOf demoBusyTrace).length :=
  C4_consumed_plus_pending demoEnv 0 0 [.send (ev "E1") .eventsIn .ok] demoBusy demoBusyTrace
    (by decide)
    (by
      intro b s h
      simp [demoBusyTrace] at h
      obtain ⟨rfl, rfl⟩ := h
      decide)

end Pending

section Order

variable {U S A : Type}

theorem batchesOrdered_append (t1 t2 : List (Obs U S A)) :
    ∀ sofar, batchesOrdered sofar (t1 ++ t2) ↔
      (batchesOrdered sofar t1 ∧ batchesOrdered (sofar ++ receivedOf t1) t2) := by
  induction t1 with
  | nil => intro sofar; simp [batchesOrdered, receivedOf]
  | cons x t ih =>
    intro sofar
    cases x <;> simp [batchesOrdered, receivedOf, ih, and_assoc]

theorem batchesOrdered_quiet (t : List (Obs U S A)) (h : plannedOf t = []) :
    ∀ sofar, batchesOrdered sofar t := by
  induction t with
  | nil => intro sofar; trivial
  | cons x t ih =>
    intro sofar
    cases x <;> simp_all [batchesOrdered, plannedOf]

theorem batchesOrdered_split (sofar : List (Event U)) (tr tr1 tr2 : List (Obs U S A))
    (b : List (Event U)) (u : S) (h : batchesOrdered sofar tr)
    (e : tr = tr1 ++ Obs.planned b u :: tr2) : b <:+ sofar ++ receivedOf tr1 := by
  subst e
  rw [batchesOrdered_append] at h
  exact h.2.1

theorem suffix_append_same (l1 l2 l3 : List (Event U)) (h : l1 <:+ l2) :
    l1 ++ l3 <:+ l2 ++ l3 := by
  obtain ⟨t, rfl⟩ := h
  exact ⟨t, by simp⟩

/-- A cycle removes a prefix of the pending batch after the `select`, and
nothing else changes the batch. -/
theorem runIter_drops (env : Env U S A) (fsm : StateMachine U S A) (sel : Select U)
    (fault : StoreFault) :
    ∃ k, (runIter env fsm sel fault).1.pendingEvents = (batchOf fsm sel).drop k := by
  rcases runIter_outcome env fsm sel fault with ⟨hs, e⟩ | ⟨_, _, _, e⟩ |
    ⟨_, _, _, st', pl, hpl, e1, _⟩ | ⟨_, _, _, _, _, e1, _⟩
  · exact ⟨0, by rw [e, hs]; rfl⟩
  · exact ⟨0, by rw [e]; rfl⟩
  · exact ⟨0, by rw [e1]; rfl⟩
  · rw [e1]
    by_cases hc : (env.planner (batchOf fsm sel) fsm.st.value).processed < (batchOf fsm sel).length
    · exact ⟨(env.planner (batchOf fsm sel) fsm.st.value).processed, by simp only [if_pos hc]⟩
    · exact ⟨(batchOf fsm sel).length, by simp only [if_neg hc]; simp⟩

/-- One iteration keeps the pending batch a suffix of the events received and
plans on such a suffix only. -/
theorem runIter_ordered (env : Env U S A) (fsm : StateMachine U S A) (sel : Select U)
    (fault : StoreFault) (sofar : List (Event U)) (h : fsm.pendingEvents <:+ sofar) :
    (runIter env fsm sel fault).1.pendingEvents <:+
      sofar ++ receivedOf (runIter env fsm sel fault).2 ∧
    batchesOrdered sofar (runIter env fsm sel fault).2 := by
  have hB : batchOf fsm sel <:+ sofar ++ receivedOf (recvObs sel : List (Obs U S A)) := by
    rw [← receivedOf_recvObs (S := S) (A := A) fsm sel]
    exact suffix_append_same _ _ _ h
  constructor
  · rw [runIter_received]
    obtain ⟨k, hk⟩ := runIter_drops env fsm sel fault
    rw [hk]
    exact (List.drop_suffix k _).trans hB
  · rcases runIter_outcome env fsm sel fault with ⟨_, e⟩ | ⟨_, _, _, e⟩ |
      ⟨_, _, _, st', pl, hpl, _, e2⟩ | ⟨_, _, _, _, _, _, e2⟩
    · rw [e]; simp [batchesOrdered]
    · rw [e]; exact batchesOrdered_quiet _ (plannedOf_recvObs sel).1 _
    · rw [e2, batchesOrdered_append, batchesOrdered_append]
      refine ⟨⟨batchesOrdered_quiet _ (plannedOf_recvObs sel).1 _,
        batchesOrdered_quiet _ (receivedOf_forceObs env sel).2.1 _⟩, ?_⟩
      rw [receivedOf_append, (receivedOf_forceObs env sel).1, List.append_nil]
      rcases hpl with rfl | rfl
      · simp [batchesOrdered]
      · simpa [batchesOrdered] using hB
    · rw [e2, batchesOrdered_append, batchesOrdered_append]
      refine ⟨⟨batchesOrdered_quiet _ (plannedOf_recvObs sel).1 _,
        batchesOrdered_quiet _ (receivedOf_forceObs env sel).2.1 _⟩, ?_⟩
      rw [receivedOf_append, (receivedOf_forceObs env sel).1, List.append_nil]
      simpa [batchesOrdered] using hB

theorem step_ordered (env : Env U S A) (fsm fsm1 : StateMachine U S A) (l : Label U)
    (o : List (Obs U S A)) (h : step env fsm l = some (fsm1, o)) (sofar : List (Event U))
    (hs : fsm.pendingEvents <:+ sofar) :
    fsm1.pendingEvents <:+ sofar ++ receivedOf o ∧ batchesOrdered sofar o := by
  obtain ⟨fsm0, o0, w, ho, hw⟩ := step_split env fsm fsm1 l o h
  obtain ⟨f1, _, _, _, f5, f6, _, _⟩ := others_frame fsm fsm0 l o0 w ho
  rcases hw with ⟨_, rfl, rfl⟩ | ⟨sel, fault, _, rfl, rfl⟩
  · rw [f1, f5, List.append_nil]
    exact ⟨hs, batchesOrdered_quiet _ f6 _⟩
  · obtain ⟨r1, r2⟩ := runIter_ordered env fsm0 sel fault sofar (by rw [f1]; exact hs)
    rw [receivedOf_append, f5, List.nil_append, batchesOrdered_append, f5, List.append_nil]
    exact ⟨r1, batchesOrdered_quiet _ f6 _, r2⟩

theorem exec_ordered (env : Env U S A) (ls : List (Label U)) :
    ∀ (fsm fsm1 : StateMachine U S A) (tr : List (Obs U S A)) (sofar : List (Event U)),
      exec env fsm ls = some (fsm1, tr) → fsm.pendingEvents <:+ sofar →
      fsm1.pendingEvents <:+ sofar ++ receivedOf tr ∧ batchesOrdered sofar tr := by
  induction ls with
  | nil =>
    intro fsm fsm1 tr sofar h hs
    rw [exec_nil] at h
    cases h
    simp [receivedOf, batchesOrdered, hs]
  | cons l ls ih =>
    intro fsm fsm2 tr sofar h hs
    obtain ⟨fsm1, o1, o2, hst, he, rfl⟩ := exec_cons env fsm fsm2 l ls tr h
    obtain ⟨a1, a2⟩ := step_ordered env fsm fsm1 l o1 hst sofar hs
    obtain ⟨b1, b2⟩ := ih fsm1 fsm2 o2 (sofar ++ receivedOf o1) he a1
    rw [receivedOf_append, ← List.append_assoc, batchesOrdered_append]
    exact ⟨b1, a2, b2⟩

/-- While no planner call is made the pending batch only grows, by the events
received, in order. -/
theorem runIter_queue (env : Env U S A) (fsm : StateMachine U S A) (sel : Select U)
    (fault : StoreFault) (h : plannedOf (runIter env fsm sel fault).2 = []) :
    (runIter env fsm sel fault).1.pendingEvents =
      fsm.pendingEvents ++ receivedOf (runIter env fsm sel fault).2 := by
  rw [runIter_received, receivedOf_recvObs]
  rcases runIter_outcome env fsm sel fault with ⟨hs, e⟩ | ⟨_, _, _, e⟩ |
    ⟨_, _, _, st', pl, hpl, e1, _⟩ | ⟨_, _, _, _, _, _, e2⟩
  · rw [e, hs]; rfl
  · rw [e]
  · rw [e1]
  · rw [e2] at h
    simp [plannedOf_append, plannedOf] at h

theorem exec_queue (env : Env U S A) (ls : List (Label U)) :
    ∀ (fsm fsm1 : StateMachine U S A) (tr : List (Obs U S A)),
      exec env fsm ls = some (fsm1, tr) → plannedOf tr = [] →
      fsm1.pendingEvents = fsm.pendingEvents ++ receivedOf tr := by
  induction ls with
  | nil =>
    intro fsm fsm1 tr h _
    rw [exec_nil] at h
    cases h
    simp [receivedOf]
  | cons l ls ih =>
    intro fsm fsm2 tr h hp
    obtain ⟨fsm1, o1, o2, hst, he, rfl⟩ := exec_cons env fsm fsm2 l ls tr h
    rw [plannedOf_append, List.append_eq_nil] at hp
    have b := ih fsm1 fsm2 o2 he hp.2
    obtain ⟨fsm0, o0, w, ho, hw⟩ := step_split env fsm fsm1 l o1 hst
    obtain ⟨f1, _, _, _, f5, _, _, _⟩ := others_frame fsm fsm0 l o0 w ho
    have a : fsm1.pendingEvents = fsm.pendingEvents ++ receivedOf o1 := by
      rcases hw with ⟨_, rfl, rfl⟩ | ⟨sel, fault, _, rfl, rfl⟩
      · rw [f1, f5, List.append_nil]
      · rw [plannedOf_append, List.append_eq_nil] at hp
        rw [runIter_queue env fsm0 sel fault hp.1.2, f1, receivedOf_append, f5]
        rfl
    rw [b, a, receivedOf_append, List.append_assoc]

/-- C2 as stated fails in its parenthesis: `E1` starts a cycle, `x` arrives
while the guard is held and is only queued, but `{BeeRemoving}`, received
while the guard is still held, is planned in its own iteration (with `x`). -/
theorem C2_planned_while_held :
    (exec demoEnv demoInit
        [.send (ev "E1") .eventsIn .ok, .send (ev "x") .eventsIn .ok]).map
        (fun r => (r.1.pendingEvents, plannedOf r.2, r.1.busy))
      = some ([ev "x"], [[ev "E1"]], 1) ∧
    (exec demoEnv demoInit
        [.send (ev "E1") .eventsIn .ok, .send (ev "x") .eventsIn .ok,
         .send (ev "{BeeRemoving}") .eventsIn .ok]).map
        (fun r => (r.1.pendingEvents, plannedOf r.2))
      = some ([ev "{BeeRemoving}"], [[ev "E1"], [ev "x", ev "{BeeRemoving}"]]) := by
  decide

/-- C2, amended: in every run the pending batch is a suffix of the events
received so far, and so is every batch handed to the planner, at the time of
its call.  A received event is appended at the end; while the guard is held no
planner call happens in that iteration unless the event formats as one of the
two literals of line 75.  An iteration removes only a prefix of the batch, the
planner gets the whole batch, and as long as no planner call is made the
batch grows by the events received, in order, behind the earlier ones. -/
theorem C2_pending_is_suffix (env : Env U S A) (s0 : S) (cap : Nat) (ls : List (Label U))
    (fsm : StateMachine U S A) (tr : List (Obs U S A))
    (hrun : exec env (StateMachine.init s0 cap) ls = some (fsm, tr)) :
    fsm.pendingEvents <:+ receivedOf tr ∧
    (∀ tr1 b u tr2, tr = tr1 ++ Obs.planned b u :: tr2 → b <:+ receivedOf tr1) ∧
    (∀ evt fault,
      receivedOf (runIter env fsm (.eventsIn evt) fault).2 = [evt] ∧
      (fsm.busy ≠ 0 → forcing env evt = false →
        (runIter env fsm (.eventsIn evt) fault).1.pendingEvents = fsm.pendingEvents ++ [evt] ∧
        plannedOf (runIter env fsm (.eventsIn evt) fault).2 = [])) ∧
    (∀ sel fault,
      (∃ k, (runIter env fsm sel fault).1.pendingEvents
          = (fsm.pendingEvents ++ receivedOf (runIter env fsm sel fault).2).drop k) ∧
      ∀ b, b ∈ plannedOf (runIter env fsm sel fault).2 →
        b = fsm.pendingEvents ++ receivedOf (runIter env fsm sel fault).2) ∧
    (∀ ls2 fsm2 tr2, exec env fsm ls2 = some (fsm2, tr2) → plannedOf tr2 = [] →
      fsm2.pendingEvents = fsm.pendingEvents ++ receivedOf tr2) := by
  obtain ⟨h1, h2⟩ := exec_ordered env ls _ fsm tr [] hrun (by simp [StateMachine.init])
  refine ⟨by simpa using h1, ?_, ?_, ?_, ?_⟩
  · intro tr1 b u tr2 e
    simpa using batchesOrdered_split [] tr tr1 tr2 b u h2 e
  · intro evt fault
    refine ⟨by rw [runIter_received]; rfl, ?_⟩
    intro hb hf
    obtain ⟨_, _, r3, _, _, r6⟩ := runIter_held env fsm (.eventsIn evt) fault hb hf
    refine ⟨?_, r3⟩
    rw [r6, runIter_received]; rfl
  · intro sel fault
    rw [runIter_received, receivedOf_recvObs]
    refine ⟨runIter_drops env fsm sel fault, ?_⟩
    intro b hb
    rcases runIter_outcome env fsm sel fault with ⟨_, e⟩ | ⟨_, _, _, e⟩ |
      ⟨_, _, _, st', pl, hpl, _, e2⟩ | ⟨_, _, _, _, _, _, e2⟩
    · rw [e] at hb; simp [plannedOf] at hb
    · rw [e, (plannedOf_recvObs sel).1] at hb; simp at hb
    · rw [e2] at hb
      rcases hpl with rfl | rfl
      · simp [plannedOf_append, (plannedOf_recvObs sel).1, (receivedOf_forceObs env sel).2.1,
          plannedOf] at hb
      · simpa [plannedOf_append, (plannedOf_recvObs sel).1, (receivedOf_forceObs env sel).2.1,
          plannedOf] using hb
    · rw [e2] at hb
      simpa [plannedOf_append, (plannedOf_recvObs sel).1, (receivedOf_forceObs env sel).2.1,
        plannedOf] using hb
  · intro ls2 fsm2 tr2 he hp
    exact exec_queue env ls2 fsm fsm2 tr2 he hp

/-- C2 amended, at a concrete run: after `E1` was sent and consumed, the
pending batch (empty) is a suffix of the events received. -/
theorem C2_pending_is_suffix_witness :
    demoBusy.pendingEvents <:+ receivedOf demoBusyTrace :=
  (C2_pending_is_suffix demoEnv 0 0 [.send (ev "E1") .eventsIn .ok] demoBusy demoBusyTrace
    (by decide)).1

end Order

/-! ## Entering the critical section -/

section Enter

variable {U S A : Type}

/-- The critical section with a Store that does not fail and a planner that
returns no error: the completed cycle. -/
theorem critical_ok (env : Env U S A) (fsm : StateMachine U S A)
    (he : (env.planner fsm.pendingEvents fsm.st.value).err = none) :
    critical env fsm .ok =
      ({ fsm with
          st := { value := (env.planner fsm.pendingEvents fsm.st.value).user },
          pendingEvents :=
            if (env.planner fsm.pendingEvents fsm.st.value).processed < fsm.pendingEvents.length
            then fsm.pendingEvents.drop (env.planner fsm.pendingEvents fsm.st.value).processed
            else [],
          goroutines := fsm.goroutines ++
            [goFunc env (env.planner fsm.pendingEvents fsm.st.value).nextStep
              (some (env.planner fsm.pendingEvents fsm.st.value).user)] },
       [.planned fsm.pendingEvents fsm.st.value,
        .trimmed (env.planner fsm.pendingEvents fsm.st.value).processed,
        .dispatched (env.planner fsm.pendingEvents fsm.st.value).nextStep
          (some (env.planner fsm.pendingEvents fsm.st.value).user)]) := by
  unfold critical mutateUser StoredState.Mutate callback
  simp [xerrorsIs, he]

/-- The critical section when the Store fails before it reaches the callback:
the planner is not called and the loop returns. -/
theorem critical_before (env : Env U S A) (fsm : StateMachine U S A) (e : Error) :
    critical env fsm (.before e) = ({ fsm with closed := true }, [.exited]) := by
  unfold critical mutateUser StoredState.Mutate
  simp [Captured.zero]

/-- The critical section when the planner returns the sentinel and the Store
does not fail: the mutation is committed and the loop returns. -/
theorem critical_sentinel (env : Env U S A) (fsm : StateMachine U S A)
    (ht : xerrorsIs (env.planner fsm.pendingEvents fsm.st.value).err = true) :
    critical env fsm .ok =
      ({ fsm with
          st := { value := (env.planner fsm.pendingEvents fsm.st.value).user },
          closed := true },
       [.planned fsm.pendingEvents fsm.st.value, .exited]) := by
  unfold critical mutateUser StoredState.Mutate callback
  simp [ht]

/-- The critical section when the planner returns an error other than the
sentinel: the mutation is aborted (the stored state stays) and the loop
returns. -/
theorem critical_failed (env : Env U S A) (fsm : StateMachine U S A) (e : Error)
    (he : (env.planner fsm.pendingEvents fsm.st.value).err = some e)
    (ht : e.isTerminated = false) :
    critical env fsm .ok =
      ({ fsm with closed := true }, [.planned fsm.pendingEvents fsm.st.value, .exited]) := by
  unfold critical mutateUser StoredState.Mutate callback
  simp [xerrorsIs, he, ht]

/-- On a completion signal with events pending and the guard free the
iteration is the critical section, entered with `busy` set. -/
theorem runIter_stageDone_eq (env : Env U S A) (fsm : StateMachine U S A) (fault : StoreFault)
    (hpend : fsm.pendingEvents ≠ []) (hb : fsm.busy = 0) :
    runIter env fsm .stageDone fault = critical env { fsm with busy := 1 } fault := by
  have hlen : ¬ fsm.pendingEvents.length = 0 := by simpa using hpend
  have hf := isForce_nil env.fmtV
  simp only [runIter, hlen, if_false, guardAndPlan, hf]
  simp [hb]

/-- On a forcing event the iteration is the critical section on the batch
with the event, entered with `busy` set, whatever `busy` was. -/
theorem runIter_forced_eq (env : Env U S A) (fsm : StateMachine U S A) (evt : Event U)
    (fault : StoreFault) (hforce : isForce (sprintfV env.fmtV evt) = true) :
    runIter env fsm (.eventsIn evt) fault =
      ((critical env { fsm with pendingEvents := fsm.pendingEvents ++ [evt], busy := 1 }
          fault).1,
       .received evt :: .forced ::
        (critical env { fsm with pendingEvents := fsm.pendingEvents ++ [evt], busy := 1 }
          fault).2) := by
  simp only [runIter, guardAndPlan, hforce]
  simp

/-- When the Store reaches the callback, the critical section calls the
planner once, on the pending batch and the stored state. -/
theorem critical_planned (env : Env U S A) (fsm : StateMachine U S A) (fault : StoreFault)
    (hstore : ∀ e, fault ≠ .before e) :
    plannedOf (critical env fsm fault).2 = [fsm.pendingEvents] ∧
    Obs.planned fsm.pendingEvents fsm.st.value ∈ (critical env fsm fault).2 := by
  rcases critical_cases env fsm fault with ⟨st', _, e2⟩ | ⟨_, _, _, e2⟩
  · rcases e2 with e2 | e2
    · exfalso
      cases fault with
      | before e => exact hstore e rfl
      | after e =>
        have : Obs.planned fsm.pendingEvents fsm.st.value ∈ (critical env fsm (.after e)).2 := by
          unfold critical mutateUser StoredState.Mutate callback
          cases he : (env.planner fsm.pendingEvents fsm.st.value).err with
          | none => simp [xerrorsIs, he]
          | some e' => by_cases ht : e'.isTerminated = true <;> simp [xerrorsIs, he, ht]
        rw [e2] at this
        simp at this
      | ok =>
        have : Obs.planned fsm.pendingEvents fsm.st.value ∈ (critical env fsm .ok).2 := by
          unfold critical mutateUser StoredState.Mutate callback
          cases he : (env.planner fsm.pendingEvents fsm.st.value).err with
          | none => simp [xerrorsIs, he]
          | some e' => by_cases ht : e'.isTerminated = true <;> simp [xerrorsIs, he, ht]
        rw [e2] at this
        simp at this
    · rw [e2]; simp [plannedOf]
  · rw [e2]; simp [plannedOf]

/-- An iteration enters the critical section when its `select` took an event
or a completion signal with events pending, and the guard is free or the event
is a forcing one. -/
theorem runIter_enters (env : Env U S A) (fsm : StateMachine U S A) (sel : Select U)
    (fault : StoreFault) (hsel : sel ≠ .closing)
    (hfree : selForce env sel = true ∨ fsm.busy = 0)
    (hpend : sel = .stageDone → fsm.pendingEvents ≠ []) :
    (runIter env fsm sel fault).1 =
      (critical env { fsm with pendingEvents := batchOf fsm sel, busy := 1 } fault).1 ∧
    (runIter env fsm sel fault).2 =
      recvObs sel ++ forceObs env sel ++
        (critical env { fsm with pendingEvents := batchOf fsm sel, busy := 1 } fault).2 := by
  rcases runIter_cases env fsm sel fault with ⟨h, _⟩ | ⟨_, hf, hb, _⟩ | ⟨_, _, _, h1, h2⟩
  · exact absurd h hsel
  · exfalso
    rcases hb with hb | ⟨hs, hp⟩
    · rcases hfree with h | h
      · rw [hf] at h; exact absurd h (by simp)
      · exact hb h
    · exact hpend hs hp
  · exact ⟨h1, h2⟩

/-- An iteration that enters the critical section with a Store that reaches
the callback hands the whole pending batch to the planner, once. -/
theorem runIter_enters_planned (env : Env U S A) (fsm : StateMachine U S A) (sel : Select U)
    (fault : StoreFault) (hsel : sel ≠ .closing)
    (hfree : selForce env sel = true ∨ fsm.busy = 0)
    (hpend : sel = .stageDone → fsm.pendingEvents ≠ [])
    (hstore : ∀ e, fault ≠ .before e) :
    plannedOf (runIter env fsm sel fault).2 = [batchOf fsm sel] := by
  rw [(runIter_enters env fsm sel fault hsel hfree hpend).2]
  simp only [plannedOf_append, (plannedOf_recvObs sel).1, (receivedOf_forceObs env sel).2.1,
    List.nil_append]
  exact (critical_planned env _ fault hstore).1

end Enter

/-! ## C11, C12, C13: the closing signal, the completion signal, the callback -/

section Signals

variable {U S A : Type}

/-- C11 as stated fails: `E1` starts a cycle whose Action is not yet called;
`stop` closes the closing signal and the loop returns at once, with `busy` = 1
and the cycle still in flight. -/
theorem C11_exit_with_cycle_in_flight :
    (exec demoEnv demoInit [.send (ev "E1") .eventsIn .ok, .stopClose, .closing]).map
        (fun r => (r.1.closed, r.1.busy, (inFlight r.1).length, r.2.getLast?))
      = some (true, 1, 1, some .exited) := by
  decide

/-- C11, amended: on a shutdown request the loop returns at the next `select`
that takes the closing case, whether or not a cycle is in flight: the step is
enabled whatever `busy` and the goroutines are, and it leaves both (and the
pending batch) as they are.  Only the synchronous part of a cycle, which runs
inside one iteration, is never interrupted: until `stop` has closed the signal
the loop does not take that case. -/
theorem C11_closing_exits_at_once (env : Env U S A) (fsm : StateMachine U S A)
    (hcl : fsm.closed = false) (hp : fsm.panicked = false) :
    (fsm.closing = true →
      step env fsm .closing = some ({ fsm with closed := true }, [.exited])) ∧
    (fsm.closing = false → step env fsm .closing = none) ∧
    (∀ fault, runIter env fsm .closing fault = ({ fsm with closed := true }, [.exited])) ∧
    (∀ fault, (runIter env fsm .closing fault).1.busy = fsm.busy ∧
      inFlight (runIter env fsm .closing fault).1 = inFlight fsm ∧
      (runIter env fsm .closing fault).1.pendingEvents = fsm.pendingEvents) := by
  refine ⟨?_, ?_, fun _ => rfl, fun _ => ⟨rfl, rfl, rfl⟩⟩
  · intro hc
    simp [step, others, hp, hcl, hc, runIter]
  · intro hc
    simp [step, others, hp, hcl, hc]

/-- C11 amended, at a concrete input: in the state with the cycle for `E1` in
flight and the closing signal closed, the loop returns, `busy` = 1. -/
theorem C11_closing_exits_at_once_witness :
    step demoEnv { demoBusy with closing := true } .closing =
      some ({ demoBusy with closing := true, closed := true }, [.exited]) :=
  (C11_closing_exits_at_once demoEnv { demoBusy with closing := true } (by decide)
    (by decide)).1 (by decide)

/-- C12 as stated fails: the completion signal of the first cycle arrives
with `[a]` pending and the guard free, but the Store fails before it reaches
the callback: the planner is not invoked and the loop returns. -/
theorem C12_no_plan_when_store_fails :
    (exec demoEnv demoInit demoPendingRun).map
        (fun r => (r.1.pendingEvents, plannedOf r.2, r.1.busy))
      = some ([ev "a"], [[ev "q"]], 0) ∧
    (exec demoEnv demoInit
        (demoPendingRun ++ [.go 0 .eventsIn (.before (.other "no state"))])).map
        (fun r => (r.1.pendingEvents, plannedOf r.2, r.1.closed))
      = some ([ev "a"], [[ev "q"]], true) := by
  decide

/-- C12, amended: on a completion signal the loop enters the critical section
if and only if the pending batch is not empty and the guard is free, and the
planner is then invoked, with the whole pending batch, provided the Store
reaches its callback: the state, the trim and the goroutine after the
iteration are those of the results of that call (committed and carried on for
a nil error, committed and returned for the sentinel, aborted and returned
for another error).  If the Store fails before its callback the planner is
not invoked and the loop returns with the guard held.  With an empty pending
batch, and with the guard held, the iteration changes nothing and calls
nothing. -/
theorem C12_completion_signal (env : Env U S A) (fsm : StateMachine U S A)
    (fault : StoreFault) (hstore : ∀ e, fault ≠ .before e) :
    (plannedOf (runIter env fsm .stageDone fault).2 ≠ [] ↔
      (fsm.pendingEvents ≠ [] ∧ fsm.busy = 0)) ∧
    (fsm.pendingEvents ≠ [] → fsm.busy = 0 →
      plannedOf (runIter env fsm .stageDone fault).2 = [fsm.pendingEvents]) ∧
    (fsm.pendingEvents = [] → runIter env fsm .stageDone fault = (fsm, [])) ∧
    (fsm.busy ≠ 0 → runIter env fsm .stageDone fault = (fsm, [])) ∧
    (fsm.pendingEvents ≠ [] → fsm.busy = 0 →
      (env.planner fsm.pendingEvents fsm.st.value).err = none →
      runIter env fsm .stageDone .ok =
        ({ fsm with
            busy := 1,
            st := { value := (env.planner fsm.pendingEvents fsm.st.value).user },
            pendingEvents :=
              if (env.planner fsm.pendingEvents fsm.st.value).processed
                  < fsm.pendingEvents.length
              then fsm.pendingEvents.drop (env.planner fsm.pendingEvents fsm.st.value).processed
              else [],
            goroutines := fsm.goroutines ++
              [goFunc env (env.planner fsm.pendingEvents fsm.st.value).nextStep
                (some (env.planner fsm.pendingEvents fsm.st.value).user)] },
         [.planned fsm.pendingEvents fsm.st.value,
          .trimmed (env.planner fsm.pendingEvents fsm.st.value).processed,
          .dispatched (env.planner fsm.pendingEvents fsm.st.value).nextStep
            (some (env.planner fsm.pendingEvents fsm.st.value).user)])) ∧
    (fsm.pendingEvents ≠ [] → fsm.busy = 0 →
      xerrorsIs (env.planner fsm.pendingEvents fsm.st.value).err = true →
      runIter env fsm .stageDone .ok =
        ({ fsm with
            busy := 1,
            st := { value := (env.planner fsm.pendingEvents fsm.st.value).user },
            closed := true },
         [.planned fsm.pendingEvents fsm.st.value, .exited])) ∧
    (∀ e, fsm.pendingEvents ≠ [] → fsm.busy = 0 →
      (env.planner fsm.pendingEvents fsm.st.value).err = some e → e.isTerminated = false →
      runIter env fsm .stageDone .ok =
        ({ fsm with busy := 1, closed := true },
         [.planned fsm.pendingEvents fsm.st.value, .exited])) ∧
    (∀ e, fsm.pendingEvents ≠ [] → fsm.busy = 0 →
      runIter env fsm .stageDone (.before e) =
        ({ fsm with busy := 1, closed := true }, [.exited])) := by
  have hplan : fsm.pendingEvents ≠ [] → fsm.busy = 0 →
      plannedOf (runIter env fsm .stageDone fault).2 = [fsm.pendingEvents] := by
    intro hp hb
    exact runIter_enters_planned env fsm .stageDone fault (by simp) (Or.inr hb) (fun _ => hp)
      hstore
  have hidle : (fsm.pendingEvents = [] ∨ fsm.busy ≠ 0) →
      runIter env fsm .stageDone fault = (fsm, []) := by
    intro h
    rcases runIter_cases env fsm .stageDone fault with ⟨hs, _⟩ | ⟨_, _, _, e⟩ |
      ⟨_, hc, hB, _⟩
    · cases hs
    · rw [e]; rfl
    · exfalso
      rcases h with h | h
      · exact hB h
      · rcases hc with hc | hc
        · simp [selForce] at hc
        · exact h hc
  refine ⟨⟨?_, ?_⟩, hplan, fun h => hidle (Or.inl h), fun h => hidle (Or.inr h), ?_, ?_, ?_, ?_⟩
  · intro h
    by_contra hne
    have : fsm.pendingEvents = [] ∨ fsm.busy ≠ 0 := by
      by_cases hp : fsm.pendingEvents = []
      · exact Or.inl hp
      · exact Or.inr (fun hb => hne ⟨hp, hb⟩)
    rw [hidle this] at h
    exact h rfl
  · rintro ⟨hp, hb⟩
    rw [hplan hp hb]
    simp
  · intro hp hb he
    exact (runIter_stageDone_eq env fsm .ok hp hb).trans (critical_ok env { fsm with busy := 1 } he)
  · intro hp hb ht
    exact (runIter_stageDone_eq env fsm .ok hp hb).trans
      (critical_sentinel env { fsm with busy := 1 } ht)
  · intro e hp hb he ht
    exact (runIter_stageDone_eq env fsm .ok hp hb).trans
      (critical_failed env { fsm with busy := 1 } e he ht)
  · intro e hp hb
    exact (runIter_stageDone_eq env fsm (.before e) hp hb).trans
      (critical_before env { fsm with busy := 1 } e)

/-- C12 at a concrete input: the completion signal of the first cycle arrives
with `[a]` pending and the guard free; the planner gets `[a]`. -/
theorem C12_completion_signal_witness :
    plannedOf (runIter demoEnv { demoPending with goroutines := [] } .stageDone .ok).2
      = [[ev "a"]] :=
  (C12_completion_signal demoEnv { demoPending with goroutines := [] } .ok
    (by intro e h; cases h)).2.1 (by decide) (by decide)

theorem critical_st (env : Env U S A) (fsm : StateMachine U S A) (fault : StoreFault) :
    (critical env fsm fault).1.st =
      (mutateUser fsm.st fault (callback env.planner fsm.pendingEvents)).1 := by
  unfold critical
  rcases mutateUser fsm.st fault (callback env.planner fsm.pendingEvents) with ⟨st', ran, err⟩
  simp only []
  split
  · rfl
  · split <;> rfl

/-- C13: the callback that `run` hands to the Store applies the planner once
to the full pending batch and the live state (what it leaves in the state and
in the captured variables is what that one call returned), returns nil when
the planner's error is nil or the sentinel, and the planner's error otherwise;
the Store commits in the first case and aborts, with that error, in the
second.  In `run`: the critical section hands the Store this callback for its
own pending batch and stored state, one planner call is made on them, and the
state, the trim, the goroutine and the return of the loop are those of that
call's results: committed and carried on for a nil error, committed and
returned for the sentinel, aborted and returned for any other error.  An
iteration of `run` that passes the guard is this critical section on the
pending batch after its `select`. -/
theorem C13_callback (env : Env U S A) (fsm : StateMachine U S A) :
    (∀ b s,
      (callback env.planner b s).1 = (env.planner b s).user ∧
      (callback env.planner b s).2.1 =
        { nextStep := (env.planner b s).nextStep, ustate := some (env.planner b s).user,
          processed := (env.planner b s).processed,
          terminated := xerrorsIs (env.planner b s).err } ∧
      (callback env.planner b s).2.2 =
        (if xerrorsIs (env.planner b s).err then none else (env.planner b s).err) ∧
      ((env.planner b s).err = none → (callback env.planner b s).2.2 = none) ∧
      (xerrorsIs (env.planner b s).err = true → (callback env.planner b s).2.2 = none) ∧
      (xerrorsIs (env.planner b s).err = false →
        (callback env.planner b s).2.2 = (env.planner b s).err) ∧
      ((callback env.planner b s).2.2 = none →
        mutateUser { value := s } .ok (callback env.planner b) =
          ({ value := (env.planner b s).user }, some (callback env.planner b s).2.1, none)) ∧
      (∀ e, (callback env.planner b s).2.2 = some e →
        mutateUser { value := s } .ok (callback env.planner b) =
          ({ value := s }, some (callback env.planner b s).2.1, some e))) ∧
    (∀ fault, (critical env fsm fault).1.st =
      (mutateUser fsm.st fault (callback env.planner fsm.pendingEvents)).1) ∧
    (∀ fault, (∀ e, fault ≠ .before e) →
      plannedOf (critical env fsm fault).2 = [fsm.pendingEvents] ∧
      Obs.planned fsm.pendingEvents fsm.st.value ∈ (critical env fsm fault).2) ∧
    ((env.planner fsm.pendingEvents fsm.st.value).err = none →
      critical env fsm .ok =
        ({ fsm with
            st := { value := (env.planner fsm.pendingEvents fsm.st.value).user },
            pendingEvents :=
              if (env.planner fsm.pendingEvents fsm.st.value).processed
                  < fsm.pendingEvents.length
              then fsm.pendingEvents.drop (env.planner fsm.pendingEvents fsm.st.value).processed
              else [],
            goroutines := fsm.goroutines ++
              [goFunc env (env.planner fsm.pendingEvents fsm.st.value).nextStep
                (some (env.planner fsm.pendingEvents fsm.st.value).user)] },
         [.planned fsm.pendingEvents fsm.st.value,
          .trimmed (env.planner fsm.pendingEvents fsm.st.value).processed,
          .dispatched (env.planner fsm.pendingEvents fsm.st.value).nextStep
            (some (env.planner fsm.pendingEvents fsm.st.value).user)])) ∧
    (xerrorsIs (env.planner fsm.pendingEvents fsm.st.value).err = true →
      critical env fsm .ok =
        ({ fsm with
            st := { value := (env.planner fsm.pendingEvents fsm.st.value).user },
            closed := true },
         [.planned fsm.pendingEvents fsm.st.value, .exited])) ∧
    (∀ e, (env.planner fsm.pendingEvents fsm.st.value).err = some e → e.isTerminated = false →
      critical env fsm .ok =
        ({ fsm with closed := true }, [.planned fsm.pendingEvents fsm.st.value, .exited]) ∧
      (mutateUser fsm.st .ok (callback env.planner fsm.pendingEvents)).2.2 = some e) ∧
    (∀ sel fault, sel ≠ .closing → (selForce env sel = true ∨ fsm.busy = 0) →
      (sel = .stageDone → fsm.pendingEvents ≠ []) →
      (runIter env fsm sel fault).1 =
        (critical env { fsm with pendingEvents := batchOf fsm sel, busy := 1 } fault).1 ∧
      (runIter env fsm sel fault).2 =
        recvObs sel ++ forceObs env sel ++
          (critical env { fsm with pendingEvents := batchOf fsm sel, busy := 1 } fault).2) := by
  refine ⟨?_, critical_st env fsm, fun fault h => critical_planned env fsm fault h,
    critical_ok env fsm, critical_sentinel env fsm, ?_,
    fun sel fault h1 h2 h3 => runIter_enters env fsm sel fault h1 h2 h3⟩
  · intro b s
    cases he : (env.planner b s).err with
    | none => simp [callback, he, xerrorsIs, mutateUser, StoredState.Mutate]
    | some e =>
      by_cases ht : e.isTerminated = true
      · simp [callback, he, xerrorsIs, ht, mutateUser, StoredState.Mutate]
      · simp [callback, he, xerrorsIs, ht, mutateUser, StoredState.Mutate]
  · intro e he ht
    refine ⟨critical_failed env fsm e he ht, ?_⟩
    simp [mutateUser, StoredState.Mutate, callback, xerrorsIs, he, ht]

end Signals

/-! ## C15, C16, C17: the forced reset, the trim, the batch of a planner call -/

section Batches

variable {U S A : Type}

/-- With the guard held, an iteration for anything but a forcing event only
appends the event, if any. -/
theorem runIter_idle (env : Env U S A) (fsm : StateMachine U S A) (sel : Select U)
    (fault : StoreFault) (hsel : sel ≠ .closing) (hf : selForce env sel = false)
    (hb : fsm.busy ≠ 0) :
    runIter env fsm sel fault = ({ fsm with pendingEvents := batchOf fsm sel }, recvObs sel) := by
  rcases runIter_cases env fsm sel fault with ⟨h, _⟩ | ⟨_, _, _, e⟩ | ⟨_, hc, _⟩
  · exact absurd h hsel
  · exact e
  · exfalso
    rcases hc with hc | hc
    · rw [hf] at hc; exact absurd hc (by simp)
    · exact hb hc

/-- An iteration calls the planner at most once, and then on the non-empty
pending batch after its `select`. -/
theorem runIter_plannedOf (env : Env U S A) (fsm : StateMachine U S A) (sel : Select U)
    (fault : StoreFault) :
    plannedOf (runIter env fsm sel fault).2 = [] ∨
    (plannedOf (runIter env fsm sel fault).2 = [batchOf fsm sel] ∧ batchOf fsm sel ≠ []) := by
  rcases runIter_outcome env fsm sel fault with ⟨_, e⟩ | ⟨_, _, _, e⟩ |
    ⟨_, _, hB, st', pl, hpl, _, e2⟩ | ⟨_, _, hB, _, _, _, e2⟩
  · left; rw [e]; rfl
  · left; rw [e]; exact (plannedOf_recvObs sel).1
  · rw [e2]
    rcases hpl with rfl | rfl
    · left
      simp [plannedOf_append, (plannedOf_recvObs sel).1, (receivedOf_forceObs env sel).2.1,
        plannedOf]
    · right
      exact ⟨by simp [plannedOf_append, (plannedOf_recvObs sel).1,
        (receivedOf_forceObs env sel).2.1, plannedOf], hB⟩
  · right
    rw [e2]
    exact ⟨by simp [plannedOf_append, (plannedOf_recvObs sel).1,
      (receivedOf_forceObs env sel).2.1, plannedOf], hB⟩

theorem step_batches (env : Env U S A) (fsm fsm1 : StateMachine U S A) (l : Label U)
    (o : List (Obs U S A)) (h : step env fsm l = some (fsm1, o)) :
    ∀ b ∈ plannedOf o, b ≠ [] := by
  obtain ⟨fsm0, o0, w, ho, hw⟩ := step_split env fsm fsm1 l o h
  obtain ⟨_, _, _, _, _, f6, _, _⟩ := others_frame fsm fsm0 l o0 w ho
  rcases hw with ⟨_, rfl, rfl⟩ | ⟨sel, fault, _, rfl, rfl⟩
  · rw [f6]; simp
  · rw [plannedOf_append, f6, List.nil_append]
    rcases runIter_plannedOf env fsm0 sel fault with e | ⟨e, hB⟩
    · rw [e]; simp
    · rw [e]
      intro b hb
      simp only [List.mem_singleton] at hb
      rw [hb]; exact hB

theorem exec_batches (env : Env U S A) (ls : List (Label U)) :
    ∀ (fsm fsm1 : StateMachine U S A) (tr : List (Obs U S A)),
      exec env fsm ls = some (fsm1, tr) → ∀ b ∈ plannedOf tr, b ≠ [] := by
  induction ls with
  | nil =>
    intro fsm fsm1 tr h
    rw [exec_nil] at h
    cases h
    simp [plannedOf]
  | cons l ls ih =>
    intro fsm fsm2 tr h
    obtain ⟨fsm1, o1, o2, hs, he, rfl⟩ := exec_cons env fsm fsm2 l ls tr h
    intro b hb
    rw [plannedOf_append, List.mem_append] at hb
    rcases hb with hb | hb
    · exact step_batches env fsm fsm1 l o1 hs b hb
    · exact ih fsm1 fsm2 o2 he b hb

/-- C15 as stated fails: the cycle for `E1` is in flight when `{Removed}` is
received; the guard is reset and taken, but the Store fails before it reaches
the callback, so the planner is not invoked in that iteration (the loop
returns). -/
theorem C15_forced_but_store_fails :
    (exec demoEnv demoInit
        [.send (ev "E1") .eventsIn .ok,
         .send (ev "{Removed}") .eventsIn (.before (.other "no state"))]).map
        (fun r => (plannedOf r.2, r.1.pendingEvents, r.1.closed))
      = some ([[ev "E1"]], [ev "{Removed}"], true) ∧
    plannedOf (runIter demoEnv demoBusy (.eventsIn (ev "{Removed}"))
        (.before (.other "no state"))).2 = [] := by
  decide

/-- C15, amended: an event whose `%v` text is `{{Removed}}` or
`{{BeeRemoving}}` resets the guard: in every state, whatever `busy` is, the
iteration that receives it stores 0 to `busy` and enters the critical section
with the pending batch including the event; the planner is invoked on that
batch provided the Store reaches its callback, and the state, the trim and the
goroutine after the iteration are those of the results of that call.  If the
Store fails before its callback the planner is not invoked and the loop
returns.  An event with another text, and a completion signal (whose
placeholder prints as `{<nil>}`), leave a held guard held and plan nothing. -/
theorem C15_forced_reset (env : Env U S A) (fsm : StateMachine U S A) (evt : Event U)
    (fault : StoreFault) (hforce : isForce (sprintfV env.fmtV evt) = true) :
    (runIter env fsm (.eventsIn evt) fault).1 =
      (critical env { fsm with pendingEvents := fsm.pendingEvents ++ [evt], busy := 1 }
        fault).1 ∧
    Obs.forced ∈ (runIter env fsm (.eventsIn evt) fault).2 ∧
    ((∀ e, fault ≠ .before e) →
      plannedOf (runIter env fsm (.eventsIn evt) fault).2 = [fsm.pendingEvents ++ [evt]]) ∧
    (∀ evt1 fault1, isForce (sprintfV env.fmtV evt1) = false → fsm.busy ≠ 0 →
      runIter env fsm (.eventsIn evt1) fault1 =
        ({ fsm with pendingEvents := fsm.pendingEvents ++ [evt1] }, [.received evt1])) ∧
    (∀ fault1, fsm.busy ≠ 0 → runIter env fsm .stageDone fault1 = (fsm, [])) ∧
    isForce (sprintfV env.fmtV ({ User := none } : Event U)) = false ∧
    (∀ t, isForce t = true ↔ (t = "{{Removed}}" ∨ t = "{{BeeRemoving}}")) ∧
    ((env.planner (fsm.pendingEvents ++ [evt]) fsm.st.value).err = none →
      runIter env fsm (.eventsIn evt) .ok =
        ({ fsm with
            busy := 1,
            st := { value := (env.planner (fsm.pendingEvents ++ [evt]) fsm.st.value).user },
            pendingEvents :=
              if (env.planner (fsm.pendingEvents ++ [evt]) fsm.st.value).processed
                  < (fsm.pendingEvents ++ [evt]).length
              then (fsm.pendingEvents ++ [evt]).drop
                (env.planner (fsm.pendingEvents ++ [evt]) fsm.st.value).processed
              else [],
            goroutines := fsm.goroutines ++
              [goFunc env (env.planner (fsm.pendingEvents ++ [evt]) fsm.st.value).nextStep
                (some (env.planner (fsm.pendingEvents ++ [evt]) fsm.st.value).user)] },
         [.received evt, .forced, .planned (fsm.pendingEvents ++ [evt]) fsm.st.value,
          .trimmed (env.planner (fsm.pendingEvents ++ [evt]) fsm.st.value).processed,
          .dispatched (env.planner (fsm.pendingEvents ++ [evt]) fsm.st.value).nextStep
            (some (env.planner (fsm.pendingEvents ++ [evt]) fsm.st.value).user)])) ∧
    (xerrorsIs (env.planner (fsm.pendingEvents ++ [evt]) fsm.st.value).err = true →
      runIter env fsm (.eventsIn evt) .ok =
        ({ fsm with
            pendingEvents := fsm.pendingEvents ++ [evt], busy := 1,
            st := { value := (env.planner (fsm.pendingEvents ++ [evt]) fsm.st.value).user },
            closed := true },
         [.received evt, .forced, .planned (fsm.pendingEvents ++ [evt]) fsm.st.value,
          .exited])) ∧
    (∀ e, (env.planner (fsm.pendingEvents ++ [evt]) fsm.st.value).err = some e →
      e.isTerminated = false →
      runIter env fsm (.eventsIn evt) .ok =
        ({ fsm with pendingEvents := fsm.pendingEvents ++ [evt], busy := 1, closed := true },
         [.received evt, .forced, .planned (fsm.pendingEvents ++ [evt]) fsm.st.value,
          .exited])) ∧
    (∀ e, runIter env fsm (.eventsIn evt) (.before e) =
      ({ fsm with pendingEvents := fsm.pendingEvents ++ [evt], busy := 1, closed := true },
       [.received evt, .forced, .exited])) := by
  have hsel : selForce env (.eventsIn evt) = true := hforce
  obtain ⟨h1, h2⟩ := runIter_enters env fsm (.eventsIn evt) fault (by simp) (Or.inl hsel)
    (by intro h; cases h)
  refine ⟨h1, ?_, ?_, ?_, ?_, isForce_nil env.fmtV, ?_, ?_, ?_, ?_, ?_⟩
  · rw [h2]
    simp [forceObs, hsel]
  · intro hstore
    exact runIter_enters_planned env fsm (.eventsIn evt) fault (by simp) (Or.inl hsel)
      (by intro h; cases h) hstore
  · intro evt1 fault1 hf hb
    exact runIter_idle env fsm (.eventsIn evt1) fault1 (by simp) hf hb
  · intro fault1 hb
    exact runIter_idle env fsm .stageDone fault1 (by simp) rfl hb
  · intro t
    simp [isForce]
  · intro he
    have h := critical_ok env
      { fsm with pendingEvents := fsm.pendingEvents ++ [evt], busy := 1 } he
    rw [runIter_forced_eq env fsm evt .ok hforce, h]
  · intro ht
    have h := critical_sentinel env
      { fsm with pendingEvents := fsm.pendingEvents ++ [evt], busy := 1 } ht
    rw [runIter_forced_eq env fsm evt .ok hforce, h]
  · intro e he ht
    have h := critical_failed env
      { fsm with pendingEvents := fsm.pendingEvents ++ [evt], busy := 1 } e he ht
    rw [runIter_forced_eq env fsm evt .ok hforce, h]
  · intro e
    have h := critical_before env
      { fsm with pendingEvents := fsm.pendingEvents ++ [evt], busy := 1 } e
    rw [runIter_forced_eq env fsm evt (.before e) hforce, h]

/-- C15 at a concrete input: the cycle for `E1` is in flight and `busy` = 1;
the event `{Removed}` is planned in the iteration that receives it. -/
theorem C15_forced_reset_witness :
    demoBusy.busy = 1 ∧
    plannedOf (runIter demoEnv demoBusy (.eventsIn (ev "{Removed}")) .ok).2
      = [[ev "{Removed}"]] :=
  ⟨by decide,
   (C15_forced_reset demoEnv demoBusy (ev "{Removed}") .ok (by decide)).2.2.1
     (by intro e h; cases h)⟩

/-- C16: the trim never slices out of range: for every pending batch and every
count, the slice expression is evaluated only with a bound below the length,
so the trim yields a batch (no panic): the batch without its first `c` events
for `c` below the length, the empty batch for `c` at or above it, and the
batch itself for `c` = 0.  It is the trim an iteration performs. -/
theorem C16_trim_in_range (b : List (Event U)) (c : Nat) :
    trimPending c b = some (if c < b.length then b.drop c else []) ∧
    (trimPending c b).isSome = true ∧
    (b.length ≤ c → trimPending c b = some []) ∧
    trimPending 0 b = some b ∧
    (c < b.length → sliceFrom b c = some (b.drop c)) ∧
    (∀ (env : Env U S A) (fsm : StateMachine U S A) sel fault,
      b = batchOf fsm sel → Obs.trimmed c ∈ (runIter env fsm sel fault).2 →
      trimPending c b = some (runIter env fsm sel fault).1.pendingEvents) := by
  have h0 : trimPending c b = some (if c < b.length then b.drop c else []) := by
    unfold trimPending sliceFrom
    by_cases hc : c < b.length
    · have : c ≤ b.length := Nat.le_of_lt hc
      simp [hc, this]
    · simp [hc]
  refine ⟨h0, by rw [h0]; rfl, ?_, ?_, ?_, ?_⟩
  · intro hle
    have : ¬ c < b.length := by omega
    rw [h0]; simp [this]
  · unfold trimPending sliceFrom
    cases b with
    | nil => simp
    | cons x xs => simp
  · intro hc
    have : c ≤ b.length := Nat.le_of_lt hc
    simp [sliceFrom, this]
  · intro env fsm sel fault hb htrim
    obtain ⟨_, hp, _, _⟩ := runIter_trimmed env fsm sel fault c htrim
    rw [h0, hp, hb]

/-- C17: the planner is never invoked with an empty batch: in every run, from
any state, every batch handed to the planner has at least one event, and so
has the batch of a planner call of any single iteration. -/
theorem C17_batch_never_empty (env : Env U S A) (fsm fsm1 : StateMachine U S A)
    (ls : List (Label U)) (tr : List (Obs U S A))
    (hrun : exec env fsm ls = some (fsm1, tr)) :
    (∀ b ∈ plannedOf tr, 1 ≤ b.length) ∧
    (∀ b u, Obs.planned b u ∈ tr → b ≠ []) ∧
    (∀ sel fault b u, Obs.planned b u ∈ (runIter env fsm1 sel fault).2 → b ≠ []) := by
  have h := exec_batches env ls fsm fsm1 tr hrun
  have hmem : ∀ (t : List (Obs U S A)) b u, Obs.planned b u ∈ t → b ∈ plannedOf t := by
    intro t
    induction t with
    | nil => intro b u hb; simp at hb
    | cons x t ih =>
      intro b u hb
      simp only [List.mem_cons] at hb
      rcases hb with rfl | hb
      · simp [plannedOf]
      · have := ih b u hb
        cases x <;> simp [plannedOf, this]
  refine ⟨?_, ?_, ?_⟩
  · intro b hb
    have := h b hb
    cases b with
    | nil => exact absurd rfl this
    | cons x xs => simp
  · intro b u hb
    exact h b (hmem tr b u hb)
  · intro sel fault b u hb
    exact (runIter_planned env fsm1 sel fault b u hb).2.2.1

/-- C17 at a concrete run: the one batch planned when `E1` is sent has one
event. -/
theorem C17_batch_never_empty_witness :
    plannedOf demoBusyTrace = [[ev "E1"]] ∧ 1 ≤ [ev "E1"].length :=
  ⟨by decide,
   (C17_batch_never_empty demoEnv demoInit demoBusy [.send (ev "E1") .eventsIn .ok]
    demoBusyTrace (by decide)).1 [ev "E1"] (by decide)⟩

end Batches

/-! ## C14: the first batch of a fresh instance -/

section FirstBatch

variable {U S A : Type}

/-- Before the first cycle the other parties change neither the pending batch
nor the guard, and no goroutine exists that could post a completion signal. -/
theorem others_fresh (fsm fsm0 : StateMachine U S A) (l : Label U) (o : List (Obs U S A))
    (w : Option (Select U × StoreFault)) (h : others fsm l = some (fsm0, o, w))
    (hF : Fresh fsm) : Fresh fsm0 ∧ ∀ f, w ≠ some (.stageDone, f) := by
  obtain ⟨hp, hb, hg⟩ := hF
  obtain ⟨_, hc⟩ := others_cases fsm fsm0 l o w h
  rcases hc with ⟨evt, pick, fault, hs⟩ | ⟨_, evt, rest, fault, _, rfl, rfl, rfl⟩ |
    ⟨l1, op, rest, l2, hgo, _⟩ | ⟨_, _, rfl, rfl, rfl⟩ | ⟨_, rfl, rfl, rfl⟩ |
    ⟨_, rfl, rfl, rfl⟩ | ⟨rfl, ⟨err, rfl⟩, rfl⟩
  · have hf := doSend_frame _ _ _ _ _ _ _ hs
    refine ⟨⟨by rw [hf.1, hp], by rw [hf.2.2.1, hb], by rw [hf.2.2.2.2.1, hg]⟩, ?_⟩
    intro f hw
    have := (hf.2.2.2.2.2.2.2.2.2.2.1 _ _ hw).2
    cases this
  · exact ⟨⟨hp, hb, hg⟩, by intro f hw; cases hw⟩
  · rw [hg] at hgo
    simp at hgo
  · exact ⟨⟨hp, hb, hg⟩, by intro f hw; cases hw⟩
  · exact ⟨⟨hp, hb, hg⟩, by intro f hw; cases hw⟩
  · exact ⟨⟨hp, hb, hg⟩, by intro f hw; cases hw⟩
  · exact ⟨⟨hp, hb, hg⟩, by intro f hw; cases hw⟩

/-- A step of an instance in which no cycle has started: nothing happens to
the loop, or the loop returns without a planner call, or the loop receives an
event and plans on that event alone. -/
theorem step_fresh (env : Env U S A) (fsm fsm1 : StateMachine U S A) (l : Label U)
    (o : List (Obs U S A)) (h : step env fsm l = some (fsm1, o)) (hF : Fresh fsm) :
    (Fresh fsm1 ∧ plannedOf o = [] ∧ receivedOf o = []) ∨
    (fsm1.closed = true ∧ plannedOf o = []) ∨
    (∃ evt, plannedOf o = [[evt]] ∧ receivedOf o = [evt]) := by
  obtain ⟨fsm0, o0, w, ho, hw⟩ := step_split env fsm fsm1 l o h
  obtain ⟨hF0, hnd⟩ := others_fresh fsm fsm0 l o0 w ho hF
  obtain ⟨_, _, _, _, f5, f6, _, _⟩ := others_frame fsm fsm0 l o0 w ho
  rcases hw with ⟨_, rfl, rfl⟩ | ⟨sel, fault, hw, rfl, rfl⟩
  · exact Or.inl ⟨hF0, f6, f5⟩
  · right
    rw [plannedOf_append, receivedOf_append, f5, f6, List.nil_append, List.nil_append,
      runIter_received]
    have hbatch : ∀ evt, sel = .eventsIn evt → batchOf fsm0 sel = [evt] := by
      intro evt hs
      rw [hs]
      simp [batchOf, hF0.1]
    rcases runIter_outcome env fsm0 sel fault with ⟨_, e⟩ | ⟨hs, _, hb, _⟩ |
      ⟨hs, _, _, st', pl, hpl, e1, e2⟩ | ⟨hs, _, _, _, _, _, e2⟩
    · left; rw [e]; exact ⟨rfl, rfl⟩
    · exfalso
      rcases hb with hb | ⟨hsd, _⟩
      · exact hb hF0.2.1
      · rw [hsd] at hw; exact hnd fault hw
    · cases sel with
      | closing => exact absurd rfl hs
      | stageDone => exact absurd hw (hnd fault)
      | eventsIn evt =>
        rcases hpl with rfl | rfl
        · left
          rw [e1, e2]
          exact ⟨rfl, by simp [plannedOf_append, (plannedOf_recvObs _).1,
            (receivedOf_forceObs env _).2.1, plannedOf]⟩
        · right
          refine ⟨evt, ?_, by simp [recvObs, receivedOf]⟩
          rw [e2, hbatch evt rfl]
          simp [plannedOf_append, (plannedOf_recvObs _).1, (receivedOf_forceObs env _).2.1,
            plannedOf]
    · cases sel with
      | closing => exact absurd rfl hs
      | stageDone => exact absurd hw (hnd fault)
      | eventsIn evt =>
        right
        refine ⟨evt, ?_, by simp [recvObs, receivedOf]⟩
        rw [e2, hbatch evt rfl]
        simp [plannedOf_append, (plannedOf_recvObs _).1, (receivedOf_forceObs env _).2.1,
          plannedOf]

theorem exec_fresh (env : Env U S A) (ls : List (Label U)) :
    ∀ (fsm fsm1 : StateMachine U S A) (tr : List (Obs U S A)),
      exec env fsm ls = some (fsm1, tr) → Fresh fsm →
      ∀ b rest, plannedOf tr = b :: rest →
        ∃ evt more, b = [evt] ∧ receivedOf tr = evt :: more := by
  induction ls with
  | nil =>
    intro fsm fsm1 tr h _ b rest hb
    rw [exec_nil] at h
    cases h
    simp [plannedOf] at hb
  | cons l ls ih =>
    intro fsm fsm2 tr h hF b rest hb
    obtain ⟨fsm1, o1, o2, hs, he, rfl⟩ := exec_cons env fsm fsm2 l ls tr h
    rw [plannedOf_append] at hb
    rw [receivedOf_append]
    rcases step_fresh env fsm fsm1 l o1 hs hF with ⟨hF1, hp, hr⟩ | ⟨hcl, hp⟩ | ⟨evt, hp, hr⟩
    · rw [hp, List.nil_append] at hb
      rw [hr, List.nil_append]
      exact ih fsm1 fsm2 o2 he hF1 b rest hb
    · exfalso
      have := (exec_closed env ls fsm1 fsm2 o2 he hcl).2.2.2.2.2.1
      rw [hp, this] at hb
      simp at hb
    · rw [hp] at hb
      simp only [List.singleton_append, List.cons.injEq] at hb
      exact ⟨evt, receivedOf o2, hb.1.symm, by rw [hr]; rfl⟩

/-- C14 as stated fails: `a` and `b` are sent back-to-back and both buffered
before the loop has run; the loop then receives `a` and plans at once: the
batch of the first cycle is `[a]`, with `b` still in the mailbox. -/
theorem C14_first_batch_is_one_event :
    (exec demoEnv demoBuffered
        [.send (ev "a") .eventsIn .ok, .send (ev "b") .eventsIn .ok]).map
        (fun r => (r.1.eventsIn, plannedOf r.2)) = some ([ev "a", ev "b"], []) ∧
    (exec demoEnv demoBuffered
        [.send (ev "a") .eventsIn .ok, .send (ev "b") .eventsIn .ok, .recv .ok]).map
        (fun r => (plannedOf r.2, r.1.eventsIn)) = some ([[ev "a"]], [ev "b"]) := by
  decide

/-- C14, amended: on a freshly started instance, whatever the schedule and the
mailbox, the batch given to the planner in the first cycle is the first event
received, alone: the loop plans right after each receive while the guard is
free.  In the scenario of two events sent back-to-back before the loop has
run, the planner (which consumes 1) gets `[a]` in the first cycle and, `b`
having been received while that cycle was in flight, `[b]` in the second. -/
theorem C14_first_batch_single (env : Env U S A) (s0 : S) (cap : Nat) (ls : List (Label U))
    (fsm : StateMachine U S A) (tr : List (Obs U S A)) (b : List (Event U))
    (rest : List (List (Event U)))
    (hrun : exec env (StateMachine.init s0 cap) ls = some (fsm, tr))
    (hfirst : plannedOf tr = b :: rest) :
    (∃ evt more, b = [evt] ∧ receivedOf tr = evt :: more) ∧
    (exec demoEnv demoBuffered backToBackRun).map
        (fun r => (plannedOf r.2, trimmedOf r.2, receivedOf r.2))
      = some ([[ev "a"], [ev "b"]], [1, 1], [ev "a", ev "b"]) :=
  ⟨exec_fresh env ls _ fsm tr hrun ⟨rfl, rfl, rfl⟩ b rest hfirst, by decide⟩

/-- C14 amended, at a concrete run: `E1` is sent to a fresh instance; the
first batch is `[E1]`. -/
theorem C14_first_batch_single_witness :
    ∃ evt more, [ev "E1"] = [evt] ∧ receivedOf demoBusyTrace = evt :: more :=
  (C14_first_batch_single demoEnv 0 0 [.send (ev "E1") .eventsIn .ok] demoBusy demoBusyTrace
    [ev "E1"] [] (by decide) (by decide)).1

end FirstBatch

/-! ## C18: a cycle that consumes nothing -/

section IdleCycle

variable {U S A : Type}

theorem concat_index {α : Type} (gs : List α) (g x : α) :
    (gs ++ [g])[gs.length]? = some g ∧ (gs ++ [g]).set gs.length x = gs ++ [x] ∧
      (gs ++ [g]).eraseIdx gs.length = gs := by
  induction gs with
  | nil => simp
  | cons y ys ih => simp [ih.2.1, ih.2.2]

/-- An iteration that trims is a completed cycle: the state after it. -/
theorem runIter_trimmed_state (env : Env U S A) (fsm : StateMachine U S A) (sel : Select U)
    (fault : StoreFault) (c : Nat) (h : Obs.trimmed c ∈ (runIter env fsm sel fault).2) :
    (runIter env fsm sel fault).1.busy = 1 ∧
    (runIter env fsm sel fault).1.closed = fsm.closed ∧
    (runIter env fsm sel fault).1.panicked = fsm.panicked := by
  rcases runIter_outcome env fsm sel fault with ⟨_, e⟩ | ⟨_, _, _, e⟩ |
    ⟨_, _, _, st', pl, hpl, _, e2⟩ | ⟨_, _, _, _, he, e1, e2⟩
  · rw [e] at h; simp at h
  · rw [e] at h
    obtain ⟨evt, hx⟩ := mem_recvObs sel _ h
    cases hx
  · rw [e2] at h
    simp only [List.mem_append] at h
    rcases h with (h | h) | h | h
    · obtain ⟨evt, hx⟩ := mem_recvObs sel _ h; cases hx
    · have hx := mem_forceObs env sel _ h; cases hx
    · rcases hpl with rfl | rfl <;> simp at h
    · simp at h
  · rw [e1]; exact ⟨rfl, rfl, rfl⟩

theorem exec_append (env : Env U S A) (l1 l2 : List (Label U)) :
    ∀ (m m1 m2 : StateMachine U S A) (t1 t2 : List (Obs U S A)),
      exec env m l1 = some (m1, t1) → exec env m1 l2 = some (m2, t2) →
      exec env m (l1 ++ l2) = some (m2, t1 ++ t2) := by
  induction l1 with
  | nil =>
    intro m m1 m2 t1 t2 h1 h2
    rw [exec_nil] at h1
    cases h1
    simpa using h2
  | cons l ls ih =>
    intro m m1 m2 t1 t2 h1 h2
    obtain ⟨ma, oa, ob, hs, he, rfl⟩ := exec_cons env m m1 l ls t1 h1
    have := ih ma m1 m2 ob t2 he h2
    rw [List.cons_append]
    simp only [exec, hs]
    rw [this]
    simp

/-- A goroutine executes its store of 0 to `busy`. -/
theorem step_release (env : Env U S A) (fsm : StateMachine U S A) (i : Nat)
    (rest : List (GoOp U S A)) (pick : SendCase) (f : StoreFault)
    (hp : fsm.panicked = false) (hg : fsm.goroutines[i]? = some (.storeBusy :: rest)) :
    step env fsm (.go i pick f) =
      some ({ fsm with busy := 0, goroutines := fsm.goroutines.set i rest }, [.released]) := by
  unfold step others
  rw [if_neg (by simp [hp])]
  simp only [hg, doGo]

/-- A goroutine posts its completion signal and the loop takes it. -/
theorem step_post (env : Env U S A) (fsm : StateMachine U S A) (i : Nat)
    (rest : List (GoOp U S A)) (pick : SendCase) (f : StoreFault)
    (hp : fsm.panicked = false) (hcl : fsm.closed = false)
    (hg : fsm.goroutines[i]? = some (.stageDone :: rest)) :
    step env fsm (.go i pick f) =
      some ((runIter env { fsm with goroutines := fsm.goroutines.eraseIdx i } .stageDone f).1,
        .posted ::
          (runIter env { fsm with goroutines := fsm.goroutines.eraseIdx i } .stageDone f).2) := by
  unfold step others
  rw [if_neg (by simp [hp])]
  simp only [hg, doGo]
  rw [if_neg (by simp [hcl])]
  rfl

/-- One round of a goroutine that has only the release and the post left, with
events pending: the guard is released, the completion signal is taken, and the
loop enters the critical section again with the same pending batch. -/
theorem idle_round (env : Env U S A) (m : StateMachine U S A)
    (gs : List (List (GoOp U S A))) (f2 : StoreFault)
    (hpend : m.pendingEvents ≠ [])
    (hgs : m.goroutines = gs ++ [[GoOp.storeBusy, GoOp.stageDone]])
    (hcl : m.closed = false) (hp : m.panicked = false) :
    exec env m [.go gs.length .eventsIn .ok, .go gs.length .eventsIn f2] =
      some ((critical env { m with busy := 1, goroutines := gs } f2).1,
        .released :: .posted :: (critical env { m with busy := 1, goroutines := gs } f2).2) := by
  obtain ⟨i1, i2, _⟩ := concat_index gs [GoOp.storeBusy, GoOp.stageDone]
    ([GoOp.stageDone] : List (GoOp U S A))
  obtain ⟨j1, _, j3⟩ := concat_index gs ([GoOp.stageDone] : List (GoOp U S A))
    ([GoOp.stageDone] : List (GoOp U S A))
  have s1 := step_release env m gs.length [GoOp.stageDone] .eventsIn .ok hp
    (by rw [hgs]; exact i1)
  rw [hgs, i2] at s1
  have s2 := step_post env { m with busy := 0, goroutines := gs ++ [[GoOp.stageDone]] }
    gs.length [] .eventsIn f2 hp hcl j1
  simp only [j3] at s2
  have hen := runIter_enters env { m with busy := 0, goroutines := gs } .stageDone f2
    (by simp) (Or.inr rfl) (fun _ => hpend)
  have hst : ({ ({ m with busy := 0, goroutines := gs } : StateMachine U S A) with
      pendingEvents := batchOf ({ m with busy := 0, goroutines := gs } : StateMachine U S A)
        .stageDone, busy := 1 } : StateMachine U S A) = { m with busy := 1, goroutines := gs } :=
    rfl
  rw [hst] at hen
  rw [hen.1, hen.2] at s2
  simp only [exec, s1, s2]
  simp [recvObs, forceObs, selForce]

/-- With a planner that always returns no Action, the count 0 and no error,
and a Store that does not fail, the rounds repeat for ever: after `n` rounds
the planner has been called `n` more times, each time on the same batch, and
no event was received. -/
theorem idle_rounds (env : Env U S A) (gs : List (List (GoOp U S A)))
    (hidle : ∀ b s, (env.planner b s).nextStep = none ∧ (env.planner b s).processed = 0 ∧
      (env.planner b s).err = none) (n : Nat) :
    ∀ (m : StateMachine U S A), m.pendingEvents ≠ [] →
      m.goroutines = gs ++ [[GoOp.storeBusy, GoOp.stageDone]] →
      m.closed = false → m.panicked = false →
      ∃ m2 tr2, exec env m (idleRounds gs.length n) = some (m2, tr2) ∧
        plannedOf tr2 = List.replicate n m.pendingEvents ∧ receivedOf tr2 = [] ∧
        m2.pendingEvents = m.pendingEvents := by
  induction n with
  | zero =>
    intro m _ _ _ _
    exact ⟨m, [], rfl, rfl, rfl, rfl⟩
  | succ n ih =>
    intro m hpend hgs hcl hp
    have hr := idle_round env m gs .ok hpend hgs hcl hp
    obtain ⟨h1, h2, h3⟩ := hidle m.pendingEvents m.st.value
    have hc := critical_ok env { m with busy := 1, goroutines := gs } h3
    simp only [h1, h2, goFunc] at hc
    have hlen : 0 < m.pendingEvents.length := List.length_pos.mpr hpend
    simp only [hlen, if_true, List.drop_zero] at hc
    rw [hc] at hr
    simp only [] at hr
    obtain ⟨m2, tr2, e1, e2, e3, e4⟩ := ih
      { m with
        st := { value := (env.planner m.pendingEvents m.st.value).user }, busy := 1,
        goroutines := gs ++ [[GoOp.storeBusy, GoOp.stageDone]] }
      hpend rfl hcl hp
    have hsplit : idleRounds (U := U) gs.length (n + 1) =
        [.go gs.length .eventsIn .ok, .go gs.length .eventsIn .ok] ++
          idleRounds gs.length n := rfl
    refine ⟨m2, [Obs.released, Obs.posted, Obs.planned m.pendingEvents m.st.value, Obs.trimmed 0,
      Obs.dispatched none (some (env.planner m.pendingEvents m.st.value).user)] ++ tr2,
      ?_, ?_, ?_, e4⟩
    · rw [hsplit]
      exact exec_append env _ _ m _ m2 _ tr2 hr e1
    · rw [plannedOf_append, e2]
      simp [plannedOf, List.replicate_succ]
    · rw [receivedOf_append, e3]
      simp [receivedOf]

/-- The stored state after a completed cycle is the one the planner left. -/
theorem runIter_trimmed_st (env : Env U S A) (fsm : StateMachine U S A) (sel : Select U)
    (fault : StoreFault) (c : Nat) (h : Obs.trimmed c ∈ (runIter env fsm sel fault).2) :
    (runIter env fsm sel fault).1.st =
      { value := (env.planner (batchOf fsm sel) fsm.st.value).user } := by
  rcases runIter_outcome env fsm sel fault with ⟨_, e⟩ | ⟨_, _, _, e⟩ |
    ⟨_, _, _, st', pl, hpl, _, e2⟩ | ⟨_, _, _, _, he, e1, e2⟩
  · rw [e] at h; simp at h
  · rw [e] at h
    obtain ⟨evt, hx⟩ := mem_recvObs sel _ h
    cases hx
  · rw [e2] at h
    simp only [List.mem_append] at h
    rcases h with (h | h) | h | h
    · obtain ⟨evt, hx⟩ := mem_recvObs sel _ h; cases hx
    · have hx := mem_forceObs env sel _ h; cases hx
    · rcases hpl with rfl | rfl <;> simp at h
    · simp at h
  · rw [e1]

/-- C18 as stated fails: the planner returns no Action, the count 0 and no
error for `[idle]`; the guard is released and the completion signal is taken
with `[idle]` still pending, but the Store fails before it reaches the
callback: the planner is not invoked again and the loop returns. -/
theorem C18_no_replan_when_store_fails :
    (exec demoEnv demoInit
        [.send (ev "idle") .eventsIn .ok, .go 0 .eventsIn .ok]).map
        (fun r => (r.1.pendingEvents, plannedOf r.2, r.1.busy))
      = some ([ev "idle"], [[ev "idle"]], 0) ∧
    (exec demoEnv demoInit
        [.send (ev "idle") .eventsIn .ok, .go 0 .eventsIn .ok,
         .go 0 .eventsIn (.before (.other "no state"))]).map
        (fun r => (r.1.pendingEvents, plannedOf r.2, r.1.closed))
      = some ([ev "idle"], [[ev "idle"]], true) := by
  decide

/-- C18, amended: a cycle that consumes nothing makes no progress and
re-plans.  If the planner returns no Action and the count 0 for a batch `b`
and the mutation succeeds, the pending batch is still `b` and the goroutine
spawned has only the release and the post to do; when it has done both, the
loop, on that completion signal, enters the critical section again and,
provided the Store reaches its callback, the planner is invoked on the
identical batch `b`, with the state the first call left.  If the Store fails
before its callback the planner is not invoked again and the loop returns.
With a planner that always returns this result and a Store that does not
fail, the rounds repeat for ever: after `n` completion signals the planner has
been called `n` more times on `b`, and no event was received. -/
theorem C18_idle_cycle_replans (env : Env U S A) (fsm : StateMachine U S A) (sel : Select U)
    (fault : StoreFault) (b : List (Event U)) (s : S)
    (hplan : Obs.planned b s ∈ (runIter env fsm sel fault).2)
    (htrim : Obs.trimmed 0 ∈ (runIter env fsm sel fault).2)
    (hnext : (env.planner b s).nextStep = none)
    (hcl : fsm.closed = false) (hp : fsm.panicked = false) :
    (runIter env fsm sel fault).1.pendingEvents = b ∧
    (runIter env fsm sel fault).1.goroutines =
      fsm.goroutines ++ [[GoOp.storeBusy, GoOp.stageDone]] ∧
    (runIter env fsm sel fault).1.busy = 1 ∧
    (∀ f2, (∀ e, f2 ≠ .before e) →
      ∃ m2 rest,
        exec env (runIter env fsm sel fault).1
            [.go fsm.goroutines.length .eventsIn .ok, .go fsm.goroutines.length .eventsIn f2]
          = some (m2, .released :: .posted :: rest) ∧
        plannedOf rest = [b] ∧
        Obs.planned b (env.planner b s).user ∈ rest) ∧
    ((∀ b1 s1, (env.planner b1 s1).nextStep = none ∧ (env.planner b1 s1).processed = 0 ∧
        (env.planner b1 s1).err = none) →
      ∀ n, ∃ m2 tr2,
        exec env (runIter env fsm sel fault).1 (idleRounds fsm.goroutines.length n)
          = some (m2, tr2) ∧
        plannedOf tr2 = List.replicate n b ∧ receivedOf tr2 = [] ∧ m2.pendingEvents = b) ∧
    (runIter env fsm sel fault).1.st = { value := (env.planner b s).user } ∧
    (∀ e,
      exec env (runIter env fsm sel fault).1
          [.go fsm.goroutines.length .eventsIn .ok,
           .go fsm.goroutines.length .eventsIn (.before e)]
        = some ({ (runIter env fsm sel fault).1 with
                  busy := 1, goroutines := fsm.goroutines, closed := true },
                [.released, .posted, .exited])) := by
  obtain ⟨hb, hs, hne, _⟩ := runIter_planned env fsm sel fault b s hplan
  obtain ⟨_, hpend, hgo, _⟩ := runIter_trimmed env fsm sel fault 0 htrim
  obtain ⟨hbusy, hclosed, hpan⟩ := runIter_trimmed_state env fsm sel fault 0 htrim
  have hst := runIter_trimmed_st env fsm sel fault 0 htrim
  subst hb hs
  have hlen : 0 < (batchOf fsm sel).length := List.length_pos.mpr hne
  simp only [hlen, if_true, List.drop_zero] at hpend
  rw [hnext] at hgo
  simp only [goFunc] at hgo
  have hne' : (runIter env fsm sel fault).1.pendingEvents ≠ [] := by rw [hpend]; exact hne
  have hcl' : (runIter env fsm sel fault).1.closed = false := by rw [hclosed]; exact hcl
  have hp' : (runIter env fsm sel fault).1.panicked = false := by rw [hpan]; exact hp
  refine ⟨hpend, hgo, hbusy, ?_, ?_, hst, ?_⟩
  · intro f2 hstore
    have hr := idle_round env (runIter env fsm sel fault).1 fsm.goroutines f2 hne' hgo hcl' hp'
    refine ⟨_, _, hr, ?_, ?_⟩
    · have := (critical_planned env
        { (runIter env fsm sel fault).1 with busy := 1, goroutines := fsm.goroutines } f2
        hstore).1
      rw [this]
      exact congrArg (fun x => [x]) hpend
    · have := (critical_planned env
        { (runIter env fsm sel fault).1 with busy := 1, goroutines := fsm.goroutines } f2
        hstore).2
      have hv : (runIter env fsm sel fault).1.st.value
          = (env.planner (batchOf fsm sel) fsm.st.value).user := by rw [hst]
      have key : Obs.planned (batchOf fsm sel)
            (env.planner (batchOf fsm sel) fsm.st.value).user
          = (Obs.planned (runIter env fsm sel fault).1.pendingEvents
              (runIter env fsm sel fault).1.st.value : Obs U S A) := by
        rw [hpend, hv]
      rw [key]
      exact this
  · intro hidle n
    obtain ⟨m2, tr2, e1, e2, e3, e4⟩ :=
      idle_rounds env fsm.goroutines hidle n (runIter env fsm sel fault).1 hne' hgo hcl' hp'
    exact ⟨m2, tr2, e1, by rw [e2, hpend], e3, by rw [e4, hpend]⟩
  · intro e
    have hr := idle_round env (runIter env fsm sel fault).1 fsm.goroutines (.before e) hne' hgo
      hcl' hp'
    rw [critical_before] at hr
    exact hr

/-- C18 at a concrete input: `idle` arrives at a fresh instance, the planner
consumes nothing and returns no Action; `[idle]` stays pending. -/
theorem C18_idle_cycle_replans_witness :
    (runIter demoEnv demoInit (.eventsIn (ev "idle")) .ok).1.pendingEvents = [ev "idle"] ∧
    (runIter demoEnv demoInit (.eventsIn (ev "idle")) .ok).1.goroutines
      = [[.storeBusy, .stageDone]] :=
  ⟨(C18_idle_cycle_replans demoEnv demoInit (.eventsIn (ev "idle")) .ok [ev "idle"] 0
      (by decide) (by decide) (by decide) (by decide) (by decide)).1,
   (C18_idle_cycle_replans demoEnv demoInit (.eventsIn (ev "idle")) .ok [ev "idle"] 0
      (by decide) (by decide) (by decide) (by decide) (by decide)).2.1⟩

/-- The state of the C18 witness after the cycle, and three further rounds
from it: three more planner calls on `[idle]`. -/
theorem demoIdle_rounds :
    (runIter demoEnv demoInit (.eventsIn (ev "idle")) .ok).1 = demoIdle ∧
    (exec demoEnv demoIdle (idleRounds 0 3)).map (fun r => (plannedOf r.2, r.1.pendingEvents))
      = some ([[ev "idle"], [ev "idle"], [ev "idle"]], [ev "idle"]) := by
  decide

end IdleCycle

end Statemachine
